import Mathlib

/-!
Verification of `boost::movelib::unique_ptr`.

A shallow embedding of `boost/move/unique_ptr.hpp`.

* Handles (`pointer`) are addresses, the null handle `pointer()` is `0`.
* A program state (`World`) holds the `unique_ptr` objects (addressed by their
  identity, so that two names may alias one object), the deleter objects that
  live outside the containers (the targets of reference deleters `D = A&`),
  the instrumented free store, and the trace of the deleter invocations.
* A deleter class is described by `deleter_ops`: what its special member
  functions and its call operator do to its own state and to the free store.
* A member function `unique_ptr<T, D>::f(args)` called on the object with
  identity `i` becomes `unique_ptr.f ops w i args`; the array specialisation
  `unique_ptr<T[], D>` is embedded apart, under `unique_ptr_array`.
  Using an object whose lifetime has ended yields `none`.
* The types of a program are terms (`cpp_type`), the traits of
  `boost/move/detail/meta_utils.hpp` and the gates of `unique_ptr.hpp` are functions
  on them, and what only the compiler knows (which nested types a class declares,
  which implicit conversions exist, which features it has) is a `compiler`.
* `boost/move/make_unique.hpp` is embedded with an allocation function as a
  parameter and the values of the objects on the free store (`Objects`).
-/

namespace movelib

/-! ## Data model -/

/-- The handle type `unique_ptr<T, D>::pointer`; `pointer()` is the null handle `0`. -/
abbrev pointer := Nat

/-- The instrumented free store: every live allocation with the number of counted
instances it holds (one for `new A`, `n` for `new A[n]`). -/
abbrev Heap := List (pointer × Nat)

/-- The instrumented instance counter (`A::count` of the tests). -/
def live_count (h : Heap) : Nat := (h.map Prod.snd).sum

/-- The expressions `delete ptr` and `delete [] ptr`: nothing on the null pointer,
otherwise the allocation at `ptr` and its instances are gone. -/
def cpp_delete (ptr : pointer) (h : Heap) : Heap :=
  if ptr = 0 then h else h.filter (fun a => a.1 != ptr)

/-- The behaviour of a deleter class with object states `D`. -/
structure deleter_ops (D : Type) where
  /-- Value-initialisation `D()`. -/
  ctor : D
  /-- The state of the deleter after `d(p)`; the call may look at the handles that the
  live containers store at that moment (a deleter may re-enter its container). -/
  call : D → pointer → List (Option pointer) → D
  /-- The effect of `d(p)` on the free store. -/
  dispose : D → pointer → Heap → Heap
  /-- Copy construction `D(src)` from an lvalue: the new object. -/
  copy_ctor : D → D
  /-- Move construction `D(move(src))`: the new object and `src` afterwards. -/
  move_ctor : D → D × D
  /-- Move assignment `dst = move(src)` of two objects: `dst` and `src` afterwards. -/
  move_assign : D → D → D × D
  /-- Move assignment `d = move(d)` of an object to itself. -/
  move_assign_self : D → D
  /-- Copy assignment `dst = src` of two objects: `dst` afterwards. -/
  copy_assign : D → D → D
  /-- Copy assignment `d = d` of an object to itself. -/
  copy_assign_self : D → D
  /-- The call `swap(a, b)` on two objects: `a` and `b` afterwards. -/
  swap : D → D → D × D
  /-- The call `swap(d, d)` on one object. -/
  swap_self : D → D

/-- Where `unique_ptr_data<P, D>` keeps its deleter: `D d` is an object when `D` is an
object type, and a reference bound to an outside deleter object when `D` is `A&`. -/
inductive deleter_storage (D : Type) where
  | member (d : D)
  | reference (k : Nat)
deriving DecidableEq, Repr

/-- The struct `unique_ptr_data<P, D>`. -/
structure unique_ptr_data (D : Type) where
  m_p : pointer
  d : deleter_storage D
deriving DecidableEq, Repr

/-- A `unique_ptr<T, D>` (or `unique_ptr<T[], D>`) object: its data and the compile-time
constant `is_default_deleter_t` of its class. -/
structure unique_ptr (D : Type) where
  m_data : unique_ptr_data D
  is_default_deleter_t : Bool
deriving DecidableEq, Repr

/-- An lvalue of deleter type, as returned by `m_data.deleter()`: the member of the
container `i`, or the outside deleter object `k`. -/
inductive deleter_lvalue where
  | of_member (i : Nat)
  | of_object (k : Nat)
deriving DecidableEq, Repr

/-- One deleter invocation `d(arg)`, with the handles the containers stored when it ran. -/
structure Event where
  d : deleter_lvalue
  arg : pointer
  view : List (Option pointer)
deriving DecidableEq, Repr

/-- A program state. `objs[i] = none` once the lifetime of object `i` has ended. -/
structure World (D : Type) where
  objs : List (Option (unique_ptr D))
  dels : List D
  heap : Heap
  log : List Event

/-- The live container with identity `i`. -/
def World.find {D : Type} (w : World D) (i : Nat) : Option (unique_ptr D) :=
  (w.objs[i]?).join

/-- Overwrites the container `i`. -/
def World.store {D : Type} (w : World D) (i : Nat) (u : unique_ptr D) : World D :=
  { w with objs := w.objs.set i (some u) }

/-- The handles that the containers store, `none` for the dead ones. -/
def World.view {D : Type} (w : World D) : List (Option pointer) :=
  w.objs.map (Option.map (fun u => u.m_data.m_p))

/-- The handles on which a deleter has been invoked, oldest first. -/
def World.calls {D : Type} (w : World D) : List pointer :=
  w.log.map Event.arg

/-- Member function `unique_ptr_data::deleter()` of the container `i`. -/
def unique_ptr_data.deleter {D : Type} (i : Nat) (m : unique_ptr_data D) : deleter_lvalue :=
  match m.d with
  | .member _ => .of_member i
  | .reference k => .of_object k

/-- Reads the deleter object that an lvalue designates. -/
def World.read {D : Type} (w : World D) (l : deleter_lvalue) : Option D :=
  match l with
  | .of_member i =>
    match w.find i with
    | some u =>
      match u.m_data.d with
      | .member d => some d
      | .reference _ => none
    | none => none
  | .of_object k => w.dels[k]?

/-- Writes the deleter object that an lvalue designates. -/
def World.write {D : Type} (w : World D) (l : deleter_lvalue) (d : D) : World D :=
  match l with
  | .of_member i =>
    match w.find i with
    | some u => w.store i { u with m_data := { u.m_data with d := .member d } }
    | none => w
  | .of_object k => { w with dels := w.dels.set k d }

/-! ## The code -/

/-- The call `d(p)` through a deleter lvalue. -/
def invoke {D : Type} (ops : deleter_ops D) (w : World D) (l : deleter_lvalue) (p : pointer) :
    Option (World D) :=
  match w.read l with
  | some d =>
    let w1 := w.write l (ops.call d p w.view)
    some { w1 with heap := ops.dispose d p w1.heap, log := w1.log ++ [⟨l, p, w.view⟩] }
  | none => none

/-- The two overloads of `unique_ptr_call_deleter(d, p, tag)`: `d(p)` for `true_type`
(the default deleter), `if(p) d(p)` for `false_type`. -/
def unique_ptr_call_deleter {D : Type} (ops : deleter_ops D) (w : World D) (d : deleter_lvalue)
    (p : pointer) (tag : Bool) : Option (World D) :=
  match tag with
  | true => invoke ops w d p
  | false => if p ≠ 0 then invoke ops w d p else some w

/-- Member function `unique_ptr::get()`. -/
def unique_ptr.get {D : Type} (w : World D) (i : Nat) : Option pointer :=
  (w.find i).map (fun u => u.m_data.m_p)

/-- Member function `unique_ptr::get_deleter()`: the stored deleter object. -/
def unique_ptr.get_deleter {D : Type} (w : World D) (i : Nat) : Option D :=
  match w.find i with
  | some u => w.read (u.m_data.deleter i)
  | none => none

/-- Member function `unique_ptr::release()`: the returned handle and the new state. -/
def unique_ptr.release {D : Type} (w : World D) (i : Nat) : Option (pointer × World D) :=
  match w.find i with
  | some u =>
    let tmp := u.m_data.m_p
    let w1 := w.store i { u with m_data := { u.m_data with m_p := 0 } }
    some (tmp, w1)
  | none => none

/-- Member function `unique_ptr::reset(pointer p = pointer())`. -/
def unique_ptr.reset {D : Type} (ops : deleter_ops D) (w : World D) (i : Nat) (p : pointer) :
    Option (World D) :=
  match w.find i with
  | some u =>
    let tmp := u.m_data.m_p
    let w1 := w.store i { u with m_data := { u.m_data with m_p := p } }
    unique_ptr_call_deleter ops w1 (u.m_data.deleter i) tmp u.is_default_deleter_t
  | none => none

/-- The end of the lifetime of the object `i`. -/
def World.kill {D : Type} (w : World D) (i : Nat) : World D :=
  { w with objs := w.objs.set i none }

/-- A new object: its identity and the new state. -/
def World.alloc {D : Type} (w : World D) (u : unique_ptr D) : Nat × World D :=
  (w.objs.length, { w with objs := w.objs ++ [some u] })

/-- The destructor `unique_ptr::~unique_ptr()`, after which the object is dead. -/
def unique_ptr.dtor {D : Type} (ops : deleter_ops D) (w : World D) (i : Nat) :
    Option (World D) :=
  match w.find i with
  | some u =>
    match unique_ptr_call_deleter ops w (u.m_data.deleter i) u.m_data.m_p
        u.is_default_deleter_t with
    | some w1 => some (w1.kill i)
    | none => none
  | none => none

/-- The move constructor `unique_ptr(BOOST_RV_REF(unique_ptr) u)`, which initialises
`m_data(u.release(), move_if_not_lvalue_reference<D>(u.get_deleter()))`: a reference deleter
is bound to the same deleter object, a member deleter is move constructed.
Returns the identity of the new object. -/
def unique_ptr.move_ctor {D : Type} (ops : deleter_ops D) (w : World D) (u : Nat) :
    Option (Nat × World D) :=
  match unique_ptr.release w u with
  | some (p, w1) =>
    match w1.find u with
    | some src =>
      match src.m_data.d with
      | .reference k =>
        some (w1.alloc { m_data := { m_p := p, d := .reference k },
                         is_default_deleter_t := src.is_default_deleter_t })
      | .member d =>
        let r := ops.move_ctor d
        let w2 := w1.write (.of_member u) r.2
        some (w2.alloc { m_data := { m_p := p, d := .member r.1 },
                         is_default_deleter_t := src.is_default_deleter_t })
    | none => none
  | none => none

/-- What a converting construction from `unique_ptr<U, E>` into `unique_ptr<T, D>` needs
to know of the two classes once the conversion gate has accepted the pair. -/
structure conversion (D : Type) where
  /-- The implicit conversion of `unique_ptr<U, E>::pointer` to `pointer`. -/
  ptr : pointer → pointer
  /-- Construction `D(move(e))` from an rvalue of `E`: the new object and `e` afterwards. -/
  from_rvalue : D → D × D
  /-- Construction `D(e)` from an lvalue of `E`. -/
  from_lvalue : D → D
  /-- Whether `D` is a reference type. -/
  is_reference : Bool
  /-- The constant `is_default_deleter_t` of `unique_ptr<T, D>`. -/
  is_default_deleter_t : Bool

/-- The converting move constructor `unique_ptr(BOOST_RV_REF(unique_ptr<U, E>) u)`, which
initialises `m_data(u.release(), move_if_not_lvalue_reference<E>(u.get_deleter()))`.
A reference `D` with a non-reference `E` is refused by the gate. -/
def unique_ptr.move_ctor_convert {D : Type} (c : conversion D) (w : World D) (u : Nat) :
    Option (Nat × World D) :=
  match unique_ptr.release w u with
  | some (p, w1) =>
    match w1.find u with
    | some src =>
      match src.m_data.d, c.is_reference with
      | .reference k, true =>
        some (w1.alloc { m_data := { m_p := c.ptr p, d := .reference k },
                         is_default_deleter_t := c.is_default_deleter_t })
      | .reference k, false =>
        match w1.dels[k]? with
        | some e =>
          some (w1.alloc { m_data := { m_p := c.ptr p, d := .member (c.from_lvalue e) },
                           is_default_deleter_t := c.is_default_deleter_t })
        | none => none
      | .member e, false =>
        let r := c.from_rvalue e
        let w2 := w1.write (.of_member u) r.2
        some (w2.alloc { m_data := { m_p := c.ptr p, d := .member r.1 },
                         is_default_deleter_t := c.is_default_deleter_t })
      | .member _, true => none
    | none => none
  | none => none

/-- The assignment `dst = move_if_not_lvalue_reference<E>(src)` between two deleter
lvalues: a copy assignment when `E` is an lvalue reference, a move assignment otherwise. -/
def assign_deleter {D : Type} (ops : deleter_ops D) (w : World D) (dst src : deleter_lvalue)
    (lvalue_ref : Bool) : Option (World D) :=
  match w.read dst, w.read src with
  | some a, some b =>
    if dst = src then
      some (w.write dst (if lvalue_ref then ops.copy_assign_self a else ops.move_assign_self a))
    else if lvalue_ref then
      some (w.write dst (ops.copy_assign a b))
    else
      let r := ops.move_assign a b
      some ((w.write dst r.1).write src r.2)
  | _, _ => none

/-- Whether the stored deleter is a reference. -/
def deleter_storage.is_reference {D : Type} (s : deleter_storage D) : Bool :=
  match s with
  | .member _ => false
  | .reference _ => true

/-- The move assignment `unique_ptr::operator=(BOOST_RV_REF(unique_ptr) u)` on the
object `t`:
`this->reset(u.release()); m_data.deleter() = move_if_not_lvalue_reference<D>(u.get_deleter());`
The converting move assignment has the same body, with `E` for `D` and the handle
converted on its way into `reset`; it is this function when that conversion keeps the
address. -/
def unique_ptr.move_assign {D : Type} (ops : deleter_ops D) (w : World D) (t u : Nat) :
    Option (World D) :=
  match unique_ptr.release w u with
  | some (p, w1) =>
    match unique_ptr.reset ops w1 t p with
    | some w2 =>
      match w2.find t, w2.find u with
      | some dst, some src =>
        assign_deleter ops w2 (dst.m_data.deleter t) (src.m_data.deleter u)
          src.m_data.d.is_reference
      | _, _ => none
    | none => none
  | none => none

/-- The call `swap(a, b)` on two deleter lvalues. -/
def swap_deleter {D : Type} (ops : deleter_ops D) (w : World D) (a b : deleter_lvalue) :
    Option (World D) :=
  match w.read a, w.read b with
  | some x, some y =>
    if a = b then some (w.write a (ops.swap_self x))
    else
      let r := ops.swap x y
      some ((w.write a r.1).write b r.2)
  | _, _ => none

/-- Member function `unique_ptr::swap(unique_ptr& u)` on the object `x`:
`swap(m_data.m_p, u.m_data.m_p); swap(m_data.deleter(), u.m_data.deleter());` -/
def unique_ptr.swap {D : Type} (ops : deleter_ops D) (w : World D) (x u : Nat) :
    Option (World D) :=
  match w.find x, w.find u with
  | some a, some b =>
    let w1 := (w.store x { a with m_data := { a.m_data with m_p := b.m_data.m_p } }).store u
      { b with m_data := { b.m_data with m_p := a.m_data.m_p } }
    swap_deleter ops w1 (a.m_data.deleter x) (b.m_data.deleter u)
  | _, _ => none

/-- What the gate has checked of the deleters before a converting construction from the
container `u`: a reference `D` only with a reference `E`; and a reference `E` is bound to
a live deleter object when `D` is constructed from it. -/
def conversion.accepts {D : Type} (c : conversion D) (w : World D) (u : unique_ptr D) : Bool :=
  match u.m_data.d with
  | .member _ => !c.is_reference
  | .reference k => c.is_reference || decide (k < w.dels.length)

/-! ### The array specialisation `unique_ptr<T[], D>` -/

/-- Member function `unique_ptr<T[], D>::get()`. -/
def unique_ptr_array.get {D : Type} (w : World D) (i : Nat) : Option pointer :=
  (w.find i).map (fun u => u.m_data.m_p)

/-- Member function `unique_ptr<T[], D>::get_deleter()`. -/
def unique_ptr_array.get_deleter {D : Type} (w : World D) (i : Nat) : Option D :=
  match w.find i with
  | some u => w.read (u.m_data.deleter i)
  | none => none

/-- Member function `unique_ptr<T[], D>::release()`. -/
def unique_ptr_array.release {D : Type} (w : World D) (i : Nat) : Option (pointer × World D) :=
  match w.find i with
  | some u =>
    let tmp := u.m_data.m_p
    let w1 := w.store i { u with m_data := { u.m_data with m_p := 0 } }
    some (tmp, w1)
  | none => none

/-- Member function template `unique_ptr<T[], D>::reset(P p)`, for a `P` that the gate
`enable_same_cvelement_and_convertible<P, pointer>` accepts. -/
def unique_ptr_array.reset {D : Type} (ops : deleter_ops D) (w : World D) (i : Nat)
    (p : pointer) : Option (World D) :=
  match w.find i with
  | some u =>
    let tmp := u.m_data.m_p
    let w1 := w.store i { u with m_data := { u.m_data with m_p := p } }
    unique_ptr_call_deleter ops w1 (u.m_data.deleter i) tmp u.is_default_deleter_t
  | none => none

/-- Member function `unique_ptr<T[], D>::reset()`. -/
def unique_ptr_array.reset_void {D : Type} (ops : deleter_ops D) (w : World D) (i : Nat) :
    Option (World D) :=
  match w.find i with
  | some u =>
    let tmp := u.m_data.m_p
    let w1 := w.store i { u with m_data := { u.m_data with m_p := 0 } }
    unique_ptr_call_deleter ops w1 (u.m_data.deleter i) tmp u.is_default_deleter_t
  | none => none

/-- Member function `unique_ptr<T[], D>::reset(std::nullptr_t)`, which is `this->reset()`. -/
def unique_ptr_array.reset_nullptr {D : Type} (ops : deleter_ops D) (w : World D) (i : Nat) :
    Option (World D) :=
  unique_ptr_array.reset_void ops w i

/-- The destructor `unique_ptr<T[], D>::~unique_ptr()`. -/
def unique_ptr_array.dtor {D : Type} (ops : deleter_ops D) (w : World D) (i : Nat) :
    Option (World D) :=
  match w.find i with
  | some u =>
    match unique_ptr_call_deleter ops w (u.m_data.deleter i) u.m_data.m_p
        u.is_default_deleter_t with
    | some w1 => some (w1.kill i)
    | none => none
  | none => none

/-- The move constructor of `unique_ptr<T[], D>`. -/
def unique_ptr_array.move_ctor {D : Type} (ops : deleter_ops D) (w : World D) (u : Nat) :
    Option (Nat × World D) :=
  match unique_ptr_array.release w u with
  | some (p, w1) =>
    match w1.find u with
    | some src =>
      match src.m_data.d with
      | .reference k =>
        some (w1.alloc { m_data := { m_p := p, d := .reference k },
                         is_default_deleter_t := src.is_default_deleter_t })
      | .member d =>
        let r := ops.move_ctor d
        let w2 := w1.write (.of_member u) r.2
        some (w2.alloc { m_data := { m_p := p, d := .member r.1 },
                         is_default_deleter_t := src.is_default_deleter_t })
    | none => none
  | none => none

/-- The converting move constructor of `unique_ptr<T[], D>` from `unique_ptr<U, E>`. -/
def unique_ptr_array.move_ctor_convert {D : Type} (c : conversion D) (w : World D) (u : Nat) :
    Option (Nat × World D) :=
  match unique_ptr_array.release w u with
  | some (p, w1) =>
    match w1.find u with
    | some src =>
      match src.m_data.d, c.is_reference with
      | .reference k, true =>
        some (w1.alloc { m_data := { m_p := c.ptr p, d := .reference k },
                         is_default_deleter_t := c.is_default_deleter_t })
      | .reference k, false =>
        match w1.dels[k]? with
        | some e =>
          some (w1.alloc { m_data := { m_p := c.ptr p, d := .member (c.from_lvalue e) },
                           is_default_deleter_t := c.is_default_deleter_t })
        | none => none
      | .member e, false =>
        let r := c.from_rvalue e
        let w2 := w1.write (.of_member u) r.2
        some (w2.alloc { m_data := { m_p := c.ptr p, d := .member r.1 },
                         is_default_deleter_t := c.is_default_deleter_t })
      | .member _, true => none
    | none => none
  | none => none

/-- The move assignment of `unique_ptr<T[], D>`; the converting one has the same body. -/
def unique_ptr_array.move_assign {D : Type} (ops : deleter_ops D) (w : World D) (t u : Nat) :
    Option (World D) :=
  match unique_ptr_array.release w u with
  | some (p, w1) =>
    match unique_ptr_array.reset ops w1 t p with
    | some w2 =>
      match w2.find t, w2.find u with
      | some dst, some src =>
        assign_deleter ops w2 (dst.m_data.deleter t) (src.m_data.deleter u)
          src.m_data.d.is_reference
      | _, _ => none
    | none => none
  | none => none

/-- Member function `unique_ptr<T[], D>::swap(unique_ptr& u)`. -/
def unique_ptr_array.swap {D : Type} (ops : deleter_ops D) (w : World D) (x u : Nat) :
    Option (World D) :=
  match w.find x, w.find u with
  | some a, some b =>
    let w1 := (w.store x { a with m_data := { a.m_data with m_p := b.m_data.m_p } }).store u
      { b with m_data := { b.m_data with m_p := a.m_data.m_p } }
    swap_deleter ops w1 (a.m_data.deleter x) (b.m_data.deleter u)
  | _, _ => none

/-! ### Deleter classes -/

/-- The structs `default_delete<T>` and `default_delete<T[]>`: no state, and a call
operator that is `delete ptr` (respectively `delete [] ptr`). -/
def default_delete : deleter_ops Unit :=
  { ctor := (),
    call := fun _ _ _ => (),
    dispose := fun _ ptr h => cpp_delete ptr h,
    copy_ctor := fun _ => (),
    move_ctor := fun _ => ((), ()),
    move_assign := fun _ _ => ((), ()),
    move_assign_self := fun _ => (),
    copy_assign := fun _ _ => (),
    copy_assign_self := fun _ => (),
    swap := fun _ _ => ((), ()),
    swap_self := fun _ => () }

/-- The test class `move_constr_deleter<T>`, its state the member `state_`: constructed
with state `5`, the call operator increments the state and deletes, a move takes the state
and leaves `0`. The class has no copy assignment; the swap is an exchange of the states. -/
def move_constr_deleter : deleter_ops Int :=
  { ctor := 5,
    call := fun state_ _ _ => state_ + 1,
    dispose := fun _ p h => cpp_delete p h,
    copy_ctor := fun r => r,
    move_ctor := fun r => (r, 0),
    move_assign := fun _ r => (r, 0),
    move_assign_self := fun _ => 0,
    copy_assign := fun a _ => a,
    copy_assign_self := fun a => a,
    swap := fun a b => (b, a),
    swap_self := fun a => a }

/-- The test class `def_constr_deleter<T>`, its state the member `state_`: constructed
with state `5`, the call operator increments the state and deletes. The class can be
neither copied nor moved, so it is only used through a reference. -/
def def_constr_deleter : deleter_ops Int :=
  { ctor := 5,
    call := fun state_ _ _ => state_ + 1,
    dispose := fun _ p h => cpp_delete p h,
    copy_ctor := fun r => r,
    move_ctor := fun r => (r, r),
    move_assign := fun a r => (a, r),
    move_assign_self := fun a => a,
    copy_assign := fun a _ => a,
    copy_assign_self := fun a => a,
    swap := fun a b => (a, b),
    swap_self := fun a => a }

/-- The test class `copy_constr_deleter<T>`, its state the member `state_`: constructed
with state `5`, the call operator increments the state and deletes, a copy takes the state
and leaves the source as it is; the class declares no move, so that a move is a copy. -/
def copy_constr_deleter : deleter_ops Int :=
  { ctor := 5,
    call := fun state_ _ _ => state_ + 1,
    dispose := fun _ p h => cpp_delete p h,
    copy_ctor := fun r => r,
    move_ctor := fun r => (r, r),
    move_assign := fun _ r => (r, r),
    move_assign_self := fun a => a,
    copy_assign := fun _ r => r,
    copy_assign_self := fun a => a,
    swap := fun a b => (b, a),
    swap_self := fun a => a }

/-! ### Layout of a state -/

/-- What of a container never changes: the constant `is_default_deleter_t` of its class
and, for a reference deleter, the deleter object it is bound to. -/
def unique_ptr.kind {D : Type} (u : unique_ptr D) : Bool × Option Nat :=
  (u.is_default_deleter_t,
    match u.m_data.d with
    | .member _ => none
    | .reference k => some k)

/-- The layout of a state: which objects live, of which kind, and how many deleter objects
there are outside the containers. -/
def World.shape {D : Type} (w : World D) : List (Option (Bool × Option Nat)) × Nat :=
  (w.objs.map (Option.map unique_ptr.kind), w.dels.length)

/-- No reference deleter dangles. -/
def World.wf {D : Type} (w : World D) : Prop :=
  ∀ i u k, w.find i = some u → u.m_data.d = .reference k → k < w.dels.length

/-! ## Concrete states, used to run the code -/

/-- A container of a class with a non-default deleter, owning the handle `7`, its deleter
a member in state `5`. -/
def u_owner : unique_ptr Int :=
  { m_data := { m_p := 7, d := .member 5 }, is_default_deleter_t := false }

/-- The conversion of the tests from `unique_ptr<B, move_constr_deleter<B> >` to
`unique_ptr<A, move_constr_deleter<A> >`: the address is kept and the deleter is move
constructed (it takes the state and leaves `0`). -/
def derived_to_base : conversion Int :=
  { ptr := fun p => p,
    from_rvalue := fun d => (d, 0),
    from_lvalue := fun d => d,
    is_reference := false,
    is_default_deleter_t := false }

/-- A state with the single container `u_owner`, whose object is the only allocation. -/
def w_single : World Int :=
  { objs := [some u_owner], dels := [], heap := [(7, 1)], log := [] }

/-- A second container of the class of `u_owner`, owning the handle `9`. -/
def u_other : unique_ptr Int :=
  { m_data := { m_p := 9, d := .member 5 }, is_default_deleter_t := false }

/-- Two containers of a class with the deleter `move_constr_deleter`, owning the handles
`7` and `9`. -/
def w_pair : World Int :=
  { objs := [some u_owner, some u_other], dels := [], heap := [(7, 1), (9, 1)], log := [] }

/-- An empty container whose deleter type is a reference (the test `unique_ptr_dtor_null`):
`def_constr_deleter<int> d; unique_ptr<int, def_constr_deleter<int>&> p(0, d);` -/
def u_null_ref : unique_ptr Int :=
  { m_data := { m_p := 0, d := .reference 0 }, is_default_deleter_t := false }

/-- The state of the test `unique_ptr_dtor_null`: the deleter object `d` is in state `5`. -/
def w_null_ref : World Int :=
  { objs := [some u_null_ref], dels := [5], heap := [(7, 1)], log := [] }

/-- An empty `unique_ptr<A>`, with the default deleter. -/
def u_default_null : unique_ptr Unit :=
  { m_data := { m_p := 0, d := .member () }, is_default_deleter_t := true }

/-- A state with the container `u_default_null` and one object alive elsewhere. -/
def w_default_null : World Unit :=
  { objs := [some u_default_null], dels := [], heap := [(7, 1)], log := [] }

/-! ### Runs of a program -/

/-- A statement of a program that works on the containers of a state. -/
inductive Op where
  /-- `unique_ptr<T, D> b(boost::move(u));` -/
  | move_ctor (u : Nat)
  /-- `t = boost::move(u);` -/
  | move_assign (t u : Nat)
  /-- `x.swap(u);`, which is also what `swap(x, u)` calls -/
  | swap (x u : Nat)
  /-- `i.release();`, the handle going to the caller -/
  | release (i : Nat)
  /-- `unique_ptr<T[], D> b(boost::move(u));` -/
  | array_move_ctor (u : Nat)
  /-- `t = boost::move(u);` on the array form -/
  | array_move_assign (t u : Nat)
  /-- `x.swap(u);` on the array form -/
  | array_swap (x u : Nat)
  /-- `i.release();` on the array form -/
  | array_release (i : Nat)
deriving DecidableEq, Repr

/-- The containers a statement names. -/
def Op.ids : Op → List Nat
  | .move_ctor u => [u]
  | .move_assign t u => [t, u]
  | .swap x u => [x, u]
  | .release i => [i]
  | .array_move_ctor u => [u]
  | .array_move_assign t u => [t, u]
  | .array_swap x u => [x, u]
  | .array_release i => [i]

/-- Whether a statement declares a new container. -/
def Op.creates : Op → Bool
  | .move_ctor _ => true
  | .array_move_ctor _ => true
  | _ => false

/-- Whether a statement is a call of `release()`. -/
def Op.is_release : Op → Bool
  | .release _ => true
  | .array_release _ => true
  | _ => false

/-- The execution of one statement. -/
def step {D : Type} (ops : deleter_ops D) (w : World D) : Op → Option (World D)
  | .move_ctor u => (unique_ptr.move_ctor ops w u).map Prod.snd
  | .move_assign t u => unique_ptr.move_assign ops w t u
  | .swap x u => unique_ptr.swap ops w x u
  | .release i => (unique_ptr.release w i).map Prod.snd
  | .array_move_ctor u => (unique_ptr_array.move_ctor ops w u).map Prod.snd
  | .array_move_assign t u => unique_ptr_array.move_assign ops w t u
  | .array_swap x u => unique_ptr_array.swap ops w x u
  | .array_release i => (unique_ptr_array.release w i).map Prod.snd

/-- The execution of a sequence of statements. -/
def run {D : Type} (ops : deleter_ops D) : World D → List Op → Option (World D)
  | w, [] => some w
  | w, op :: rest =>
    match step ops w op with
    | some w1 => run ops w1 rest
    | none => none

/-- A sequence of statements names only containers that exist when the statement runs,
`n` being the number of containers before the sequence. -/
def valid_run : Nat → List Op → Bool
  | _, [] => true
  | n, op :: rest =>
    op.ids.all (fun i => decide (i < n)) && valid_run (if op.creates then n + 1 else n) rest

/-- The destructors of the containers `ids`, one after the other. -/
def destroy {D : Type} (ops : deleter_ops D) : World D → List Nat → Option (World D)
  | w, [] => some w
  | w, i :: rest =>
    match unique_ptr.dtor ops w i with
    | some w1 => destroy ops w1 rest
    | none => none

/-- The end of the scope: every container is destroyed, the last declared first. -/
def destroy_all {D : Type} (ops : deleter_ops D) (w : World D) : Option (World D) :=
  destroy ops w (List.range w.objs.length).reverse

/-- Every container of the state is alive. -/
def World.alive {D : Type} (w : World D) : Prop :=
  none ∉ w.view

/-- No two distinct live containers hold the same non-null handle. -/
def World.no_sharing {D : Type} (w : World D) : Prop :=
  ∀ i j h, i ≠ j → unique_ptr.get w i = some h → unique_ptr.get w j = some h → h = 0

/-- How a statement may change who holds which handle, from `w` to `w1`: no reference
deleter dangles, a container is added exactly by a declaration, no container dies, no
non-null handle gains a holder, and, unless the statement is a `release()`, every non-null
handle keeps its number of holders, minus the deleter calls made on it. -/
def World.follows {D : Type} (w w1 : World D) (creates release : Bool) : Prop :=
  w1.wf ∧ w1.objs.length = (if creates then w.objs.length + 1 else w.objs.length) ∧
  (none ∈ w1.view → none ∈ w.view) ∧
  (∀ h, h ≠ 0 → w1.view.count (some h) ≤ w.view.count (some h)) ∧
  (release = false → ∀ h, h ≠ 0 →
    w1.view.count (some h) + w1.calls.count h = w.view.count (some h) + w.calls.count h)

/-- A program on the two containers of `w_pair`: moves, a self move assignment, swaps. -/
def prog_moves : List Op :=
  [.move_ctor 0, .move_assign 1 2, .swap 0 1, .move_assign 1 1, .array_move_ctor 1,
   .swap 2 2, .move_assign 0 3]

/-- The free function template `swap(unique_ptr<T, D> &x, unique_ptr<T, D> &y)`, which is
`x.swap(y)`: the member function of the class of `x`, the array specialisation when `T` is
an array type `U[]`. -/
def swap {D : Type} (ops : deleter_ops D) (T_is_array : Bool) (w : World D) (x y : Nat) :
    Option (World D) :=
  match T_is_array with
  | false => unique_ptr.swap ops w x y
  | true => unique_ptr_array.swap ops w x y

/-- Two containers of `unique_ptr<A, move_constr_deleter<A> >` as in the test
`unique_ptr_modifiers_swap`: the handles `7` and `9`, the deleters in the states `1`, `2`. -/
def w_swap : World Int :=
  { objs := [some { m_data := { m_p := 7, d := .member 1 }, is_default_deleter_t := false },
             some { m_data := { m_p := 9, d := .member 2 }, is_default_deleter_t := false }],
    dels := [], heap := [(7, 1), (9, 1)], log := [] }

/-! ## The types of a program, and the compile-time predicates -/

/-- The `const` and `volatile` qualifiers of a type. -/
structure cv_qualifiers where
  is_const : Bool
  is_volatile : Bool
deriving DecidableEq, Repr

/-- No qualifier. -/
def cv_qualifiers.none : cv_qualifiers := { is_const := false, is_volatile := false }

/-- The types that the templates of `unique_ptr.hpp` are instantiated with. -/
inductive cpp_type where
  /-- a fundamental type such as `int` or `void` -/
  | fundamental (name : String) (cv : cv_qualifiers)
  /-- a class type `name` -/
  | named (name : String) (cv : cv_qualifiers)
  /-- a class template specialisation `name<arg>` -/
  | template_id (name : String) (arg : cpp_type) (cv : cv_qualifiers)
  /-- `pointee *`, with the qualifiers of the pointer itself -/
  | pointer (pointee : cpp_type) (cv : cv_qualifiers)
  /-- `t &` -/
  | lvalue_reference (t : cpp_type)
  /-- `t &&` -/
  | rvalue_reference (t : cpp_type)
  /-- `elem []` -/
  | array_unknown_bound (elem : cpp_type)
  /-- `elem [n]` -/
  | array (elem : cpp_type) (n : Nat)
deriving DecidableEq, Repr

/-- The struct `nat` of `meta_utils.hpp`. -/
def nat : cpp_type := .named "nat" cv_qualifiers.none

/-- The class template specialisation `default_delete<T>`. -/
def default_delete_type (T : cpp_type) : cpp_type :=
  .template_id "default_delete" T cv_qualifiers.none

/-- `if_c<C, T1, T2>::type`. -/
def if_c (C : Bool) (T1 T2 : cpp_type) : cpp_type :=
  match C with
  | true => T1
  | false => T2

/-- `enable_if_c<B, T>`: the member `type` exists only when `B` is true. -/
def enable_if_c (B : Bool) (T : cpp_type) : Option cpp_type :=
  match B with
  | true => some T
  | false => none

/-- `remove_reference<T>::type`. -/
def remove_reference : cpp_type → cpp_type
  | .lvalue_reference t => t
  | .rvalue_reference t => t
  | t => t

/-- `remove_extent<T>::type`. -/
def remove_extent : cpp_type → cpp_type
  | .array_unknown_bound t => t
  | .array t _ => t
  | t => t

/-- `element_pointer<T>::type`, which is `remove_extent<T>::type *`. -/
def element_pointer (T : cpp_type) : cpp_type :=
  .pointer (remove_extent T) cv_qualifiers.none

/-- `is_same<T, U>::value`. -/
def is_same (T U : cpp_type) : Bool :=
  decide (T = U)

/-- `is_pointer<T>::value`: only the specialisation for `T*` is true. -/
def is_pointer : cpp_type → Bool
  | .pointer _ cv => decide (cv = cv_qualifiers.none)
  | _ => false

/-- `is_reference<T>::value`. -/
def is_reference : cpp_type → Bool
  | .lvalue_reference _ => true
  | .rvalue_reference _ => true
  | _ => false

/-- `is_lvalue_reference<T>::value`. -/
def is_lvalue_reference : cpp_type → Bool
  | .lvalue_reference _ => true
  | _ => false

/-- `add_lvalue_reference<T>::type`. -/
def add_lvalue_reference : cpp_type → cpp_type
  | .lvalue_reference t => .lvalue_reference t
  | .fundamental "void" cv => .fundamental "void" cv
  | t => .lvalue_reference t

/-- `is_array<T>::value`. -/
def is_array : cpp_type → Bool
  | .array_unknown_bound _ => true
  | .array _ _ => true
  | _ => false

/-- `natify<T>`, an empty class for every `T`. -/
def natify (T : cpp_type) : cpp_type :=
  .template_id "natify" T cv_qualifiers.none

/-- `remove_const<T>::type`; an array is qualified as its elements are. -/
def remove_const : cpp_type → cpp_type
  | .fundamental name cv => .fundamental name { cv with is_const := false }
  | .named name cv => .named name { cv with is_const := false }
  | .template_id name arg cv => .template_id name arg { cv with is_const := false }
  | .pointer pointee cv => .pointer pointee { cv with is_const := false }
  | .array_unknown_bound elem => .array_unknown_bound (remove_const elem)
  | .array elem n => .array (remove_const elem) n
  | t => t

/-- `remove_volatile<T>::type`. -/
def remove_volatile : cpp_type → cpp_type
  | .fundamental name cv => .fundamental name { cv with is_volatile := false }
  | .named name cv => .named name { cv with is_volatile := false }
  | .template_id name arg cv => .template_id name arg { cv with is_volatile := false }
  | .pointer pointee cv => .pointer pointee { cv with is_volatile := false }
  | .array_unknown_bound elem => .array_unknown_bound (remove_volatile elem)
  | .array elem n => .array (remove_volatile elem) n
  | t => t

/-- `remove_cv<T>::type`. -/
def remove_cv (T : cpp_type) : cpp_type :=
  remove_volatile (remove_const T)

/-- The qualifiers of a type at the top. -/
def cpp_type.cv : cpp_type → cv_qualifiers
  | .fundamental _ cv => cv
  | .named _ cv => cv
  | .template_id _ _ cv => cv
  | .pointer _ cv => cv
  | .array_unknown_bound elem => elem.cv
  | .array elem _ => elem.cv
  | _ => cv_qualifiers.none

/-- Every qualifier of the first set is in the second. -/
def cv_qualifiers.le (a b : cv_qualifiers) : Bool :=
  (!a.is_const || b.is_const) && (!a.is_volatile || b.is_volatile)

/-- What the compiler answers on the types of a program, and how it is configured. -/
structure compiler where
  /-- The type that `typename C::pointer` names, when the class `C` declares one. -/
  nested_pointer : cpp_type → Option cpp_type
  /-- Overload resolution on `dispatch(trigger())`, with `trigger` returning the first
  type and the overloads `dispatch(...)` and `dispatch(U)`, `U` the second type: whether
  `dispatch(U)` is chosen, that is, whether the value converts implicitly to `U`. -/
  converts : cpp_type → cpp_type → Bool
  /-- The macro `BOOST_NO_CXX11_RVALUE_REFERENCES` is defined. -/
  no_cxx11_rvalue_references : Bool
  /-- `BOOST_CLANG` is defined and `__has_feature(is_convertible_to)` holds. -/
  clang_is_convertible_to : Bool
  /-- The intrinsic `__is_convertible_to(E, D)`. -/
  intrinsic_is_convertible_to : cpp_type → cpp_type → Bool
  /-- The type that `typename C::element_type` names, when the type `C` declares one. -/
  nested_element_type : cpp_type → Option cpp_type
  /-- The macro `BOOST_NO_CXX11_DELETED_FUNCTIONS` is defined. -/
  no_cxx11_deleted_functions : Bool

/-- `has_pointer_type<T>::value`: the overload `test(typename U::pointer* = 0)` is viable
when `U::pointer` names a type to which a pointer can be formed. -/
def has_pointer_type (cc : compiler) (T : cpp_type) : Bool :=
  match cc.nested_pointer T with
  | some P => !is_reference P
  | none => false

/-- `pointer_type_imp<T, D, has>::type`: `D::pointer`, or `remove_extent<T>::type*`. -/
def pointer_type_imp (cc : compiler) (T D : cpp_type) (has : Bool) : Option cpp_type :=
  match has with
  | true => cc.nested_pointer D
  | false => some (.pointer (remove_extent T) cv_qualifiers.none)

/-- `pointer_type<T, D>::type`. -/
def pointer_type (cc : compiler) (T D : cpp_type) : Option cpp_type :=
  pointer_type_imp cc T (remove_reference D) (has_pointer_type cc (remove_reference D))

/-- The member typedef `unique_ptr<X, D>::pointer`: the array specialisation
`unique_ptr<T[], D>` is chosen for `X = T[]`, and names `pointer_type<T, D>::type`; the
primary template names `pointer_type<X, D>::type`. -/
def unique_ptr_pointer (cc : compiler) (X D : cpp_type) : Option cpp_type :=
  match X with
  | .array_unknown_bound T => pointer_type cc T D
  | _ => pointer_type cc X D

/-- `is_convertible<T, U>::value` (the portable definition). -/
def is_convertible (cc : compiler) (T U : cpp_type) : Bool :=
  cc.converts (add_lvalue_reference T) U

/-- `is_rvalue_convertible<T, U>::value`, with rvalue references. -/
def is_rvalue_convertible (cc : compiler) (T U : cpp_type) : Bool :=
  cc.converts (.rvalue_reference (remove_reference T)) U

/-- `unique_deleter_is_initializable<D, E>::value`. -/
def unique_deleter_is_initializable (cc : compiler) (D E : cpp_type) : Bool :=
  match is_reference D with
  | true => is_same D E
  | false =>
    if cc.no_cxx11_rvalue_references then true
    else if cc.clang_is_convertible_to then cc.intrinsic_is_convertible_to E D
    else is_rvalue_convertible cc E D

/-- `is_ptr_convertible<U, E, T, D>::value`. -/
def is_ptr_convertible (cc : compiler) (U E T D : cpp_type) : Bool :=
  match pointer_type cc U E, pointer_type cc T D with
  | some from_ptr, some to_ptr => is_convertible cc from_ptr to_ptr
  | _, _ => false

/-- `unique_moveconvert_assignable<T, D, U, E>::value`. -/
def unique_moveconvert_assignable (cc : compiler) (T D U E : cpp_type) : Bool :=
  let ptrconvert := is_ptr_convertible cc U E T D
  let notarray := !is_array U
  ptrconvert && notarray

/-- `unique_moveconvert_constructible<T, D, U, E>::value`. -/
def unique_moveconvert_constructible (cc : compiler) (T D U E : cpp_type) : Bool :=
  let massignable := unique_moveconvert_assignable cc T D U E
  massignable && unique_deleter_is_initializable cc D E

/-- `enable_unique_moveconvert_constructible<T, D, U, E, Type>`: its member `type`, which
the converting move constructor of the primary template names in a default argument. -/
def enable_unique_moveconvert_constructible (cc : compiler) (T D U E Type_ : cpp_type) :
    Option cpp_type :=
  enable_if_c (unique_moveconvert_constructible cc T D U E) Type_

/-- `enable_unique_moveconvert_assignable<T, D, U, E, Type>`: its member `type`, which is
the return type of the converting move assignment of the primary template. -/
def enable_unique_moveconvert_assignable (cc : compiler) (T D U E Type_ : cpp_type) :
    Option cpp_type :=
  enable_if_c (unique_moveconvert_assignable cc T D U E) Type_

/-- The constant `is_default_deleter_t` of the primary template `unique_ptr<T, D>`:
`is_same<D, default_delete<T> >::value`. -/
def is_default_deleter_t (T D : cpp_type) : Bool :=
  is_same D (default_delete_type T)

/-- The constant `is_default_deleter_t` of the specialisation `unique_ptr<T[], D>`:
`is_same<D, default_delete<T[]> >::value`. -/
def array_is_default_deleter_t (T D : cpp_type) : Bool :=
  is_same D (default_delete_type (.array_unknown_bound T))
/-! ### Constructors and observers -/

/-- The default constructor `unique_ptr()` of `unique_ptr<T, D>`, which initialises
`m_data()`, that is `m_p()` and `d()`; the two static assertions reject a `D` that is a
pointer or a reference type. `S` is the type of the states of the deleter objects.
Returns the identity of the new object. -/
def unique_ptr.ctor {S : Type} (ops : deleter_ops S) (T D : cpp_type) (w : World S) :
    Option (Nat × World S) :=
  if is_pointer D || is_reference D then none
  else some (w.alloc { m_data := { m_p := 0, d := .member ops.ctor },
                       is_default_deleter_t := movelib.is_default_deleter_t T D })

/-- The constructor `unique_ptr(std::nullptr_t)`, which initialises `m_data()`. -/
def unique_ptr.ctor_nullptr {S : Type} (ops : deleter_ops S) (T D : cpp_type) (w : World S) :
    Option (Nat × World S) :=
  if is_pointer D || is_reference D then none
  else some (w.alloc { m_data := { m_p := 0, d := .member ops.ctor },
                       is_default_deleter_t := movelib.is_default_deleter_t T D })

/-- The constructor `explicit unique_ptr(pointer p)`, which initialises `m_data(p)`, that
is `m_p(p)` and `d()`. -/
def unique_ptr.ctor_pointer {S : Type} (ops : deleter_ops S) (T D : cpp_type) (w : World S)
    (p : pointer) : Option (Nat × World S) :=
  if is_pointer D || is_reference D then none
  else some (w.alloc { m_data := { m_p := p, d := .member ops.ctor },
                       is_default_deleter_t := movelib.is_default_deleter_t T D })

/-- Whether a type is `const`-qualified at the top. -/
def cpp_type.is_const : cpp_type → Bool
  | .fundamental _ cv => cv.is_const
  | .named _ cv => cv.is_const
  | .template_id _ _ cv => cv.is_const
  | .pointer _ cv => cv.is_const
  | _ => false

/-- The constructor `unique_ptr(pointer p, deleter_arg_type1 d1)`, which initialises
`m_data(p, d1)`, that is `m_p(p)` and `d(d1)`; `d1` designates the deleter object `k`.
`deleter_arg_type1` is `D` when `D` is an lvalue reference, and the member `d` is then
bound to the object; otherwise it is `const D&`, and `d` is copy constructed. -/
def unique_ptr.ctor_pointer_deleter1 {S : Type} (ops : deleter_ops S) (T D : cpp_type)
    (w : World S) (p : pointer) (k : Nat) : Option (Nat × World S) :=
  match w.dels[k]? with
  | some d1 =>
    match D with
    | .lvalue_reference _ =>
      some (w.alloc { m_data := { m_p := p, d := .reference k },
                      is_default_deleter_t := movelib.is_default_deleter_t T D })
    | .rvalue_reference _ => none
    | _ =>
      some (w.alloc { m_data := { m_p := p, d := .member (ops.copy_ctor d1) },
                      is_default_deleter_t := movelib.is_default_deleter_t T D })
  | none => none

/-- The constructor `unique_ptr(pointer p, deleter_arg_type2 d2)`, which initialises
`m_data(p, ::boost::move(d2))`, that is `m_p(p)` and `d(::boost::move(d2))`; `d2` is an
rvalue of the deleter object `k`. The member `d` is move constructed; when `D` is an lvalue
reference it is bound, which the language allows only for a reference to `const`. -/
def unique_ptr.ctor_pointer_deleter2 {S : Type} (ops : deleter_ops S) (T D : cpp_type)
    (w : World S) (p : pointer) (k : Nat) : Option (Nat × World S) :=
  match w.dels[k]? with
  | some d2 =>
    match D with
    | .lvalue_reference A =>
      if A.is_const then
        some (w.alloc { m_data := { m_p := p, d := .reference k },
                        is_default_deleter_t := movelib.is_default_deleter_t T D })
      else none
    | .rvalue_reference _ => none
    | _ =>
      let r := ops.move_ctor d2
      some (({ w with dels := w.dels.set k r.2 } : World S).alloc
        { m_data := { m_p := p, d := .member r.1 },
          is_default_deleter_t := movelib.is_default_deleter_t T D })
  | none => none

/-- The conversion `operator int nat::*() const`, used as the conversion to `bool`:
`m_data.m_p ? &nat::for_bool : (int nat::*)0`; `true` stands for the non-null result. -/
def unique_ptr.operator_bool {S : Type} (w : World S) (i : Nat) : Option Bool :=
  (w.find i).map (fun u => if u.m_data.m_p ≠ 0 then true else false)

/-- The default constructor of `unique_ptr<T[], D>`. -/
def unique_ptr_array.ctor {S : Type} (ops : deleter_ops S) (T D : cpp_type) (w : World S) :
    Option (Nat × World S) :=
  if is_pointer D || is_reference D then none
  else some (w.alloc { m_data := { m_p := 0, d := .member ops.ctor },
                       is_default_deleter_t := array_is_default_deleter_t T D })

/-- The constructor `unique_ptr(std::nullptr_t)` of `unique_ptr<T[], D>`. -/
def unique_ptr_array.ctor_nullptr {S : Type} (ops : deleter_ops S) (T D : cpp_type)
    (w : World S) : Option (Nat × World S) :=
  if is_pointer D || is_reference D then none
  else some (w.alloc { m_data := { m_p := 0, d := .member ops.ctor },
                       is_default_deleter_t := array_is_default_deleter_t T D })

/-- The constructor template `explicit unique_ptr(P p)` of `unique_ptr<T[], D>`, for a
`P` that the gate `enable_same_cvelement_and_convertible<P, pointer>` accepts. -/
def unique_ptr_array.ctor_pointer {S : Type} (ops : deleter_ops S) (T D : cpp_type)
    (w : World S) (p : pointer) : Option (Nat × World S) :=
  if is_pointer D || is_reference D then none
  else some (w.alloc { m_data := { m_p := p, d := .member ops.ctor },
                       is_default_deleter_t := array_is_default_deleter_t T D })

/-- The constructor template `unique_ptr(P p, deleter_arg_type1 d1)` of
`unique_ptr<T[], D>`, for a `P` that the gate accepts. -/
def unique_ptr_array.ctor_pointer_deleter1 {S : Type} (ops : deleter_ops S) (T D : cpp_type)
    (w : World S) (p : pointer) (k : Nat) : Option (Nat × World S) :=
  match w.dels[k]? with
  | some d1 =>
    match D with
    | .lvalue_reference _ =>
      some (w.alloc { m_data := { m_p := p, d := .reference k },
                      is_default_deleter_t := array_is_default_deleter_t T D })
    | .rvalue_reference _ => none
    | _ =>
      some (w.alloc { m_data := { m_p := p, d := .member (ops.copy_ctor d1) },
                      is_default_deleter_t := array_is_default_deleter_t T D })
  | none => none

/-- The constructor template `unique_ptr(P p, deleter_arg_type2 d2)` of
`unique_ptr<T[], D>`, for a `P` that the gate accepts. -/
def unique_ptr_array.ctor_pointer_deleter2 {S : Type} (ops : deleter_ops S) (T D : cpp_type)
    (w : World S) (p : pointer) (k : Nat) : Option (Nat × World S) :=
  match w.dels[k]? with
  | some d2 =>
    match D with
    | .lvalue_reference A =>
      if A.is_const then
        some (w.alloc { m_data := { m_p := p, d := .reference k },
                        is_default_deleter_t := array_is_default_deleter_t T D })
      else none
    | .rvalue_reference _ => none
    | _ =>
      let r := ops.move_ctor d2
      some (({ w with dels := w.dels.set k r.2 } : World S).alloc
        { m_data := { m_p := p, d := .member r.1 },
          is_default_deleter_t := array_is_default_deleter_t T D })
  | none => none

/-- The conversion `operator int nat::*() const` of `unique_ptr<T[], D>`. -/
def unique_ptr_array.operator_bool {S : Type} (w : World S) (i : Nat) : Option Bool :=
  (w.find i).map (fun u => if u.m_data.m_p ≠ 0 then true else false)

/-- The types `int`, `A` and the deleter classes of the tests. -/
def int_type : cpp_type := .fundamental "int" cv_qualifiers.none

/-- The class `A` of the tests. -/
def A_type : cpp_type := .named "A" cv_qualifiers.none

/-- The class `B` of the tests, derived from `A`. -/
def B_type : cpp_type := .named "B" cv_qualifiers.none

/-- The specialisation `def_constr_deleter<T>` of the tests. -/
def def_constr_deleter_type (T : cpp_type) : cpp_type :=
  .template_id "def_constr_deleter" T cv_qualifiers.none

/-- The specialisation `copy_constr_deleter<T>` of the tests. -/
def copy_constr_deleter_type (T : cpp_type) : cpp_type :=
  .template_id "copy_constr_deleter" T cv_qualifiers.none

/-- The specialisation `move_constr_deleter<T>` of the tests. -/
def move_constr_deleter_type (T : cpp_type) : cpp_type :=
  .template_id "move_constr_deleter" T cv_qualifiers.none

/-- A state with no container, an outside deleter object in state `5` and the object at
`7` on the free store. -/
def w_outside : World Int :=
  { objs := [], dels := [5], heap := [(7, 1)], log := [] }
/-! ### Comparison operators -/

/-- The operators `==`, `!=`, `<`, `>`, `<=` and `>=` that the handle type `pointer`
provides. -/
structure pointer_ops where
  /-- The operator `==`. -/
  eq : pointer → pointer → Bool
  /-- The operator `!=`. -/
  ne : pointer → pointer → Bool
  /-- The operator `<`. -/
  lt : pointer → pointer → Bool
  /-- The operator `>`. -/
  gt : pointer → pointer → Bool
  /-- The operator `<=`. -/
  le : pointer → pointer → Bool
  /-- The operator `>=`. -/
  ge : pointer → pointer → Bool

/-- The six operators agree with each other, as those of a total order do. -/
def pointer_ops.consistent (po : pointer_ops) : Prop :=
  ∀ a b, po.ne a b = !po.eq a b ∧ po.gt a b = po.lt b a ∧ po.le a b = !po.lt b a ∧
    po.ge a b = !po.lt a b

/-- The built-in operators on raw pointers. -/
def raw_pointer_ops : pointer_ops :=
  { eq := fun a b => decide (a = b), ne := fun a b => decide (a ≠ b),
    lt := fun a b => decide (a < b), gt := fun a b => decide (a > b),
    le := fun a b => decide (a ≤ b), ge := fun a b => decide (a ≥ b) }

/-- The operator `x == y`: `x.get() == y.get()`. -/
def operator_eq {D : Type} (po : pointer_ops) (w : World D) (x y : Nat) : Option Bool :=
  match unique_ptr.get w x, unique_ptr.get w y with
  | some a, some b => some (po.eq a b)
  | _, _ => none

/-- The operator `x != y`: `x.get() != y.get()`. -/
def operator_ne {D : Type} (po : pointer_ops) (w : World D) (x y : Nat) : Option Bool :=
  match unique_ptr.get w x, unique_ptr.get w y with
  | some a, some b => some (po.ne a b)
  | _, _ => none

/-- The operator `x < y`: `x.get() < y.get()`. -/
def operator_lt {D : Type} (po : pointer_ops) (w : World D) (x y : Nat) : Option Bool :=
  match unique_ptr.get w x, unique_ptr.get w y with
  | some a, some b => some (po.lt a b)
  | _, _ => none

/-- The operator `x <= y`: `!(y < x)`. -/
def operator_le {D : Type} (po : pointer_ops) (w : World D) (x y : Nat) : Option Bool :=
  (operator_lt po w y x).map (fun b => !b)

/-- The operator `x > y`: `y < x`. -/
def operator_gt {D : Type} (po : pointer_ops) (w : World D) (x y : Nat) : Option Bool :=
  operator_lt po w y x

/-- The operator `x >= y`: `!(x < y)`. -/
def operator_ge {D : Type} (po : pointer_ops) (w : World D) (x y : Nat) : Option Bool :=
  (operator_lt po w x y).map (fun b => !b)

/-- The operator `x == nullptr`: `!x`. -/
def operator_eq_nullptr {D : Type} (w : World D) (x : Nat) : Option Bool :=
  (unique_ptr.operator_bool w x).map (fun b => !b)

/-- The operator `nullptr == x`: `!x`. -/
def nullptr_operator_eq {D : Type} (w : World D) (x : Nat) : Option Bool :=
  (unique_ptr.operator_bool w x).map (fun b => !b)

/-- The operator `x != nullptr`: `!!x`. -/
def operator_ne_nullptr {D : Type} (w : World D) (x : Nat) : Option Bool :=
  (unique_ptr.operator_bool w x).map (fun b => !!b)

/-- The operator `nullptr != x`: `!!x`. -/
def nullptr_operator_ne {D : Type} (w : World D) (x : Nat) : Option Bool :=
  (unique_ptr.operator_bool w x).map (fun b => !!b)

/-- The operator `x < nullptr`: `x.get() < pointer()`. -/
def operator_lt_nullptr {D : Type} (po : pointer_ops) (w : World D) (x : Nat) : Option Bool :=
  (unique_ptr.get w x).map (fun a => po.lt a 0)

/-- The operator `nullptr < x`: `pointer() < x.get()`. -/
def nullptr_operator_lt {D : Type} (po : pointer_ops) (w : World D) (x : Nat) : Option Bool :=
  (unique_ptr.get w x).map (fun a => po.lt 0 a)

/-- The operator `x > nullptr`: `x.get() > pointer()`. -/
def operator_gt_nullptr {D : Type} (po : pointer_ops) (w : World D) (x : Nat) : Option Bool :=
  (unique_ptr.get w x).map (fun a => po.gt a 0)

/-- The operator `nullptr > x`: `pointer() > x.get()`. -/
def nullptr_operator_gt {D : Type} (po : pointer_ops) (w : World D) (x : Nat) : Option Bool :=
  (unique_ptr.get w x).map (fun a => po.gt 0 a)

/-- The operator `x <= nullptr`: `!(nullptr < x)`. -/
def operator_le_nullptr {D : Type} (po : pointer_ops) (w : World D) (x : Nat) : Option Bool :=
  (nullptr_operator_lt po w x).map (fun b => !b)

/-- The operator `nullptr <= x`: `!(x < nullptr)`. -/
def nullptr_operator_le {D : Type} (po : pointer_ops) (w : World D) (x : Nat) : Option Bool :=
  (operator_lt_nullptr po w x).map (fun b => !b)

/-- The operator `x >= nullptr`: `!(x < nullptr)`. -/
def operator_ge_nullptr {D : Type} (po : pointer_ops) (w : World D) (x : Nat) : Option Bool :=
  (operator_lt_nullptr po w x).map (fun b => !b)

/-- The operator `nullptr >= x`: `!(nullptr < x)`. -/
def nullptr_operator_ge {D : Type} (po : pointer_ops) (w : World D) (x : Nat) : Option Bool :=
  (nullptr_operator_lt po w x).map (fun b => !b)

/-! ### A compiler on the declarations of the tests -/

/-- The class `Deleter` of the tests, which declares `struct pointer {}`. -/
def Deleter_type : cpp_type := .named "Deleter" cv_qualifiers.none

/-- The nested class `Deleter::pointer`. -/
def Deleter_pointer_type : cpp_type := .named "Deleter::pointer" cv_qualifiers.none

/-- The implicit conversions of the tests: a value converts to its own type; a `B*` to an
`A*`, as `B` derives from `A`; an `X*` to a `Y*` when `Y` is `X` with more qualifiers; a
`default_delete<B>` to a `default_delete<A>` and a `default_delete<X[]>` to a
`default_delete<Y[]>` when `Y` is `X` with more qualifiers, by the converting constructors
of `default_delete`. -/
def test_converts (src dst : cpp_type) : Bool :=
  decide (remove_reference src = dst) ||
    (decide (remove_reference src = .pointer B_type cv_qualifiers.none) &&
      decide (dst = .pointer A_type cv_qualifiers.none)) ||
    (decide (remove_reference src = default_delete_type B_type) &&
      decide (dst = default_delete_type A_type)) ||
    (match remove_reference src, dst with
      | .pointer X c1, .pointer Y c2 =>
        decide (c1 = cv_qualifiers.none) && decide (c2 = cv_qualifiers.none) &&
          decide (remove_cv X = remove_cv Y) && X.cv.le Y.cv
      | .template_id n1 (.array_unknown_bound X) c1,
          .template_id n2 (.array_unknown_bound Y) c2 =>
        decide (n1 = "default_delete") && decide (n2 = "default_delete") &&
          decide (c1 = cv_qualifiers.none) && decide (c2 = cv_qualifiers.none) &&
          decide (remove_cv X = remove_cv Y) && X.cv.le Y.cv
      | _, _ => false)

/-- The answers of a compiler with rvalue references and deleted functions on the
declarations of the tests: `Deleter` alone declares a nested `pointer`, no type declares
a nested `element_type`, and the implicit conversions are those of `test_converts`. -/
def test_compiler : compiler :=
  { nested_pointer := fun C => if C = Deleter_type then some Deleter_pointer_type else none,
    converts := test_converts,
    no_cxx11_rvalue_references := false,
    clang_is_convertible_to := false,
    intrinsic_is_convertible_to := fun _ _ => false,
    nested_element_type := fun _ => none,
    no_cxx11_deleted_functions := false }

/-- The same compiler without rvalue references and without deleted functions, as a
C++03 compiler is. -/
def test_compiler_cxx03 : compiler :=
  { test_compiler with no_cxx11_rvalue_references := true,
                       no_cxx11_deleted_functions := true }

/-- The type `unique_ptr<A, copy_constr_deleter<A>&>&`, which the converting move
assignment of the test `unique_ptr_asgn_move_convert03` returns. -/
def unique_ptr_A_ref_type : cpp_type :=
  .lvalue_reference (.named "unique_ptr<A, copy_constr_deleter<A>&>" cv_qualifiers.none)

/-! ### The gates of the array specialisation and of `default_delete` -/

/-- `get_element_type<T>::type`: `X` for `T = X*`; otherwise `T::element_type` when the
overload `test(int, typename X::element_type*)` is viable, and `natify<T>` when not. -/
def get_element_type (cc : compiler) (T : cpp_type) : cpp_type :=
  match T with
  | .pointer X { is_const := false, is_volatile := false } => X
  | _ =>
    match cc.nested_element_type T with
    | some E => if is_reference E then natify T else E
    | none => natify T

/-- `get_cvelement<T>::type`. -/
def get_cvelement (cc : compiler) (T : cpp_type) : cpp_type :=
  remove_cv (get_element_type cc T)

/-- `is_same_cvelement_and_convertible<P1, P2>::value`. -/
def is_same_cvelement_and_convertible (cc : compiler) (P1 P2 : cpp_type) : Bool :=
  let arg1 := remove_reference P1
  let arg2 := remove_reference P2
  let same_cvless := is_same (get_cvelement cc arg1) (get_cvelement cc arg2)
  same_cvless && is_convertible cc arg1 arg2

/-- `enable_same_cvelement_and_convertible<P1, P2, Type>`: its member `type`. -/
def enable_same_cvelement_and_convertible (cc : compiler) (P1 P2 Type_ : cpp_type) :
    Option cpp_type :=
  enable_if_c (is_same_cvelement_and_convertible cc P1 P2) Type_

/-- `is_unique_acceptable<OtherIsArray, IsArray, FromPointer, ThisPointer>::value`. -/
def is_unique_acceptable (cc : compiler) (OtherIsArray IsArray : Bool)
    (FromPointer ThisPointer : cpp_type) : Bool :=
  match IsArray with
  | true => OtherIsArray && is_same_cvelement_and_convertible cc FromPointer ThisPointer
  | false => !OtherIsArray && is_convertible cc FromPointer ThisPointer

/-- `enable_default_delete<U, T, Type>`: its member `type`. -/
def enable_default_delete (cc : compiler) (U T Type_ : cpp_type) : Option cpp_type :=
  enable_if_c (is_unique_acceptable cc (is_array U) (is_array T) (element_pointer U)
    (element_pointer T)) Type_

/-- `uniquearray_moveconvert_assignable<T, D, U, E>::value`. -/
def uniquearray_moveconvert_assignable (cc : compiler) (T D U E : cpp_type) : Bool :=
  match pointer_type cc U E, pointer_type cc T D with
  | some from_ptr, some to_ptr =>
    let ptrconvert := is_same_cvelement_and_convertible cc from_ptr to_ptr
    let yesarray := is_array U
    ptrconvert && yesarray
  | _, _ => false

/-- `uniquearray_moveconvert_constructible<T, D, U, E>::value`. -/
def uniquearray_moveconvert_constructible (cc : compiler) (T D U E : cpp_type) : Bool :=
  let massignable := uniquearray_moveconvert_assignable cc T D U E
  massignable && unique_deleter_is_initializable cc D E

/-- `enable_uniquearray_moveconvert_constructible<T, D, U, E, Type>`: its member `type`,
which the converting move constructor of `unique_ptr<T[], D>` names in a default
argument. -/
def enable_uniquearray_moveconvert_constructible (cc : compiler) (T D U E Type_ : cpp_type) :
    Option cpp_type :=
  enable_if_c (uniquearray_moveconvert_constructible cc T D U E) Type_

/-- `enable_uniquearray_moveconvert_assignable<T, D, U, E, Type>`: its member `type`, which
is the return type of the converting move assignment of `unique_ptr<T[], D>`. -/
def enable_uniquearray_moveconvert_assignable (cc : compiler) (T D U E Type_ : cpp_type) :
    Option cpp_type :=
  enable_if_c (uniquearray_moveconvert_assignable cc T D U E) Type_

/-- The converting constructor `default_delete<T>::default_delete(const default_delete<U>&)`
of the primary template: the type of its second parameter, when it exists. -/
def default_delete_convert_ctor (cc : compiler) (T U : cpp_type) : Option cpp_type :=
  (enable_default_delete cc U T nat).map (fun t => .pointer t cv_qualifiers.none)

/-- The converting assignment `default_delete<T>::operator=(const default_delete<U>&)` of
the primary template: its return type, when it exists. -/
def default_delete_convert_assign (cc : compiler) (T U : cpp_type) : Option cpp_type :=
  enable_default_delete cc U T (.lvalue_reference (default_delete_type T))

/-- The converting constructor of the specialisation `default_delete<T[]>`: the type of
its second parameter, when it exists. -/
def default_delete_array_convert_ctor (cc : compiler) (T U : cpp_type) : Option cpp_type :=
  (enable_default_delete cc U (.array_unknown_bound T) nat).map
    (fun t => .pointer t cv_qualifiers.none)

/-- The converting assignment of the specialisation `default_delete<T[]>`: its return
type, when it exists. -/
def default_delete_array_convert_assign (cc : compiler) (T U : cpp_type) : Option cpp_type :=
  enable_default_delete cc U (.array_unknown_bound T)
    (.lvalue_reference (default_delete_type (.array_unknown_bound T)))

/-- What a call `d(ptr)` resolves to. -/
inductive call_resolution where
  /-- a function that is defined is chosen, and runs -/
  | executes
  /-- a function defined as deleted is chosen: the program is ill-formed -/
  | deleted
  /-- no function is viable: the program is ill-formed -/
  | no_match
deriving DecidableEq, Repr

/-- The call `d(ptr)` on a `default_delete<T[]>` with `ptr` of type `U*`. With deleted
functions the candidates are `operator()(T* ptr)` and the deleted template
`operator()(U*)`: the template is an exact match for every `U*`, so the function that is
not a template is chosen only when it is an exact match too, that is for `U = T`. Without
them the only candidate is the template `operator()(U* ptr, typename
enable_default_delete<U[], T[]>::type* = 0)`. -/
def default_delete_array_call (cc : compiler) (T U : cpp_type) : call_resolution :=
  match cc.no_cxx11_deleted_functions with
  | false => if U = T then .executes else .deleted
  | true =>
    match enable_default_delete cc (.array_unknown_bound U) (.array_unknown_bound T) nat with
    | some _ => .executes
    | none => .no_match

/-- The constructor template `explicit unique_ptr(P p, typename
enable_same_cvelement_and_convertible<P, pointer>::type* = 0)` of `unique_ptr<T[], D>`,
called with an argument of type `P`. -/
def unique_ptr_array.ctor_pointer_template {S : Type} (cc : compiler) (ops : deleter_ops S)
    (T D P : cpp_type) (w : World S) (p : pointer) : Option (Nat × World S) :=
  match pointer_type cc T D with
  | some ptr =>
    match enable_same_cvelement_and_convertible cc P ptr nat with
    | some _ => unique_ptr_array.ctor_pointer ops T D w p
    | none => none
  | none => none

/-- The type `const A`. -/
def const_A_type : cpp_type := .named "A" { is_const := true, is_volatile := false }

/-- The type `const volatile A`. -/
def const_volatile_A_type : cpp_type := .named "A" { is_const := true, is_volatile := true }

/-- The compiler follows the rule of the language on qualification conversions between
pointers to one type: `X*` converts implicitly to `Y*`, for `X` and `Y` that are the same
type once their qualifiers are removed, exactly when `Y` has every qualifier of `X`. -/
def compiler.qualification_conversions (cc : compiler) : Prop :=
  ∀ X Y, remove_cv X = remove_cv Y →
    (is_convertible cc (.pointer X cv_qualifiers.none) (.pointer Y cv_qualifiers.none) = true ↔
      X.cv.le Y.cv = true)

/-! ### `make_unique` -/

/-- The specialisation `unique_ptr<T>`, whose deleter is `default_delete<T>`. -/
def unique_ptr_type (T : cpp_type) : cpp_type :=
  .template_id "unique_ptr" T cv_qualifiers.none

/-- The type `void`. -/
def void_type : cpp_type := .fundamental "void" cv_qualifiers.none

/-- The member types that a specialisation of `unique_ptr_if` declares. -/
structure unique_ptr_if_members where
  t_is_not_array : Option cpp_type
  t_is_array_of_unknown_bound : Option cpp_type
  t_is_array_of_known_bound : Option cpp_type
deriving DecidableEq, Repr

/-- The struct `unique_ptr_if<T>`, with its specialisations for `T[]` and `T[N]`. -/
def unique_ptr_if : cpp_type → unique_ptr_if_members
  | .array_unknown_bound T =>
    { t_is_not_array := none,
      t_is_array_of_unknown_bound := some (unique_ptr_type (.array_unknown_bound T)),
      t_is_array_of_known_bound := none }
  | .array _ _ =>
    { t_is_not_array := none,
      t_is_array_of_unknown_bound := none,
      t_is_array_of_known_bound := some void_type }
  | T =>
    { t_is_not_array := some (unique_ptr_type T),
      t_is_array_of_unknown_bound := none,
      t_is_array_of_known_bound := none }

/-- The values of the objects on the free store: the elements of each allocation, the
latest allocation first. -/
abbrev Objects (V : Type) := List (pointer × List V)

/-- The elements of the allocation at `p`. -/
def objects_at {V : Type} (m : Objects V) (p : pointer) : Option (List V) :=
  (m.find? (fun a => a.1 == p)).map Prod.snd

/-- An allocation function that always succeeds: `1` past the largest live address. -/
def fresh_address (h : Heap) : pointer :=
  (h.map Prod.fst).foldr max 0 + 1

/-- The expression `new T(args...)`, where the allocation function returns the address
`operator_new h` and the constructor of `T` makes the value `v` of the arguments: the
result, the free store and the objects afterwards. An allocation that fails throws, and
is not embedded. -/
def new_object {V : Type} (operator_new : Heap → pointer) (v : V) (h : Heap)
    (m : Objects V) : pointer × Heap × Objects V :=
  let p := operator_new h
  (p, h ++ [(p, 1)], (p, [v]) :: m)

/-- The expression `new U[n]()`: `n` elements, each value-initialised to `v`. -/
def new_array {V : Type} (operator_new : Heap → pointer) (n : Nat) (v : V) (h : Heap)
    (m : Objects V) : pointer × Heap × Objects V :=
  let p := operator_new h
  (p, h ++ [(p, n)], (p, List.replicate n v) :: m)

/-- The function template `make_unique<T>(Args&&... args)`, which returns
`unique_ptr<T>(new T(::boost::forward<Args>(args)...))` and whose return type is
`unique_ptr_if<T>::t_is_not_array`; `T_ctor` is what the constructors of `T` make of an
argument list. This is the definition with variadic templates; without them the
preprocessor generates the same body for each number of parameters up to
`BOOST_MOVE_MAX_CONSTRUCTOR_PARAMETERS`. Returns the identity of the new container. -/
def make_unique {Args V : Type} (T : cpp_type) (operator_new : Heap → pointer)
    (T_ctor : Args → V) (args : Args) (w : World Unit) (m : Objects V) :
    Option (Nat × World Unit × Objects V) :=
  match (unique_ptr_if T).t_is_not_array with
  | some _ =>
    let r := new_object operator_new (T_ctor args) w.heap m
    match unique_ptr.ctor_pointer default_delete T (default_delete_type T)
        { w with heap := r.2.1 } r.1 with
    | some c => some (c.1, c.2, r.2.2)
    | none => none
  | none => none

/-- The function template `make_unique<T>(std::size_t n)`, which returns
`unique_ptr<T>(new U[n]())` with `U` the type `remove_extent<T>::type` and whose return
type is `unique_ptr_if<T>::t_is_array_of_unknown_bound`; `U_value` is a value-initialised
`U`. The constructor called is the template of `unique_ptr<X[], D>`, for `T = X[]`. -/
def make_unique_array {V : Type} (cc : compiler) (T : cpp_type)
    (operator_new : Heap → pointer) (U_value : V) (n : Nat) (w : World Unit)
    (m : Objects V) : Option (Nat × World Unit × Objects V) :=
  match T, (unique_ptr_if T).t_is_array_of_unknown_bound with
  | .array_unknown_bound X, some _ =>
    let U := remove_extent T
    let r := new_array operator_new n U_value w.heap m
    match unique_ptr_array.ctor_pointer_template cc default_delete X (default_delete_type T)
        (.pointer U cv_qualifiers.none) { w with heap := r.2.1 } r.1 with
    | some c => some (c.1, c.2, r.2.2)
    | none => none
  | _, _ => none

/-- The three declarations of `make_unique`. -/
inductive make_unique_form where
  /-- `make_unique<T>(Args&&...)`, which makes one object -/
  | object_factory
  /-- `make_unique<T>(std::size_t)`, which makes an array -/
  | array_factory
  /-- `make_unique<T>(Args&&...) = delete` -/
  | deleted_form
deriving DecidableEq, Repr

/-- Whether a declaration of `make_unique` takes part in overload resolution for the
template argument `T`: it is declared, and its return type exists. The deleted form is
declared unless `BOOST_NO_CXX11_DELETED_FUNCTIONS` is defined. -/
def make_unique_selectable (cc : compiler) (T : cpp_type) : make_unique_form → Bool
  | .object_factory => (unique_ptr_if T).t_is_not_array.isSome
  | .array_factory => (unique_ptr_if T).t_is_array_of_unknown_bound.isSome
  | .deleted_form =>
    !cc.no_cxx11_deleted_functions && (unique_ptr_if T).t_is_array_of_known_bound.isSome

/-- The member function `unique_ptr<T[], D>::operator[]`: `get()[i]`, after the assertion
that `get()` is not null. -/
def unique_ptr_array.operator_index {S V : Type} (w : World S) (m : Objects V) (x i : Nat) :
    Option V :=
  match unique_ptr_array.get w x with
  | some p =>
    if p ≠ 0 then
      match objects_at m p with
      | some elems => elems[i]?
      | none => none
    else none
  | none => none

/-- The constructor `A(int a = 999, int b = 1000, int c = 1001)` of the class `A` of the
test `make_unique_single`, on an argument list. -/
def A_ctor (args : List Int) : Int × Int × Int :=
  (args.getD 0 999, args.getD 1 1000, args.getD 2 1001)

/-- The function pointer type `void (*)(A*)`, a deleter type that is a pointer. -/
def function_pointer_deleter_type : cpp_type :=
  .pointer (.named "void (A*)" cv_qualifiers.none) cv_qualifiers.none

/-- An array of two elements at `7`, the second set to `888` (the test
`unique_ptr_observers_op_index`), and its container. -/
def w_indexed : World Unit :=
  { objs := [some { m_data := { m_p := 7, d := .member () }, is_default_deleter_t := true }],
    dels := [], heap := [(7, 2)], log := [] }

/-- The elements of the array of `w_indexed`. -/
def m_indexed : Objects Int := [(7, [999, 888])]

/-- The assignment `unique_ptr::operator=(std::nullptr_t)`: `this->reset(); return *this;`,
where `reset()` is `reset(pointer())`. -/
def unique_ptr.assign_nullptr {D : Type} (ops : deleter_ops D) (w : World D) (i : Nat) :
    Option (World D) :=
  unique_ptr.reset ops w i 0

/-- The assignment `unique_ptr::operator=(int nat::*)`, declared in place of the
assignment from `nullptr` when `BOOST_NO_CXX11_NULLPTR` is defined, for the literal `0`:
`this->reset(); return *this;`. -/
def unique_ptr.assign_zero {D : Type} (ops : deleter_ops D) (w : World D) (i : Nat) :
    Option (World D) :=
  unique_ptr.reset ops w i 0

/-- The assignment `unique_ptr<T[], D>::operator=(std::nullptr_t)`:
`this->reset(); return *this;`. -/
def unique_ptr_array.assign_nullptr {D : Type} (ops : deleter_ops D) (w : World D) (i : Nat) :
    Option (World D) :=
  unique_ptr_array.reset_void ops w i

/-- The assignment `unique_ptr<T[], D>::operator=(int nat::*)`:
`this->reset(); return *this;`. -/
def unique_ptr_array.assign_zero {D : Type} (ops : deleter_ops D) (w : World D) (i : Nat) :
    Option (World D) :=
  unique_ptr_array.reset_void ops w i

/-- The state of the test `unique_ptr_asgn_move01` with reference deleters: the container
`0` (`s1`) owns `7` and refers to the deleter object `0` (`d1`, in state `5`), the
container `1` (`s2`) owns `9` and refers to the deleter object `1` (`d2`, in state `6`). -/
def w_ref_pair : World Int :=
  { objs := [some { m_data := { m_p := 7, d := .reference 0 }, is_default_deleter_t := false },
             some { m_data := { m_p := 9, d := .reference 1 }, is_default_deleter_t := false }],
    dels := [5, 6], heap := [(7, 1), (9, 1)], log := [] }

/-! ### The two definitions of `unique_ptr_data` -/

/-- The primary template `unique_ptr_data<P, D, true>`, which holds the deleter in the
member `d`; `S` is what that member holds. -/
structure unique_ptr_data_member (S : Type) where
  m_p : pointer
  d : S
deriving DecidableEq, Repr

/-- The specialisation `unique_ptr_data<P, D, false>`, which derives from `D`: the deleter
is the base class subobject. -/
structure unique_ptr_data_base (S : Type) where
  D_base : S
  m_p : pointer
deriving DecidableEq, Repr

/-- `unique_ptr_data()`, which initialises `m_p(), d()`. -/
def unique_ptr_data_member.ctor {S : Type} (ops : deleter_ops S) : unique_ptr_data_member S :=
  { m_p := 0, d := ops.ctor }

/-- `unique_ptr_data(P p)`, which initialises `m_p(p), d()`. -/
def unique_ptr_data_member.ctor_pointer {S : Type} (ops : deleter_ops S) (p : pointer) :
    unique_ptr_data_member S :=
  { m_p := p, d := ops.ctor }

/-- `unique_ptr_data(P p, deleter_arg_type1 d1)`, which initialises `m_p(p), d(d1)`. -/
def unique_ptr_data_member.ctor_deleter1 {S : Type} (ops : deleter_ops S) (p : pointer)
    (d1 : S) : unique_ptr_data_member S :=
  { m_p := p, d := ops.copy_ctor d1 }

/-- `unique_ptr_data(P p, deleter_arg_type2 d2)`, which initialises
`m_p(p), d(::boost::move(d2))`: the new object and `d2` afterwards. -/
def unique_ptr_data_member.ctor_deleter2 {S : Type} (ops : deleter_ops S) (p : pointer)
    (d2 : S) : unique_ptr_data_member S × S :=
  ({ m_p := p, d := (ops.move_ctor d2).1 }, (ops.move_ctor d2).2)

/-- The constructor template `unique_ptr_data(P p, BOOST_FWD_REF(U) d)`, which initialises
`m_p(::boost::forward<U>(p)), d(::boost::forward<U>(d))`. The function template
`boost::forward` is declared in a header that is not among the sources: `forward_U p` is
the handle that `m_p` holds when it is initialised with `::boost::forward<U>(p)`, `none`
when that initialisation is ill-formed; `convert e` is the deleter made of the argument,
and the argument afterwards. -/
def unique_ptr_data_member.ctor_forward {S E : Type} (forward_U : pointer → Option pointer)
    (convert : E → S × E) (p : pointer) (e : E) : Option (unique_ptr_data_member S × E) :=
  match forward_U p with
  | some q => some ({ m_p := q, d := (convert e).1 }, (convert e).2)
  | none => none

/-- `unique_ptr_data<P, D, true>::deleter()`, which returns `d`. -/
def unique_ptr_data_member.deleter {S : Type} (m : unique_ptr_data_member S) : S :=
  m.d

/-- `unique_ptr_data()` of the specialisation, which initialises `D(), m_p()`. -/
def unique_ptr_data_base.ctor {S : Type} (ops : deleter_ops S) : unique_ptr_data_base S :=
  { D_base := ops.ctor, m_p := 0 }

/-- `unique_ptr_data(P p)` of the specialisation, which initialises `D(), m_p(p)`. -/
def unique_ptr_data_base.ctor_pointer {S : Type} (ops : deleter_ops S) (p : pointer) :
    unique_ptr_data_base S :=
  { D_base := ops.ctor, m_p := p }

/-- `unique_ptr_data(P p, deleter_arg_type1 d1)` of the specialisation, which initialises
`D(d1), m_p(p)`. -/
def unique_ptr_data_base.ctor_deleter1 {S : Type} (ops : deleter_ops S) (p : pointer)
    (d1 : S) : unique_ptr_data_base S :=
  { D_base := ops.copy_ctor d1, m_p := p }

/-- `unique_ptr_data(P p, deleter_arg_type2 d2)` of the specialisation, which initialises
`D(::boost::move(d2)), m_p(p)`: the new object and `d2` afterwards. -/
def unique_ptr_data_base.ctor_deleter2 {S : Type} (ops : deleter_ops S) (p : pointer)
    (d2 : S) : unique_ptr_data_base S × S :=
  ({ D_base := (ops.move_ctor d2).1, m_p := p }, (ops.move_ctor d2).2)

/-- The constructor template `unique_ptr_data(P p, BOOST_FWD_REF(U) d)` of the
specialisation, which initialises `D(::boost::forward<U>(d)), m_p(p)`. -/
def unique_ptr_data_base.ctor_forward {S E : Type} (convert : E → S × E) (p : pointer)
    (e : E) : Option (unique_ptr_data_base S × E) :=
  some ({ D_base := (convert e).1, m_p := p }, (convert e).2)

/-- `unique_ptr_data<P, D, false>::deleter()`, which returns `*this` as a `D`. -/
def unique_ptr_data_base.deleter {S : Type} (m : unique_ptr_data_base S) : S :=
  m.D_base

/-- What `::boost::forward<U>(p)` gives for a handle `p` of a type `P` and a type `U`
other than `P`, to which no handle converts: the call is ill-formed. -/
def forward_unrelated (_ : pointer) : Option pointer := none

/-! ### The test `unique_compare` -/

/-- The values of a list of expressions, when each has one. -/
def all_values : List (Option Bool) → Option (List Bool)
  | [] => some []
  | none :: _ => none
  | some b :: rest =>
    match all_values rest with
    | some bs => some (b :: bs)
    | none => none

/-- The fourteen expressions that `unique_compare::test` hands to `BOOST_TEST`, in their
order, for the two containers `pa` and `pb`: `rpl` is `pa < pb ? pa : pb` and `rpg` is
`pa < pb ? pb : pa`; the first operand of each `&&` compares the containers, the second
the handles `l` of `rpl` and `g` of `rpg`. -/
def unique_compare_test {D : Type} (po : pointer_ops) (w : World D) (pa pb : Nat) :
    Option (List Bool) :=
  match operator_lt po w pa pb with
  | some c =>
    let rpl := if c then pa else pb
    let rpg := if c then pb else pa
    match unique_ptr.get w rpl, unique_ptr.get w rpg with
    | some l, some g =>
      all_values
        [(operator_eq po w rpl rpl).map (fun b => b && po.eq l l),
         (operator_eq po w rpl rpg).map (fun b => !b && !po.ne l g),
         (operator_ne po w rpl rpg).map (fun b => b && po.ne l g),
         (operator_ne po w rpl rpl).map (fun b => !b && !po.ne l l),
         (operator_lt po w rpl rpg).map (fun b => b && po.lt l g),
         (operator_lt po w rpl rpg).map (fun b => !b && !po.lt l g),
         (operator_gt po w rpg rpl).map (fun b => b && po.gt g l),
         (operator_gt po w rpg rpg).map (fun b => !b && !po.gt g l),
         (operator_le po w rpl rpg).map (fun b => b && po.le l g),
         (operator_le po w rpl rpl).map (fun b => b && po.le l l),
         (operator_le po w rpg rpl).map (fun b => !b && !po.lt g l),
         (operator_ge po w rpg rpl).map (fun b => b && po.ge g l),
         (operator_ge po w rpg rpg).map (fun b => b && po.ge g g),
         (operator_ge po w rpl rpg).map (fun b => !b && !po.lt l g)]
    | _, _ => none
  | none => none

/-- The operators of a handle type that is a class and defines its operator `>` as its
operator `<`, the others being those of raw pointers: the library asks no relation between
the two of the type `D::pointer`. -/
def odd_pointer_ops : pointer_ops :=
  { raw_pointer_ops with gt := fun a b => decide (a < b) }

/-- A deleter class that declares `typedef int& pointer;`. -/
def ref_pointer_deleter_type : cpp_type := .named "ref_pointer_deleter" cv_qualifiers.none

/-- The compiler `test_compiler` on a program that also declares the class
`ref_pointer_deleter`. -/
def ref_pointer_compiler : compiler :=
  { test_compiler with
    nested_pointer := fun C =>
      if C = ref_pointer_deleter_type then some (.lvalue_reference int_type)
      else test_compiler.nested_pointer C }

/-! ### The instantiation of `unique_ptr_data` -/

/-- Whether a type is a pointer type, with or without qualifiers of its own. The trait
`is_pointer` holds for the unqualified ones only. -/
def cpp_type.is_pointer_type : cpp_type → Bool
  | .pointer _ _ => true
  | _ => false

/-- `is_unary_or_binary_function<T>::value`: its specialisations are those for `R (*)()`,
`R (*)(T0)` and `R (*)(T0, T1)`, each also with an ellipsis, so it holds for an
unqualified pointer to a function of at most two parameters; `fn` tells which types are
such function types. -/
def is_unary_or_binary_function (fn : cpp_type → Bool) : cpp_type → Bool
  | .pointer t cv => decide (cv = cv_qualifiers.none) && fn t
  | _ => false

/-- Whether a class can name `D` as a base class, as the specialisation
`struct unique_ptr_data<P, D, false> : private D` does. Only a class type can be one;
`cls` tells of a class type whether it can be derived from. -/
def base_class_ok (cls : cpp_type → Bool) : cpp_type → Bool
  | .named n cv => cls (.named n cv)
  | .template_id n a cv => cls (.template_id n a cv)
  | _ => false

/-- Whether `unique_ptr_data<P, D>` can be instantiated. Its third template argument
`is_unary_or_binary_function<D>::value || is_reference<D>::value` selects the primary
template, which holds the member `D d`, or the specialisation for `false`, which derives
from `D`. -/
def unique_ptr_data_instantiable (fn cls : cpp_type → Bool) (D : cpp_type) : Bool :=
  match is_unary_or_binary_function fn D || is_reference D with
  | true => true
  | false => base_class_ok cls D

/-- A member function of `unique_ptr<T, D>` in a program: the class has the member
`data_type m_data` and can be used only if `unique_ptr_data<pointer, D>` can be
instantiated; `r` is what the member function then does. -/
def unique_ptr.in_class {α : Type} (fn cls : cpp_type → Bool) (D : cpp_type)
    (r : Option α) : Option α :=
  if unique_ptr_data_instantiable fn cls D then r else none

/-- The function types of the tests that have at most two parameters: `void (A*)`. -/
def test_function_types (t : cpp_type) : Bool :=
  decide (t = .named "void (A*)" cv_qualifiers.none)

/-- The classes of the tests that can be derived from: every class type. -/
def test_classes (t : cpp_type) : Bool :=
  !test_function_types t

/-! ## Lemmas on the program state -/

theorem find_lt {D : Type} {w : World D} {i : Nat} {u : unique_ptr D}
    (h : w.find i = some u) : i < w.objs.length := by
  unfold World.find at h
  by_contra hlt
  rw [List.getElem?_eq_none (by omega)] at h
  simp at h

theorem find_store_same {D : Type} (w : World D) (i : Nat) (u : unique_ptr D)
    (h : i < w.objs.length) : (w.store i u).find i = some u := by
  simp [World.find, World.store, h]

theorem find_store_ne {D : Type} (w : World D) (i j : Nat) (u : unique_ptr D)
    (h : i ≠ j) : (w.store i u).find j = w.find j := by
  simp [World.find, World.store, List.getElem?_set_ne h]

@[simp] theorem store_dels {D : Type} (w : World D) (i : Nat) (u : unique_ptr D) :
    (w.store i u).dels = w.dels := rfl

@[simp] theorem store_heap {D : Type} (w : World D) (i : Nat) (u : unique_ptr D) :
    (w.store i u).heap = w.heap := rfl

@[simp] theorem store_log {D : Type} (w : World D) (i : Nat) (u : unique_ptr D) :
    (w.store i u).log = w.log := rfl

@[simp] theorem store_length {D : Type} (w : World D) (i : Nat) (u : unique_ptr D) :
    (w.store i u).objs.length = w.objs.length := by
  simp [World.store]

theorem release_eq {D : Type} {w : World D} {i : Nat} {u : unique_ptr D}
    (h : w.find i = some u) :
    unique_ptr.release w i =
      some (u.m_data.m_p, w.store i { u with m_data := { u.m_data with m_p := 0 } }) := by
  simp [unique_ptr.release, h]

theorem get_deleter_store_m_p {D : Type} {w : World D} {i : Nat} {u : unique_ptr D}
    (h : w.find i = some u) (p : pointer) :
    unique_ptr.get_deleter (w.store i { u with m_data := { u.m_data with m_p := p } }) i =
      unique_ptr.get_deleter w i := by
  have hlt := find_lt h
  simp only [unique_ptr.get_deleter, find_store_same _ _ _ hlt, h]
  cases hd : u.m_data.d <;>
    simp [unique_ptr_data.deleter, hd, World.read, find_store_same, hlt, h]

theorem array_get_eq {D : Type} : @unique_ptr_array.get D = @unique_ptr.get D := rfl
theorem array_get_deleter_eq {D : Type} :
    @unique_ptr_array.get_deleter D = @unique_ptr.get_deleter D := rfl
theorem array_release_eq {D : Type} : @unique_ptr_array.release D = @unique_ptr.release D := rfl
theorem array_reset_eq {D : Type} : @unique_ptr_array.reset D = @unique_ptr.reset D := rfl
theorem array_dtor_eq {D : Type} : @unique_ptr_array.dtor D = @unique_ptr.dtor D := rfl
theorem array_move_ctor_eq {D : Type} :
    @unique_ptr_array.move_ctor D = @unique_ptr.move_ctor D := rfl
theorem array_move_ctor_convert_eq {D : Type} :
    @unique_ptr_array.move_ctor_convert D = @unique_ptr.move_ctor_convert D := rfl
theorem array_move_assign_eq {D : Type} :
    @unique_ptr_array.move_assign D = @unique_ptr.move_assign D := rfl
theorem array_swap_eq {D : Type} : @unique_ptr_array.swap D = @unique_ptr.swap D := rfl

theorem find_write {D : Type} (w : World D) (l : deleter_lvalue) (d : D) (j : Nat) :
    ((w.write l d).find j).map (fun u => (u.m_data.m_p, u.is_default_deleter_t)) =
      (w.find j).map (fun u => (u.m_data.m_p, u.is_default_deleter_t)) := by
  cases l with
  | of_member i =>
    simp only [World.write]
    cases h : w.find i with
    | none => rfl
    | some u =>
      by_cases hij : i = j
      · subst hij
        simp [find_store_same _ _ _ (find_lt h), h]
      · simp [find_store_ne _ _ _ _ hij]
  | of_object k => rfl

@[simp] theorem get_write {D : Type} (w : World D) (l : deleter_lvalue) (d : D) (j : Nat) :
    unique_ptr.get (w.write l d) j = unique_ptr.get w j := by
  have h := congrArg (Option.map Prod.fst) (find_write w l d j)
  simpa [unique_ptr.get, Option.map_map, Function.comp_def] using h

@[simp] theorem log_write {D : Type} (w : World D) (l : deleter_lvalue) (d : D) :
    (w.write l d).log = w.log := by
  cases l with
  | of_member i =>
    simp only [World.write]
    cases h : w.find i <;> simp
  | of_object k => rfl

@[simp] theorem heap_write {D : Type} (w : World D) (l : deleter_lvalue) (d : D) :
    (w.write l d).heap = w.heap := by
  cases l with
  | of_member i =>
    simp only [World.write]
    cases h : w.find i <;> simp
  | of_object k => rfl

@[simp] theorem length_write {D : Type} (w : World D) (l : deleter_lvalue) (d : D) :
    (w.write l d).objs.length = w.objs.length := by
  cases l with
  | of_member i =>
    simp only [World.write]
    cases h : w.find i <;> simp
  | of_object k => rfl

theorem get_store_same {D : Type} (w : World D) (i : Nat) (u : unique_ptr D)
    (h : i < w.objs.length) : unique_ptr.get (w.store i u) i = some u.m_data.m_p := by
  simp [unique_ptr.get, find_store_same _ _ _ h]

theorem get_store_ne {D : Type} (w : World D) (i j : Nat) (u : unique_ptr D)
    (h : i ≠ j) : unique_ptr.get (w.store i u) j = unique_ptr.get w j := by
  simp [unique_ptr.get, find_store_ne _ _ _ _ h]

theorem find_alloc_new {D : Type} (w : World D) (u : unique_ptr D) :
    (w.alloc u).2.find (w.alloc u).1 = some u := by
  simp [World.alloc, World.find]

theorem find_alloc_old {D : Type} (w : World D) (u : unique_ptr D) (j : Nat)
    (h : j < w.objs.length) : (w.alloc u).2.find j = w.find j := by
  simp [World.alloc, World.find, List.getElem?_append_left h]

theorem get_alloc_new {D : Type} (w : World D) (u : unique_ptr D) :
    unique_ptr.get (w.alloc u).2 (w.alloc u).1 = some u.m_data.m_p := by
  simp [unique_ptr.get, find_alloc_new]

theorem get_alloc_old {D : Type} (w : World D) (u : unique_ptr D) (j : Nat)
    (h : j < w.objs.length) : unique_ptr.get (w.alloc u).2 j = unique_ptr.get w j := by
  simp [unique_ptr.get, find_alloc_old _ _ _ h]

@[simp] theorem alloc_log {D : Type} (w : World D) (u : unique_ptr D) :
    (w.alloc u).2.log = w.log := rfl

@[simp] theorem alloc_heap {D : Type} (w : World D) (u : unique_ptr D) :
    (w.alloc u).2.heap = w.heap := rfl

@[simp] theorem alloc_fst {D : Type} (w : World D) (u : unique_ptr D) :
    (w.alloc u).1 = w.objs.length := rfl

theorem move_ctor_spec {D : Type} (ops : deleter_ops D) (w : World D) (a : Nat)
    (u : unique_ptr D) (h : w.find a = some u) :
    ∃ r, unique_ptr.move_ctor ops w a = some r ∧ r.1 ≠ a ∧
      unique_ptr.get r.2 r.1 = some u.m_data.m_p ∧ unique_ptr.get r.2 a = some 0 ∧
      r.2.log = w.log ∧ r.2.heap = w.heap := by
  have hlt := find_lt h
  have hne : w.objs.length ≠ a := by omega
  cases hd : u.m_data.d with
  | member d =>
    have e : unique_ptr.move_ctor ops w a = some
        (((w.store a { u with m_data := { u.m_data with m_p := 0 } }).write (.of_member a)
          (ops.move_ctor d).2).alloc
          { m_data := { m_p := u.m_data.m_p, d := .member (ops.move_ctor d).1 },
            is_default_deleter_t := u.is_default_deleter_t }) := by
      simp [unique_ptr.move_ctor, release_eq h, find_store_same _ _ _ hlt, hd]
    refine ⟨_, e, ?_, get_alloc_new _ _, ?_, ?_, ?_⟩
    · simpa using hne
    · rw [get_alloc_old _ _ _ (by simpa using hlt)]
      simp [get_store_same _ _ _ hlt]
    · simp
    · simp
  | reference k =>
    have e : unique_ptr.move_ctor ops w a = some
        ((w.store a { u with m_data := { u.m_data with m_p := 0 } }).alloc
          { m_data := { m_p := u.m_data.m_p, d := .reference k },
            is_default_deleter_t := u.is_default_deleter_t }) := by
      simp [unique_ptr.move_ctor, release_eq h, find_store_same _ _ _ hlt, hd]
    refine ⟨_, e, ?_, get_alloc_new _ _, ?_, ?_, ?_⟩
    · simpa using hne
    · rw [get_alloc_old _ _ _ (by simpa using hlt)]
      simp [get_store_same _ _ _ hlt]
    · simp
    · simp

theorem move_ctor_convert_spec {D : Type} (c : conversion D) (w : World D) (a : Nat)
    (u : unique_ptr D) (h : w.find a = some u) (hc : c.accepts w u = true) :
    ∃ r, unique_ptr.move_ctor_convert c w a = some r ∧ r.1 ≠ a ∧
      unique_ptr.get r.2 r.1 = some (c.ptr u.m_data.m_p) ∧ unique_ptr.get r.2 a = some 0 ∧
      r.2.log = w.log ∧ r.2.heap = w.heap := by
  have hlt := find_lt h
  have hne : w.objs.length ≠ a := by omega
  cases hd : u.m_data.d with
  | member d =>
    have hr : c.is_reference = false := by simpa [conversion.accepts, hd] using hc
    have e : unique_ptr.move_ctor_convert c w a = some
        (((w.store a { u with m_data := { u.m_data with m_p := 0 } }).write (.of_member a)
          (c.from_rvalue d).2).alloc
          { m_data := { m_p := c.ptr u.m_data.m_p, d := .member (c.from_rvalue d).1 },
            is_default_deleter_t := c.is_default_deleter_t }) := by
      simp [unique_ptr.move_ctor_convert, release_eq h, find_store_same _ _ _ hlt, hd, hr]
    refine ⟨_, e, ?_, get_alloc_new _ _, ?_, ?_, ?_⟩
    · simpa using hne
    · rw [get_alloc_old _ _ _ (by simpa using hlt)]
      simp [get_store_same _ _ _ hlt]
    · simp
    · simp
  | reference k =>
    cases hr : c.is_reference with
    | true =>
      have e : unique_ptr.move_ctor_convert c w a = some
          ((w.store a { u with m_data := { u.m_data with m_p := 0 } }).alloc
            { m_data := { m_p := c.ptr u.m_data.m_p, d := .reference k },
              is_default_deleter_t := c.is_default_deleter_t }) := by
        simp [unique_ptr.move_ctor_convert, release_eq h, find_store_same _ _ _ hlt, hd, hr]
      refine ⟨_, e, ?_, get_alloc_new _ _, ?_, ?_, ?_⟩
      · simpa using hne
      · rw [get_alloc_old _ _ _ (by simpa using hlt)]
        simp [get_store_same _ _ _ hlt]
      · simp
      · simp
    | false =>
      have hk : k < w.dels.length := by simpa [conversion.accepts, hd, hr] using hc
      have e : unique_ptr.move_ctor_convert c w a = some
          ((w.store a { u with m_data := { u.m_data with m_p := 0 } }).alloc
            { m_data := { m_p := c.ptr u.m_data.m_p, d := .member (c.from_lvalue w.dels[k]) },
              is_default_deleter_t := c.is_default_deleter_t }) := by
        simp [unique_ptr.move_ctor_convert, release_eq h, find_store_same _ _ _ hlt, hd, hr,
          List.getElem?_eq_getElem hk]
      refine ⟨_, e, ?_, get_alloc_new _ _, ?_, ?_, ?_⟩
      · simpa using hne
      · rw [get_alloc_old _ _ _ (by simpa using hlt)]
        simp [get_store_same _ _ _ hlt]
      · simp
      · simp

@[simp] theorem view_store {D : Type} (w : World D) (i : Nat) (u : unique_ptr D) :
    (w.store i u).view = w.view.set i (some u.m_data.m_p) := by
  simp [World.view, World.store, List.map_set]

@[simp] theorem view_write {D : Type} (w : World D) (l : deleter_lvalue) (d : D) :
    (w.write l d).view = w.view := by
  cases l with
  | of_member i =>
    simp only [World.write]
    cases h : w.find i with
    | none => rfl
    | some u =>
      have hlt := find_lt h
      simp only [view_store]
      apply List.ext_getElem?
      intro j
      by_cases hij : i = j
      · subst hij
        have : w.objs[i] = some u := by
          unfold World.find at h
          rw [List.getElem?_eq_getElem hlt] at h
          simpa [Option.join] using h
        simp [World.view, hlt, this]
      · simp [List.getElem?_set_ne hij]
  | of_object k => rfl

theorem view_get {D : Type} (w : World D) (j : Nat) :
    unique_ptr.get w j = (w.view[j]?).join := by
  simp only [unique_ptr.get, World.find, World.view, List.getElem?_map]
  cases w.objs[j]? with
  | none => rfl
  | some o => cases o <;> rfl

theorem read_write_same {D : Type} (w : World D) (l : deleter_lvalue) (d e : D)
    (h : w.read l = some d) : (w.write l e).read l = some e := by
  cases l with
  | of_member i =>
    simp only [World.read] at h
    cases hf : w.find i with
    | none => simp [hf] at h
    | some u =>
      simp [World.read, World.write, hf, find_store_same _ _ _ (find_lt hf)]
  | of_object k =>
    simp only [World.read] at h
    have hk : k < w.dels.length := by
      by_contra hlt
      rw [List.getElem?_eq_none (by omega)] at h
      simp at h
    simp [World.read, World.write, hk]

theorem find_getElem {D : Type} {w : World D} {i : Nat} {u : unique_ptr D}
    (h : w.find i = some u) : w.objs[i]? = some (some u) := by
  unfold World.find at h
  cases ho : w.objs[i]? with
  | none => simp [ho] at h
  | some o =>
    cases o with
    | none => simp [ho] at h
    | some v =>
      rw [ho] at h
      have hv : v = u := by simpa using h
      rw [hv]

theorem shape_store {D : Type} {w : World D} {i : Nat} {u v : unique_ptr D}
    (h : w.find i = some u) (hk : v.kind = u.kind) : (w.store i v).shape = w.shape := by
  have hlt := find_lt h
  have hg := find_getElem h
  simp only [World.shape, World.store, Prod.mk.injEq, and_true, List.map_set]
  apply List.ext_getElem?
  intro j
  by_cases hij : i = j
  · subst hij
    have hg2 : w.objs[i] = some u := by
      rw [List.getElem?_eq_getElem hlt] at hg
      simpa using hg
    simp [hlt, hg2, hk]
  · simp [List.getElem?_set_ne hij]

theorem kind_with_m_p {D : Type} (u : unique_ptr D) (p : pointer) :
    unique_ptr.kind { u with m_data := { u.m_data with m_p := p } } = u.kind := rfl

theorem kind_with_member {D : Type} (u : unique_ptr D) (d e : D)
    (h : u.m_data.d = .member d) :
    unique_ptr.kind { u with m_data := { u.m_data with d := .member e } } = u.kind := by
  simp [unique_ptr.kind, h]

theorem shape_write_of_read {D : Type} (w : World D) (l : deleter_lvalue) (d e : D)
    (h : w.read l = some d) : (w.write l e).shape = w.shape := by
  cases l with
  | of_member i =>
    simp only [World.read] at h
    cases hf : w.find i with
    | none => simp [hf] at h
    | some u =>
      simp only [World.write, hf]
      cases hd : u.m_data.d with
      | member d0 => exact shape_store hf (kind_with_member u d0 e hd)
      | reference k => simp [hf, hd] at h
  | of_object k => simp [World.shape, World.write]

theorem find_of_shape {D : Type} {w v : World D} (hs : v.shape = w.shape) {j : Nat}
    {u : unique_ptr D} (h : w.find j = some u) :
    ∃ u1, v.find j = some u1 ∧ u1.kind = u.kind := by
  have hg := find_getElem h
  have h1 : (v.objs.map (Option.map unique_ptr.kind))[j]? =
      (w.objs.map (Option.map unique_ptr.kind))[j]? := by
    have := congrArg Prod.fst hs
    simp only [World.shape] at this
    rw [this]
  simp only [List.getElem?_map, hg, Option.map_some'] at h1
  cases hv : v.objs[j]? with
  | none => simp [hv] at h1
  | some o =>
    cases o with
    | none => simp [hv] at h1
    | some u1 =>
      refine ⟨u1, by simp [World.find, hv], ?_⟩
      simpa [hv] using h1

theorem deleter_of_kind {D : Type} {u v : unique_ptr D} (h : v.kind = u.kind) (j : Nat) :
    v.m_data.deleter j = u.m_data.deleter j ∧
      v.m_data.d.is_reference = u.m_data.d.is_reference ∧
      v.is_default_deleter_t = u.is_default_deleter_t := by
  unfold unique_ptr.kind at h
  cases hu : u.m_data.d <;> cases hv : v.m_data.d <;>
    simp_all [unique_ptr_data.deleter, deleter_storage.is_reference]

theorem read_of_shape {D : Type} {w v : World D} (hs : v.shape = w.shape)
    {l : deleter_lvalue} {d : D} (h : w.read l = some d) : ∃ e, v.read l = some e := by
  cases l with
  | of_member i =>
    simp only [World.read] at h
    cases hf : w.find i with
    | none => simp [hf] at h
    | some u =>
      obtain ⟨u1, h1, hk⟩ := find_of_shape hs hf
      cases hd : u.m_data.d with
      | reference k => simp [hf, hd] at h
      | member d0 =>
        cases hd1 : u1.m_data.d with
        | member d1 => exact ⟨d1, by simp [World.read, h1, hd1]⟩
        | reference k => simp [unique_ptr.kind, hd, hd1] at hk
  | of_object k =>
    simp only [World.read] at h ⊢
    have hk : k < w.dels.length := by
      by_contra hlt
      rw [List.getElem?_eq_none (by omega)] at h
      simp at h
    have hl : v.dels.length = w.dels.length := congrArg Prod.snd hs
    exact ⟨v.dels[k], List.getElem?_eq_getElem (by omega)⟩

theorem read_store_m_p {D : Type} {w : World D} {i : Nat} {u : unique_ptr D}
    (h : w.find i = some u) (p : pointer) (l : deleter_lvalue) :
    (w.store i { u with m_data := { u.m_data with m_p := p } }).read l = w.read l := by
  cases l with
  | of_member j =>
    by_cases hij : i = j
    · subst hij
      simp [World.read, find_store_same _ _ _ (find_lt h), h]
    · simp [World.read, find_store_ne _ _ _ _ hij]
  | of_object k => rfl

theorem get_deleter_eq_read {D : Type} {w : World D} {i : Nat} {u : unique_ptr D}
    (h : w.find i = some u) : unique_ptr.get_deleter w i = w.read (u.m_data.deleter i) := by
  simp [unique_ptr.get_deleter, h]

theorem read_write_ne {D : Type} (w : World D) (l l2 : deleter_lvalue) (e : D)
    (hne : l2 ≠ l) : (w.write l e).read l2 = w.read l2 := by
  cases l with
  | of_member i =>
    cases hf : w.find i with
    | none => simp [World.write, hf]
    | some u =>
      cases l2 with
      | of_member j =>
        have hij : i ≠ j := fun h => hne (by rw [h])
        simp [World.write, hf, World.read, find_store_ne _ _ _ _ hij]
      | of_object k => simp [World.write, hf, World.read]
  | of_object k =>
    cases l2 with
    | of_member j => simp [World.write, World.read, World.find]
    | of_object k2 =>
      have hk : k ≠ k2 := fun h => hne (by rw [h])
      simp [World.write, World.read, List.getElem?_set_ne hk]

theorem invoke_frame {D : Type} (ops : deleter_ops D) (w : World D) (l : deleter_lvalue)
    (p : pointer) (d : D) (h : w.read l = some d) :
    ∃ w1, invoke ops w l p = some w1 ∧ w1.log = w.log ++ [⟨l, p, w.view⟩] ∧
      w1.heap = ops.dispose d p w.heap ∧ w1.view = w.view ∧ w1.shape = w.shape ∧
      w1.read l = some (ops.call d p w.view) ∧
      ∀ l2, l2 ≠ l → w1.read l2 = w.read l2 := by
  have e : invoke ops w l p = some
      { w.write l (ops.call d p w.view) with
        heap := ops.dispose d p (w.write l (ops.call d p w.view)).heap,
        log := (w.write l (ops.call d p w.view)).log ++ [⟨l, p, w.view⟩] } := by
    simp only [invoke, h]
  refine ⟨_, e, ?_, ?_, ?_, ?_, ?_, ?_⟩
  · simp
  · simp
  · exact view_write _ _ _
  · exact shape_write_of_read _ _ _ _ h
  · exact read_write_same _ _ _ _ h
  · intro l2 hne
    exact read_write_ne _ _ _ _ hne

theorem call_deleter_spec {D : Type} (ops : deleter_ops D) (w : World D) (l : deleter_lvalue)
    (p : pointer) (tag : Bool) (d : D) (h : w.read l = some d) :
    ∃ w1, unique_ptr_call_deleter ops w l p tag = some w1 ∧ w1.view = w.view ∧
      w1.shape = w.shape ∧ (∀ l2, l2 ≠ l → w1.read l2 = w.read l2) ∧
      ((tag = true ∨ p ≠ 0) → w1.log = w.log ++ [⟨l, p, w.view⟩] ∧
        w1.heap = ops.dispose d p w.heap ∧ w1.read l = some (ops.call d p w.view)) ∧
      ((tag = false ∧ p = 0) → w1 = w) := by
  obtain ⟨w1, he, hlog, hheap, hview, hshape, hread, hne⟩ := invoke_frame ops w l p d h
  cases tag with
  | true =>
    exact ⟨w1, by simpa [unique_ptr_call_deleter] using he, hview, hshape, hne,
      fun _ => ⟨hlog, hheap, hread⟩, fun hc => by simp at hc⟩
  | false =>
    by_cases hp : p = 0
    · exact ⟨w, by simp [unique_ptr_call_deleter, hp], rfl, rfl, fun _ _ => rfl,
        fun hc => by simp [hp] at hc, fun _ => rfl⟩
    · exact ⟨w1, by simpa [unique_ptr_call_deleter, hp] using he, hview, hshape, hne,
        fun _ => ⟨hlog, hheap, hread⟩, fun hc => absurd hc.2 hp⟩

theorem reset_eq {D : Type} (ops : deleter_ops D) {w : World D} {i : Nat} {u : unique_ptr D}
    (h : w.find i = some u) (p : pointer) :
    unique_ptr.reset ops w i p =
      unique_ptr_call_deleter ops (w.store i { u with m_data := { u.m_data with m_p := p } })
        (u.m_data.deleter i) u.m_data.m_p u.is_default_deleter_t := by
  simp [unique_ptr.reset, h]

theorem reset_spec {D : Type} (ops : deleter_ops D) (w : World D) (i : Nat) (p : pointer)
    (u : unique_ptr D) (d : D) (h : w.find i = some u)
    (hd : unique_ptr.get_deleter w i = some d) :
    ∃ w1, unique_ptr.reset ops w i p = some w1 ∧ w1.view = w.view.set i (some p) ∧
      w1.shape = w.shape ∧ (∀ l2, l2 ≠ u.m_data.deleter i → w1.read l2 = w.read l2) ∧
      ((u.is_default_deleter_t = true ∨ u.m_data.m_p ≠ 0) →
        w1.log = w.log ++ [⟨u.m_data.deleter i, u.m_data.m_p, w.view.set i (some p)⟩] ∧
        w1.heap = ops.dispose d u.m_data.m_p w.heap ∧
        w1.read (u.m_data.deleter i) =
          some (ops.call d u.m_data.m_p (w.view.set i (some p)))) ∧
      ((u.is_default_deleter_t = false ∧ u.m_data.m_p = 0) →
        w1 = w.store i { u with m_data := { u.m_data with m_p := p } }) := by
  rw [get_deleter_eq_read h] at hd
  have hd1 : (w.store i { u with m_data := { u.m_data with m_p := p } }).read
      (u.m_data.deleter i) = some d := by
    rw [read_store_m_p h]; exact hd
  obtain ⟨w1, he, hview, hshape, hne, hcall, hskip⟩ :=
    call_deleter_spec ops _ (u.m_data.deleter i) u.m_data.m_p u.is_default_deleter_t d hd1
  refine ⟨w1, by rw [reset_eq ops h]; exact he, ?_, ?_, ?_, ?_, hskip⟩
  · rw [hview]; simp
  · rw [hshape]; exact shape_store h (kind_with_m_p u p)
  · intro l2 h2
    rw [hne l2 h2, read_store_m_p h]
  · intro hc
    obtain ⟨h1, h2, h3⟩ := hcall hc
    refine ⟨?_, ?_, ?_⟩
    · rw [h1]; simp
    · rw [h2]; simp
    · rw [h3]; simp

theorem assign_deleter_spec {D : Type} (ops : deleter_ops D) (w : World D)
    (dst src : deleter_lvalue) (lv : Bool) (a b : D)
    (ha : w.read dst = some a) (hb : w.read src = some b) :
    ∃ w1, assign_deleter ops w dst src lv = some w1 ∧ w1.view = w.view ∧ w1.log = w.log ∧
      w1.heap = w.heap ∧ w1.shape = w.shape := by
  by_cases hds : dst = src
  · subst hds
    refine ⟨w.write dst (if lv then ops.copy_assign_self a else ops.move_assign_self a),
      by simp [assign_deleter, ha], ?_, ?_, ?_, ?_⟩
    · simp
    · simp
    · simp
    · exact shape_write_of_read _ _ _ _ ha
  · cases lv with
    | true =>
      refine ⟨w.write dst (ops.copy_assign a b), by simp [assign_deleter, ha, hb, hds],
        ?_, ?_, ?_, ?_⟩
      · simp
      · simp
      · simp
      · exact shape_write_of_read _ _ _ _ ha
    | false =>
      refine ⟨(w.write dst (ops.move_assign a b).1).write src (ops.move_assign a b).2,
        by simp [assign_deleter, ha, hb, hds], ?_, ?_, ?_, ?_⟩
      · simp
      · simp
      · simp
      · have h1 : (w.write dst (ops.move_assign a b).1).read src = some b := by
          rw [read_write_ne _ _ _ _ (fun h => hds h.symm)]; exact hb
        rw [shape_write_of_read _ _ _ _ h1, shape_write_of_read _ _ _ _ ha]

theorem move_assign_spec {D : Type} (ops : deleter_ops D) (w : World D) (t s : Nat)
    (ut us : unique_ptr D) (dt ds : D) (hne : t ≠ s)
    (ht : w.find t = some ut) (hs : w.find s = some us)
    (hdt : unique_ptr.get_deleter w t = some dt)
    (hds : unique_ptr.get_deleter w s = some ds) :
    unique_ptr.move_assign ops w t s =
      (unique_ptr.release w s).bind (fun r =>
        (unique_ptr.reset ops r.2 t r.1).bind (fun w2 =>
          assign_deleter ops w2 (ut.m_data.deleter t) (us.m_data.deleter s)
            us.m_data.d.is_reference)) ∧
    ∃ w1, unique_ptr.move_assign ops w t s = some w1 ∧
      unique_ptr.get w1 t = some us.m_data.m_p ∧ unique_ptr.get w1 s = some 0 ∧
      w1.view = (w.view.set s (some 0)).set t (some us.m_data.m_p) ∧
      w1.shape = w.shape ∧
      ((ut.is_default_deleter_t = true ∨ ut.m_data.m_p ≠ 0) →
        w1.log = w.log ++ [⟨ut.m_data.deleter t, ut.m_data.m_p,
          (w.view.set s (some 0)).set t (some us.m_data.m_p)⟩] ∧
        w1.heap = ops.dispose dt ut.m_data.m_p w.heap) ∧
      ((ut.is_default_deleter_t = false ∧ ut.m_data.m_p = 0) →
        w1.log = w.log ∧ w1.heap = w.heap) := by
  have hlt := find_lt ht
  have hls := find_lt hs
  -- after `u.release()`
  have hrel := release_eq hs
  generalize hw1 : w.store s { us with m_data := { us.m_data with m_p := 0 } } = w1 at hrel
  have hshape1 : w1.shape = w.shape := by
    rw [← hw1]; exact shape_store hs (kind_with_m_p us 0)
  have hview1 : w1.view = w.view.set s (some 0) := by rw [← hw1]; simp
  have ht1 : w1.find t = some ut := by
    rw [← hw1, find_store_ne _ _ _ _ (Ne.symm hne)]; exact ht
  have hs1 : w1.find s = some { us with m_data := { us.m_data with m_p := 0 } } := by
    rw [← hw1]; exact find_store_same _ _ _ hls
  have hread1 : ∀ l, w1.read l = w.read l := by
    intro l; rw [← hw1]; exact read_store_m_p hs 0 l
  have hdt1 : unique_ptr.get_deleter w1 t = some dt := by
    rw [get_deleter_eq_read ht1, hread1, ← get_deleter_eq_read ht]; exact hdt
  -- after `this->reset(...)`
  obtain ⟨w2, hreset, hview2, hshape2, hread2, hcall2, hskip2⟩ :=
    reset_spec ops w1 t us.m_data.m_p ut dt ht1 hdt1
  obtain ⟨dst, hdst, hkd⟩ := find_of_shape hshape2 ht1
  obtain ⟨src, hsrc, hks⟩ := find_of_shape hshape2 hs1
  have hld := (deleter_of_kind hkd t).1
  have hls2 := deleter_of_kind hks s
  have hsrc_l : src.m_data.deleter s = us.m_data.deleter s := hls2.1
  have hsrc_r : src.m_data.d.is_reference = us.m_data.d.is_reference := hls2.2.1
  have he : unique_ptr.move_assign ops w t s =
      assign_deleter ops w2 (ut.m_data.deleter t) (us.m_data.deleter s)
        us.m_data.d.is_reference := by
    simp only [unique_ptr.move_assign, hrel, hreset, hdst, hsrc, hld, hsrc_l, hsrc_r]
  have hra : ∃ a, w2.read (ut.m_data.deleter t) = some a := by
    rw [get_deleter_eq_read ht1] at hdt1
    exact read_of_shape hshape2 hdt1
  have hrb : ∃ b, w2.read (us.m_data.deleter s) = some b := by
    rw [get_deleter_eq_read hs, ← hread1] at hds
    exact read_of_shape hshape2 hds
  obtain ⟨a, ha⟩ := hra
  obtain ⟨b, hb⟩ := hrb
  obtain ⟨w3, hasg, hview3, hlog3, hheap3, hshape3⟩ :=
    assign_deleter_spec ops w2 _ _ us.m_data.d.is_reference a b ha hb
  have hview : w3.view = (w.view.set s (some 0)).set t (some us.m_data.m_p) := by
    rw [hview3, hview2, hview1]
  have hlv : t < w.view.length ∧ s < w.view.length := by
    simp [World.view, hlt, hls]
  refine ⟨?_, w3, by rw [he]; exact hasg, ?_, ?_, hview, ?_, ?_, ?_⟩
  · rw [he]
    simp [hrel, hreset]
  · rw [view_get, hview]
    simp [hlv.1]
  · rw [view_get, hview, List.getElem?_set_ne hne]
    simp [hlv.2]
  · rw [hshape3, hshape2, hshape1]
  · intro hc
    obtain ⟨h1, h2, _⟩ := hcall2 hc
    rw [hlog3, hheap3, h1, h2, hview1]
    rw [← hw1]
    simp
  · intro hc
    rw [hlog3, hheap3, hskip2 hc, ← hw1]
    simp

theorem array_reset_void_eq {D : Type} (ops : deleter_ops D) (w : World D) (i : Nat) :
    unique_ptr_array.reset_void ops w i = unique_ptr.reset ops w i 0 := rfl

theorem array_reset_nullptr_eq {D : Type} (ops : deleter_ops D) (w : World D) (i : Nat) :
    unique_ptr_array.reset_nullptr ops w i = unique_ptr.reset ops w i 0 := rfl

theorem dtor_eq {D : Type} (ops : deleter_ops D) {w : World D} {i : Nat} {u : unique_ptr D}
    (h : w.find i = some u) :
    unique_ptr.dtor ops w i =
      (unique_ptr_call_deleter ops w (u.m_data.deleter i) u.m_data.m_p
        u.is_default_deleter_t).map (fun w1 => w1.kill i) := by
  simp only [unique_ptr.dtor, h]
  cases unique_ptr_call_deleter ops w (u.m_data.deleter i) u.m_data.m_p
    u.is_default_deleter_t <;> rfl

@[simp] theorem kill_log {D : Type} (w : World D) (i : Nat) : (w.kill i).log = w.log := rfl

@[simp] theorem kill_heap {D : Type} (w : World D) (i : Nat) : (w.kill i).heap = w.heap := rfl

@[simp] theorem kill_dels {D : Type} (w : World D) (i : Nat) : (w.kill i).dels = w.dels := rfl

@[simp] theorem view_kill {D : Type} (w : World D) (i : Nat) :
    (w.kill i).view = w.view.set i none := by
  simp [World.view, World.kill, List.map_set]

theorem find_kill_same {D : Type} (w : World D) (i : Nat) : (w.kill i).find i = none := by
  simp only [World.find, World.kill]
  by_cases h : i < w.objs.length
  · simp [h]
  · rw [List.getElem?_eq_none (by simp; omega)]
    rfl

theorem dtor_spec {D : Type} (ops : deleter_ops D) (w : World D) (i : Nat)
    (u : unique_ptr D) (d : D) (h : w.find i = some u)
    (hd : unique_ptr.get_deleter w i = some d) :
    ∃ w1, unique_ptr.dtor ops w i = some w1 ∧ w1.find i = none ∧
      w1.view = w.view.set i none ∧
      ((u.is_default_deleter_t = true ∨ u.m_data.m_p ≠ 0) →
        w1.log = w.log ++ [⟨u.m_data.deleter i, u.m_data.m_p, w.view⟩] ∧
        w1.heap = ops.dispose d u.m_data.m_p w.heap) ∧
      ((u.is_default_deleter_t = false ∧ u.m_data.m_p = 0) → w1 = w.kill i) := by
  rw [get_deleter_eq_read h] at hd
  obtain ⟨w1, he, hview, _, _, hcall, hskip⟩ :=
    call_deleter_spec ops w (u.m_data.deleter i) u.m_data.m_p u.is_default_deleter_t d hd
  refine ⟨w1.kill i, by rw [dtor_eq ops h, he]; rfl, find_kill_same _ _, ?_, ?_, ?_⟩
  · rw [view_kill, hview]
  · intro hc
    obtain ⟨h1, h2, _⟩ := hcall hc
    exact ⟨by rw [kill_log, h1], by rw [kill_heap, h2]⟩
  · intro hc
    rw [hskip hc]

theorem reset_events {D : Type} (ops : deleter_ops D) (w : World D) (i : Nat) (p : pointer)
    (u : unique_ptr D) (d : D) (h : w.find i = some u)
    (hd : unique_ptr.get_deleter w i = some d) :
    ∃ w1, unique_ptr.reset ops w i p = some w1 ∧ unique_ptr.get w1 i = some p ∧
      w1.log = w.log ++
        (if u.is_default_deleter_t = true ∨ u.m_data.m_p ≠ 0 then
          [⟨u.m_data.deleter i, u.m_data.m_p, w.view.set i (some p)⟩] else []) ∧
      w1.heap = (if u.is_default_deleter_t = true ∨ u.m_data.m_p ≠ 0 then
          ops.dispose d u.m_data.m_p w.heap else w.heap) ∧
      ((u.is_default_deleter_t = true ∨ u.m_data.m_p ≠ 0) →
        w1.read (u.m_data.deleter i) =
          some (ops.call d u.m_data.m_p (w.view.set i (some p)))) := by
  obtain ⟨w1, he, hview, _, _, hcall, hskip⟩ := reset_spec ops w i p u d h hd
  have hlt : i < w.view.length := by simpa [World.view] using find_lt h
  refine ⟨w1, he, ?_, ?_, ?_, fun hc => (hcall hc).2.2⟩
  · rw [view_get, hview]; simp [hlt]
  · by_cases hc : u.is_default_deleter_t = true ∨ u.m_data.m_p ≠ 0
    · rw [if_pos hc]; exact (hcall hc).1
    · rw [if_neg hc]
      have hc2 : u.is_default_deleter_t = false ∧ u.m_data.m_p = 0 := by
        cases htag : u.is_default_deleter_t <;> simp_all
      rw [hskip hc2]; simp
  · by_cases hc : u.is_default_deleter_t = true ∨ u.m_data.m_p ≠ 0
    · rw [if_pos hc]; exact (hcall hc).2.1
    · rw [if_neg hc]
      have hc2 : u.is_default_deleter_t = false ∧ u.m_data.m_p = 0 := by
        cases htag : u.is_default_deleter_t <;> simp_all
      rw [hskip hc2]; simp

theorem dtor_events {D : Type} (ops : deleter_ops D) (w : World D) (i : Nat)
    (u : unique_ptr D) (d : D) (h : w.find i = some u)
    (hd : unique_ptr.get_deleter w i = some d) :
    ∃ w1, unique_ptr.dtor ops w i = some w1 ∧ w1.find i = none ∧
      w1.log = w.log ++
        (if u.is_default_deleter_t = true ∨ u.m_data.m_p ≠ 0 then
          [⟨u.m_data.deleter i, u.m_data.m_p, w.view⟩] else []) ∧
      w1.heap = (if u.is_default_deleter_t = true ∨ u.m_data.m_p ≠ 0 then
          ops.dispose d u.m_data.m_p w.heap else w.heap) ∧
      ((u.is_default_deleter_t = false ∧ u.m_data.m_p = 0) → w1 = w.kill i) := by
  obtain ⟨w1, he, hdead, _, hcall, hskip⟩ := dtor_spec ops w i u d h hd
  refine ⟨w1, he, hdead, ?_, ?_, hskip⟩
  · by_cases hc : u.is_default_deleter_t = true ∨ u.m_data.m_p ≠ 0
    · rw [if_pos hc]; exact (hcall hc).1
    · rw [if_neg hc]
      have hc2 : u.is_default_deleter_t = false ∧ u.m_data.m_p = 0 := by
        cases htag : u.is_default_deleter_t <;> simp_all
      rw [hskip hc2]; simp
  · by_cases hc : u.is_default_deleter_t = true ∨ u.m_data.m_p ≠ 0
    · rw [if_pos hc]; exact (hcall hc).2
    · rw [if_neg hc]
      have hc2 : u.is_default_deleter_t = false ∧ u.m_data.m_p = 0 := by
        cases htag : u.is_default_deleter_t <;> simp_all
      rw [hskip hc2]; simp

theorem reset_null_custom {D : Type} (ops : deleter_ops D) {w : World D} {i : Nat}
    {u : unique_ptr D} (h : w.find i = some u) (htag : u.is_default_deleter_t = false)
    (hnull : u.m_data.m_p = 0) (p : pointer) :
    unique_ptr.reset ops w i p =
      some (w.store i { u with m_data := { u.m_data with m_p := p } }) := by
  simp [reset_eq ops h, unique_ptr_call_deleter, htag, hnull]

theorem dtor_null_custom {D : Type} (ops : deleter_ops D) {w : World D} {i : Nat}
    {u : unique_ptr D} (h : w.find i = some u) (htag : u.is_default_deleter_t = false)
    (hnull : u.m_data.m_p = 0) :
    unique_ptr.dtor ops w i = some (w.kill i) := by
  simp [dtor_eq ops h, unique_ptr_call_deleter, htag, hnull]

theorem cpp_delete_null (h : Heap) : cpp_delete 0 h = h := by
  simp [cpp_delete]

theorem view_getElem_of_find {D : Type} {w : World D} {i : Nat} {u : unique_ptr D}
    (h : w.find i = some u) : w.view[i]? = some (some u.m_data.m_p) := by
  simp [World.view, find_getElem h]

theorem wf_of_shape {D : Type} {w v : World D} (hs : v.shape = w.shape) (hwf : w.wf) :
    v.wf := by
  intro i u k hf hd
  obtain ⟨u0, hf0, hk0⟩ := find_of_shape hs.symm hf
  have hl : v.dels.length = w.dels.length := congrArg Prod.snd hs
  rw [hl]
  refine hwf i u0 k hf0 ?_
  unfold unique_ptr.kind at hk0
  cases hd0 : u0.m_data.d with
  | member d => simp [hd, hd0] at hk0
  | reference k0 =>
    simp only [hd, hd0, Prod.mk.injEq, Option.some.injEq] at hk0
    rw [hk0.2]

theorem get_deleter_of_wf {D : Type} {w : World D} (hwf : w.wf) {i : Nat} {u : unique_ptr D}
    (h : w.find i = some u) : ∃ d, unique_ptr.get_deleter w i = some d := by
  rw [get_deleter_eq_read h]
  cases hd : u.m_data.d with
  | member d => exact ⟨d, by simp [unique_ptr_data.deleter, hd, World.read, h]⟩
  | reference k =>
    have hk := hwf i u k h hd
    exact ⟨w.dels[k], by simp [unique_ptr_data.deleter, hd, World.read, hk]⟩

theorem release_view {D : Type} {w : World D} {i : Nat} {u : unique_ptr D}
    (h : w.find i = some u) :
    ∃ w1, unique_ptr.release w i = some (u.m_data.m_p, w1) ∧
      w1.view = w.view.set i (some 0) ∧ w1.log = w.log ∧ w1.shape = w.shape :=
  ⟨_, release_eq h, by simp, rfl, shape_store h (kind_with_m_p u 0)⟩

@[simp] theorem view_alloc {D : Type} (w : World D) (u : unique_ptr D) :
    (w.alloc u).2.view = w.view ++ [some u.m_data.m_p] := by
  simp [World.view, World.alloc]

theorem wf_alloc {D : Type} {w : World D} (hwf : w.wf) {i : Nat} {u v : unique_ptr D}
    (h : w.find i = some u) (hk : v.kind = u.kind) : (w.alloc v).2.wf := by
  intro j x k hf hd
  have hdels : (w.alloc v).2.dels = w.dels := rfl
  rw [hdels]
  by_cases hj : j < w.objs.length
  · rw [find_alloc_old _ _ _ hj] at hf
    exact hwf j x k hf hd
  · have hjl : j = w.objs.length := by
      have := find_lt hf
      simp [World.alloc] at this
      omega
    subst hjl
    have hn := find_alloc_new w v
    rw [alloc_fst] at hn
    rw [hn] at hf
    have hx : v = x := Option.some.inj hf
    subst hx
    unfold unique_ptr.kind at hk
    cases hd0 : u.m_data.d with
    | member d => simp [hd, hd0] at hk
    | reference k0 =>
      simp only [hd, hd0, Prod.mk.injEq, Option.some.injEq] at hk
      rw [hk.2]
      exact hwf i u k0 h hd0

theorem move_ctor_view {D : Type} (ops : deleter_ops D) {w : World D} (hwf : w.wf) {a : Nat}
    {u : unique_ptr D} (h : w.find a = some u) :
    ∃ r, unique_ptr.move_ctor ops w a = some r ∧
      r.2.view = w.view.set a (some 0) ++ [some u.m_data.m_p] ∧ r.2.log = w.log ∧
      r.2.wf ∧ r.2.objs.length = w.objs.length + 1 := by
  have hlt := find_lt h
  have hs : (w.store a { u with m_data := { u.m_data with m_p := 0 } }).shape = w.shape :=
    shape_store h (kind_with_m_p u 0)
  have hf1 := find_store_same w a { u with m_data := { u.m_data with m_p := 0 } } hlt
  cases hd : u.m_data.d with
  | member d =>
    have e : unique_ptr.move_ctor ops w a = some
        (((w.store a { u with m_data := { u.m_data with m_p := 0 } }).write (.of_member a)
          (ops.move_ctor d).2).alloc
          { m_data := { m_p := u.m_data.m_p, d := .member (ops.move_ctor d).1 },
            is_default_deleter_t := u.is_default_deleter_t }) := by
      simp [unique_ptr.move_ctor, release_eq h, find_store_same _ _ _ hlt, hd]
    have hr : (w.store a { u with m_data := { u.m_data with m_p := 0 } }).read
        (.of_member a) = some d := by
      simp only [World.read, hf1]
      simp [hd]
    have hs2 := shape_write_of_read _ _ _ (ops.move_ctor d).2 hr
    obtain ⟨u2, hf2, hk2⟩ := find_of_shape (hs2.trans hs) h
    refine ⟨_, e, by simp, by simp, ?_, by simp [World.alloc]⟩
    refine wf_alloc (wf_of_shape (hs2.trans hs) hwf) hf2 ?_
    rw [hk2]
    simp [unique_ptr.kind, hd]
  | reference k =>
    have e : unique_ptr.move_ctor ops w a = some
        ((w.store a { u with m_data := { u.m_data with m_p := 0 } }).alloc
          { m_data := { m_p := u.m_data.m_p, d := .reference k },
            is_default_deleter_t := u.is_default_deleter_t }) := by
      simp [unique_ptr.move_ctor, release_eq h, find_store_same _ _ _ hlt, hd]
    refine ⟨_, e, by simp, by simp, ?_, by simp [World.alloc]⟩
    refine wf_alloc (wf_of_shape hs hwf) hf1 ?_
    simp [unique_ptr.kind, hd]
theorem reset_summary {D : Type} (ops : deleter_ops D) (w : World D) (i : Nat) (p : pointer)
    (u : unique_ptr D) (d : D) (h : w.find i = some u)
    (hd : unique_ptr.get_deleter w i = some d) :
    ∃ w1, unique_ptr.reset ops w i p = some w1 ∧ w1.view = w.view.set i (some p) ∧
      w1.shape = w.shape ∧
      w1.calls = w.calls ++
        (if u.is_default_deleter_t = true ∨ u.m_data.m_p ≠ 0 then [u.m_data.m_p] else []) := by
  obtain ⟨w1, he, hview, hshape, _, _, _⟩ := reset_spec ops w i p u d h hd
  obtain ⟨w2, he2, _, hlog, _, _⟩ := reset_events ops w i p u d h hd
  have hw : w2 = w1 := Option.some.inj (he2.symm.trans he)
  subst hw
  refine ⟨_, he, hview, hshape, ?_⟩
  simp only [World.calls, hlog, List.map_append]
  split <;> simp

theorem dtor_summary {D : Type} (ops : deleter_ops D) (w : World D) (i : Nat)
    (u : unique_ptr D) (d : D) (h : w.find i = some u)
    (hd : unique_ptr.get_deleter w i = some d) :
    ∃ w1, unique_ptr.dtor ops w i = some w1 ∧ w1.view = w.view.set i none ∧
      w1.dels.length = w.dels.length ∧
      (∀ j v, w1.find j = some v → ∃ v0, w.find j = some v0 ∧ v.kind = v0.kind) ∧
      w1.calls = w.calls ++
        (if u.is_default_deleter_t = true ∨ u.m_data.m_p ≠ 0 then [u.m_data.m_p] else []) := by
  rw [get_deleter_eq_read h] at hd
  obtain ⟨w1, he, hview, hshape, _, hcall, hskip⟩ :=
    call_deleter_spec ops w (u.m_data.deleter i) u.m_data.m_p u.is_default_deleter_t d hd
  refine ⟨w1.kill i, by rw [dtor_eq ops h, he]; rfl, by rw [view_kill, hview], ?_, ?_, ?_⟩
  · exact congrArg Prod.snd hshape
  · intro j v hf
    by_cases hij : i = j
    · subst hij
      rw [find_kill_same] at hf
      simp at hf
    · have hf1 : w1.find j = some v := by
        simpa [World.find, World.kill, List.getElem?_set_ne hij] using hf
      obtain ⟨v0, h0, hk0⟩ := find_of_shape hshape.symm hf1
      exact ⟨v0, h0, hk0.symm⟩
  · simp only [World.calls, kill_log]
    by_cases hc : u.is_default_deleter_t = true ∨ u.m_data.m_p ≠ 0
    · rw [if_pos hc, (hcall hc).1]; simp
    · rw [if_neg hc]
      have hc2 : u.is_default_deleter_t = false ∧ u.m_data.m_p = 0 := by
        cases htag : u.is_default_deleter_t <;> simp_all
      rw [hskip hc2]; simp

theorem move_assign_view {D : Type} (ops : deleter_ops D) {w : World D} (hwf : w.wf)
    {t s : Nat} {ut us : unique_ptr D} (ht : w.find t = some ut) (hs : w.find s = some us) :
    ∃ w1, unique_ptr.move_assign ops w t s = some w1 ∧
      w1.view = (w.view.set s (some 0)).set t (some us.m_data.m_p) ∧ w1.shape = w.shape ∧
      w1.calls = w.calls ++
        (if ut.is_default_deleter_t = true ∨ (if t = s then 0 else ut.m_data.m_p) ≠ 0 then
          [if t = s then 0 else ut.m_data.m_p] else []) := by
  have hls := find_lt hs
  obtain ⟨w1, hrel, hview1, hlog1, hshape1⟩ := release_view hs
  have hwf1 := wf_of_shape hshape1 hwf
  have hs1 : ∃ us1, w1.find s = some us1 ∧ us1.kind = us.kind := find_of_shape hshape1 hs
  obtain ⟨us1, hs1, hks1⟩ := hs1
  obtain ⟨ut1, ht1, hkt1⟩ := find_of_shape hshape1 ht
  have hq1 : ut1.m_data.m_p = if t = s then 0 else ut.m_data.m_p := by
    have h1 := view_getElem_of_find ht1
    rw [hview1] at h1
    by_cases hts : t = s
    · subst hts
      simp [hls, World.view] at h1
      simp [h1]
    · rw [List.getElem?_set_ne (Ne.symm hts), view_getElem_of_find ht] at h1
      simp only [Option.some.injEq] at h1
      simp [hts, h1]
  obtain ⟨dt, hdt1⟩ := get_deleter_of_wf hwf1 ht1
  obtain ⟨w2, hreset, hview2, hshape2, hcalls2⟩ :=
    reset_summary ops w1 t us.m_data.m_p ut1 dt ht1 hdt1
  obtain ⟨dst, hdst, hkd⟩ := find_of_shape hshape2 ht1
  obtain ⟨src, hsrc, hks⟩ := find_of_shape hshape2 hs1
  have hwf2 := wf_of_shape hshape2 hwf1
  obtain ⟨a, ha⟩ := get_deleter_of_wf hwf2 hdst
  obtain ⟨b, hb⟩ := get_deleter_of_wf hwf2 hsrc
  rw [get_deleter_eq_read hdst] at ha
  rw [get_deleter_eq_read hsrc] at hb
  obtain ⟨w3, hasg, hview3, hlog3, _, hshape3⟩ :=
    assign_deleter_spec ops w2 _ _ src.m_data.d.is_reference a b ha hb
  refine ⟨w3, ?_, ?_, ?_, ?_⟩
  · simp only [unique_ptr.move_assign, hrel, hreset, hdst, hsrc]
    exact hasg
  · rw [hview3, hview2, hview1]
  · rw [hshape3, hshape2, hshape1]
  · have : w3.calls = w2.calls := by simp [World.calls, hlog3]
    rw [this, hcalls2, hq1, (deleter_of_kind hkt1 t).2.2]
    simp [World.calls, hlog1]

theorem swap_deleter_spec {D : Type} (ops : deleter_ops D) (w : World D)
    (a b : deleter_lvalue) (x y : D)
    (ha : w.read a = some x) (hb : w.read b = some y) :
    ∃ w1, swap_deleter ops w a b = some w1 ∧ w1.view = w.view ∧ w1.log = w.log ∧
      w1.heap = w.heap ∧ w1.shape = w.shape := by
  by_cases hab : a = b
  · subst hab
    refine ⟨w.write a (ops.swap_self x), by simp [swap_deleter, ha], ?_, ?_, ?_, ?_⟩
    · simp
    · simp
    · simp
    · exact shape_write_of_read _ _ _ _ ha
  · refine ⟨(w.write a (ops.swap x y).1).write b (ops.swap x y).2,
      by simp [swap_deleter, ha, hb, hab], ?_, ?_, ?_, ?_⟩
    · simp
    · simp
    · simp
    · have h1 : (w.write a (ops.swap x y).1).read b = some y := by
        rw [read_write_ne _ _ _ _ (fun h => hab h.symm)]; exact hb
      rw [shape_write_of_read _ _ _ _ h1, shape_write_of_read _ _ _ _ ha]

theorem swap_view {D : Type} (ops : deleter_ops D) {w : World D} (hwf : w.wf)
    {x y : Nat} {a b : unique_ptr D} (hx : w.find x = some a) (hy : w.find y = some b) :
    ∃ w1, unique_ptr.swap ops w x y = some w1 ∧
      w1.view = (w.view.set x (some b.m_data.m_p)).set y (some a.m_data.m_p) ∧
      w1.shape = w.shape ∧ w1.log = w.log := by
  have hs1 : (w.store x { a with m_data := { a.m_data with m_p := b.m_data.m_p } }).shape =
      w.shape := shape_store hx (kind_with_m_p a _)
  obtain ⟨b1, hb1, hkb1⟩ := find_of_shape hs1 hy
  have hs2 : ((w.store x { a with m_data := { a.m_data with m_p := b.m_data.m_p } }).store y
      { b with m_data := { b.m_data with m_p := a.m_data.m_p } }).shape = w.shape := by
    rw [shape_store hb1 (by rw [kind_with_m_p, hkb1]), hs1]
  have hwf2 := wf_of_shape hs2 hwf
  obtain ⟨a2, ha2, hka2⟩ := find_of_shape hs2 hx
  obtain ⟨b2, hb2, hkb2⟩ := find_of_shape hs2 hy
  obtain ⟨da, hda⟩ := get_deleter_of_wf hwf2 ha2
  obtain ⟨db, hdb⟩ := get_deleter_of_wf hwf2 hb2
  rw [get_deleter_eq_read ha2, (deleter_of_kind hka2 x).1] at hda
  rw [get_deleter_eq_read hb2, (deleter_of_kind hkb2 y).1] at hdb
  obtain ⟨w3, hsw, hview3, hlog3, _, hshape3⟩ := swap_deleter_spec ops _ _ _ da db hda hdb
  refine ⟨w3, ?_, ?_, ?_, ?_⟩
  · simp only [unique_ptr.swap, hx, hy]
    exact hsw
  · rw [hview3]; simp
  · rw [hshape3, hs2]
  · rw [hlog3]; simp

theorem count_set_beq {α : Type} [BEq α] [LawfulBEq α] (l : List α) (i : Nat) (x y a : α)
    (h : l[i]? = some y) :
    (l.set i x).count a + (if y == a then 1 else 0) =
      l.count a + (if x == a then 1 else 0) := by
  induction l generalizing i with
  | nil => simp at h
  | cons z l ih =>
    cases i with
    | zero =>
      simp only [List.getElem?_cons_zero, Option.some.injEq] at h
      subst h
      simp only [List.set_cons_zero, List.count_cons]
      omega
    | succ i =>
      simp only [List.getElem?_cons_succ] at h
      have := ih i h
      simp only [List.set_cons_succ, List.count_cons]
      omega

theorem count_set_some (l : List (Option pointer)) (i : Nat) (x : pointer)
    (y : Option pointer) (h : pointer) (hy : l[i]? = some y) :
    (l.set i (some x)).count (some h) + (if y = some h then 1 else 0) =
      l.count (some h) + (if x = h then 1 else 0) := by
  have := count_set_beq l i (some x) y (some h) hy
  simpa using this

theorem count_set_none (l : List (Option pointer)) (i : Nat)
    (y : Option pointer) (h : pointer) (hy : l[i]? = some y) :
    (l.set i none).count (some h) + (if y = some h then 1 else 0) = l.count (some h) := by
  have := count_set_beq l i none y (some h) hy
  simpa using this

theorem count_release (l : List (Option pointer)) (s : Nat) (p h : pointer)
    (hs : l[s]? = some (some p)) (hh : h ≠ 0) :
    (l.set s (some 0)).count (some h) + (if p = h then 1 else 0) = l.count (some h) := by
  have := count_set_some l s 0 (some p) h hs
  simp only [Option.some.injEq] at this
  rw [if_neg (fun h0 : 0 = h => hh h0.symm)] at this
  omega

theorem getElem?_set_some (l : List (Option pointer)) (s t : Nat) (x : Option pointer)
    (p q : Option pointer) (hs : l[s]? = some p) (ht : l[t]? = some q) :
    (l.set s x)[t]? = some (if t = s then x else q) := by
  by_cases hts : t = s
  · subst hts
    have hlt : t < l.length := by
      by_contra hc
      rw [List.getElem?_eq_none (by omega)] at hs
      simp at hs
    simp [hlt]
  · rw [List.getElem?_set_ne (Ne.symm hts), ht, if_neg hts]

theorem count_move_assign (l : List (Option pointer)) (t s : Nat) (p q h : pointer)
    (tag : Bool) (hs : l[s]? = some (some p)) (ht : l[t]? = some (some q)) (hh : h ≠ 0) :
    ((l.set s (some 0)).set t (some p)).count (some h) +
      (if tag = true ∨ (if t = s then 0 else q) ≠ 0 then
        [if t = s then 0 else q] else []).count h = l.count (some h) := by
  have h1 := count_release l s p h hs hh
  have h2 := getElem?_set_some l s t (some 0) _ _ hs ht
  have h3 := count_set_some (l.set s (some 0)) t p _ h h2
  by_cases hts : t = s
  · simp only [hts, if_true] at h3 ⊢
    have h0 : (some (0 : pointer) = some h) = False := by
      simp; exact fun h0 => hh h0.symm
    simp only [h0, if_false] at h3
    have hc : (if tag = true ∨ (0 : pointer) ≠ 0 then [(0 : pointer)] else []).count h = 0 := by
      split
      · exact List.count_eq_zero.mpr (by simpa using hh)
      · rfl
    rw [hc]
    omega
  · simp only [hts, if_false, Option.some.injEq] at h3 ⊢
    have hc : (if tag = true ∨ q ≠ 0 then [q] else []).count h = if q = h then 1 else 0 := by
      by_cases hq : q = h
      · have : tag = true ∨ q ≠ 0 := Or.inr (by rw [hq]; exact hh)
        rw [if_pos this, if_pos hq, hq]
        simp
      · rw [if_neg hq]
        split
        · exact List.count_eq_zero.mpr (by simpa using Ne.symm hq)
        · rfl
    rw [hc]
    omega

theorem count_swap (l : List (Option pointer)) (x y : Nat) (pa pb h : pointer)
    (hx : l[x]? = some (some pa)) (hy : l[y]? = some (some pb)) :
    ((l.set x (some pb)).set y (some pa)).count (some h) = l.count (some h) := by
  have h1 := count_set_some l x pb _ h hx
  have h2 := getElem?_set_some l x y (some pb) _ _ hx hy
  have h3 := count_set_some (l.set x (some pb)) y pa _ h h2
  by_cases hxy : y = x
  · subst hxy
    rw [hx] at hy
    have hab : pa = pb := by simpa using hy
    subst hab
    simp only [if_true, Option.some.injEq] at h1 h3
    omega
  · simp only [hxy, if_false, Option.some.injEq] at h1 h3
    omega
theorem view_length {D : Type} (w : World D) : w.view.length = w.objs.length := by
  simp [World.view]

theorem length_of_shape {D : Type} {w v : World D} (hs : v.shape = w.shape) :
    v.objs.length = w.objs.length := by
  have := congrArg (fun s => s.1.length) hs
  simpa [World.shape] using this

theorem find_of_view {D : Type} {w : World D} {i : Nat} {p : pointer}
    (h : w.view[i]? = some (some p)) : ∃ u, w.find i = some u := by
  simp only [World.view, List.getElem?_map] at h
  cases ho : w.objs[i]? with
  | none => simp [ho] at h
  | some o =>
    cases o with
    | none => simp [ho] at h
    | some u => exact ⟨u, by simp [World.find, ho]⟩

theorem find_of_alive {D : Type} {w : World D} (ha : w.alive) {i : Nat}
    (hi : i < w.objs.length) : ∃ u, w.find i = some u := by
  have hl : i < w.view.length := by rw [view_length]; exact hi
  cases hv : w.view[i] with
  | none =>
    exact absurd (hv ▸ List.getElem_mem hl) ha
  | some p =>
    exact find_of_view (by rw [List.getElem?_eq_getElem hl, hv])

theorem mem_set_none {l : List (Option pointer)} {i : Nat} {p : pointer}
    (h : none ∈ l.set i (some p)) : none ∈ l := by
  rcases List.mem_or_eq_of_mem_set h with h1 | h1
  · exact h1
  · simp at h1

theorem follows_release {D : Type} {w : World D} (hwf : w.wf) {i : Nat} {u : unique_ptr D}
    (h : w.find i = some u) :
    ∃ w1, (unique_ptr.release w i).map Prod.snd = some w1 ∧ w.follows w1 false true := by
  obtain ⟨w1, he, hview, hlog, hshape⟩ := release_view h
  refine ⟨w1, by rw [he]; rfl, wf_of_shape hshape hwf, by simpa using length_of_shape hshape,
    ?_, ?_, by simp⟩
  · rw [hview]; exact mem_set_none
  · intro x hx
    rw [hview]
    have := count_release w.view i u.m_data.m_p x (view_getElem_of_find h) hx
    omega

theorem follows_move_ctor {D : Type} (ops : deleter_ops D) {w : World D} (hwf : w.wf)
    {a : Nat} {u : unique_ptr D} (h : w.find a = some u) :
    ∃ w1, (unique_ptr.move_ctor ops w a).map Prod.snd = some w1 ∧
      w.follows w1 true false := by
  obtain ⟨r, he, hview, hlog, hwf1, hlen⟩ := move_ctor_view ops hwf h
  have hcount : ∀ x, x ≠ 0 → r.2.view.count (some x) = w.view.count (some x) := by
    intro x hx
    have := count_release w.view a u.m_data.m_p x (view_getElem_of_find h) hx
    rw [hview, List.count_append]
    by_cases hp : u.m_data.m_p = x
    · simp only [hp, if_true] at this
      simp [hp]; omega
    · simp only [hp, if_false] at this
      have h0 : List.count (some x) [some u.m_data.m_p] = 0 :=
        List.count_eq_zero.mpr (by simpa using Ne.symm hp)
      omega
  refine ⟨r.2, by rw [he]; rfl, hwf1, by simpa using hlen, ?_, ?_, ?_⟩
  · rw [hview]
    intro hm
    rcases List.mem_append.mp hm with h1 | h1
    · exact mem_set_none h1
    · simp at h1
  · intro x hx
    rw [hcount x hx]
  · intro _ x hx
    rw [hcount x hx]
    simp [World.calls, hlog]

theorem follows_move_assign {D : Type} (ops : deleter_ops D) {w : World D} (hwf : w.wf)
    {t s : Nat} {ut us : unique_ptr D} (ht : w.find t = some ut) (hs : w.find s = some us) :
    ∃ w1, unique_ptr.move_assign ops w t s = some w1 ∧ w.follows w1 false false := by
  obtain ⟨w1, he, hview, hshape, hcalls⟩ := move_assign_view ops hwf ht hs
  have hsum : ∀ x, x ≠ 0 →
      w1.view.count (some x) + w1.calls.count x =
        w.view.count (some x) + w.calls.count x := by
    intro x hx
    have := count_move_assign w.view t s us.m_data.m_p ut.m_data.m_p x
      ut.is_default_deleter_t (view_getElem_of_find hs) (view_getElem_of_find ht) hx
    rw [hview, hcalls, List.count_append]
    omega
  refine ⟨w1, he, wf_of_shape hshape hwf, by simpa using length_of_shape hshape, ?_, ?_,
    fun _ => hsum⟩
  · rw [hview]
    exact fun hm => mem_set_none (mem_set_none hm)
  · intro x hx
    have h1 := hsum x hx
    have h2 : w.calls.count x ≤ w1.calls.count x := by
      rw [hcalls, List.count_append]; omega
    omega

theorem follows_swap {D : Type} (ops : deleter_ops D) {w : World D} (hwf : w.wf)
    {x y : Nat} {a b : unique_ptr D} (hx : w.find x = some a) (hy : w.find y = some b) :
    ∃ w1, unique_ptr.swap ops w x y = some w1 ∧ w.follows w1 false false := by
  obtain ⟨w1, he, hview, hshape, hlog⟩ := swap_view ops hwf hx hy
  have hcount : ∀ h, w1.view.count (some h) = w.view.count (some h) := by
    intro h
    rw [hview]
    exact count_swap w.view x y _ _ h (view_getElem_of_find hx) (view_getElem_of_find hy)
  refine ⟨w1, he, wf_of_shape hshape hwf, by simpa using length_of_shape hshape, ?_, ?_, ?_⟩
  · rw [hview]
    exact fun hm => mem_set_none (mem_set_none hm)
  · intro h _
    rw [hcount h]
  · intro _ h _
    rw [hcount h]
    simp [World.calls, hlog]

theorem follows_step {D : Type} (ops : deleter_ops D) {w : World D} (hwf : w.wf) (op : Op)
    (hlive : ∀ i ∈ op.ids, ∃ u, w.find i = some u) :
    ∃ w1, step ops w op = some w1 ∧ w.follows w1 op.creates op.is_release := by
  cases op with
  | move_ctor u =>
    obtain ⟨a, ha⟩ := hlive u (by simp [Op.ids])
    exact follows_move_ctor ops hwf ha
  | move_assign t u =>
    obtain ⟨a, ha⟩ := hlive t (by simp [Op.ids])
    obtain ⟨b, hb⟩ := hlive u (by simp [Op.ids])
    exact follows_move_assign ops hwf ha hb
  | swap x u =>
    obtain ⟨a, ha⟩ := hlive x (by simp [Op.ids])
    obtain ⟨b, hb⟩ := hlive u (by simp [Op.ids])
    exact follows_swap ops hwf ha hb
  | release i =>
    obtain ⟨a, ha⟩ := hlive i (by simp [Op.ids])
    exact follows_release hwf ha
  | array_move_ctor u =>
    obtain ⟨a, ha⟩ := hlive u (by simp [Op.ids])
    exact follows_move_ctor ops hwf ha
  | array_move_assign t u =>
    obtain ⟨a, ha⟩ := hlive t (by simp [Op.ids])
    obtain ⟨b, hb⟩ := hlive u (by simp [Op.ids])
    exact follows_move_assign ops hwf ha hb
  | array_swap x u =>
    obtain ⟨a, ha⟩ := hlive x (by simp [Op.ids])
    obtain ⟨b, hb⟩ := hlive u (by simp [Op.ids])
    exact follows_swap ops hwf ha hb
  | array_release i =>
    obtain ⟨a, ha⟩ := hlive i (by simp [Op.ids])
    exact follows_release hwf ha

theorem run_follows {D : Type} (ops : deleter_ops D) (seq : List Op) :
    ∀ w : World D, w.alive → w.wf → valid_run w.objs.length seq = true →
      (∀ op ∈ seq, op.is_release = false) →
      ∃ w1, run ops w seq = some w1 ∧ w1.alive ∧ w1.wf ∧
        ∀ h, h ≠ 0 → w1.view.count (some h) + w1.calls.count h =
          w.view.count (some h) + w.calls.count h := by
  induction seq with
  | nil =>
    intro w ha hwf _ _
    exact ⟨w, rfl, ha, hwf, fun _ _ => rfl⟩
  | cons op rest ih =>
    intro w ha hwf hv hr
    simp only [valid_run, Bool.and_eq_true, List.all_eq_true, decide_eq_true_eq] at hv
    obtain ⟨w1, he, hwf1, hlen, hal, _, hsum⟩ :=
      follows_step ops hwf op (fun i hi => find_of_alive ha (hv.1 i hi))
    have ha1 : w1.alive := fun hn => ha (hal hn)
    have hv1 : valid_run w1.objs.length rest = true := by
      rw [hlen]; exact hv.2
    obtain ⟨w2, he2, ha2, hwf2, hsum2⟩ :=
      ih w1 ha1 hwf1 hv1 (fun o ho => hr o (List.mem_cons_of_mem _ ho))
    refine ⟨w2, by simp only [run, he]; exact he2, ha2, hwf2, ?_⟩
    intro h hh
    rw [hsum2 h hh, hsum (hr op (List.mem_cons_self _ _)) h hh]

theorem destroy_spec {D : Type} (ops : deleter_ops D) (ids : List Nat) :
    ∀ w : World D, w.wf → ids.Nodup → (∀ i ∈ ids, ∃ u, w.find i = some u) →
      ∃ w1, destroy ops w ids = some w1 ∧
        (∀ i, (i ∈ ids ∨ w.view[i]? = some none) → w1.view[i]? = some none) ∧
        w1.view.length = w.view.length ∧
        ∀ h, h ≠ 0 → w1.view.count (some h) + w1.calls.count h =
          w.view.count (some h) + w.calls.count h := by
  induction ids with
  | nil =>
    intro w _ _ _
    refine ⟨w, rfl, ?_, rfl, fun _ _ => rfl⟩
    intro i hi
    rcases hi with hi | hi
    · simp at hi
    · exact hi
  | cons i rest ih =>
    intro w hwf hnd hlive
    obtain ⟨u, hu⟩ := hlive i (List.mem_cons_self _ _)
    obtain ⟨d, hd⟩ := get_deleter_of_wf hwf hu
    obtain ⟨w1, he, hview, hdels, hfind, hcalls⟩ := dtor_summary ops w i u d hu hd
    have hnd2 := List.nodup_cons.mp hnd
    have hwf1 : w1.wf := by
      intro j v k hf hk
      obtain ⟨v0, hf0, hk0⟩ := hfind j v hf
      rw [hdels]
      refine hwf j v0 k hf0 ?_
      unfold unique_ptr.kind at hk0
      cases hd0 : v0.m_data.d with
      | member d => simp [hk, hd0] at hk0
      | reference k0 =>
        simp only [hk, hd0, Prod.mk.injEq, Option.some.injEq] at hk0
        rw [hk0.2]
    have hlive1 : ∀ j ∈ rest, ∃ v, w1.find j = some v := by
      intro j hj
      have hij : i ≠ j := fun h => hnd2.1 (h ▸ hj)
      obtain ⟨v, hv⟩ := hlive j (List.mem_cons_of_mem _ hj)
      have : w1.view[j]? = some (some v.m_data.m_p) := by
        rw [hview, List.getElem?_set_ne hij]
        exact view_getElem_of_find hv
      exact find_of_view this
    obtain ⟨w2, he2, hdead2, hlen2, hsum2⟩ := ih w1 hwf1 hnd2.2 hlive1
    have hil : i < w.view.length := by rw [view_length]; exact find_lt hu
    refine ⟨w2, by simp only [destroy, he]; exact he2, ?_, ?_, ?_⟩
    · intro j hj
      apply hdead2
      by_cases hij : i = j
      · subst hij
        right
        rw [hview]
        simp [hil]
      · rcases hj with hj | hj
        · rcases List.mem_cons.mp hj with hj | hj
          · exact absurd hj.symm hij
          · exact Or.inl hj
        · right
          rw [hview, List.getElem?_set_ne hij]
          exact hj
    · rw [hlen2, hview]; simp
    · intro h hh
      rw [hsum2 h hh, hview, hcalls, List.count_append]
      have h1 := count_set_none w.view i _ h (view_getElem_of_find hu)
      simp only [Option.some.injEq] at h1
      have hc : (if u.is_default_deleter_t = true ∨ u.m_data.m_p ≠ 0 then
          [u.m_data.m_p] else []).count h = if u.m_data.m_p = h then 1 else 0 := by
        by_cases hq : u.m_data.m_p = h
        · have : u.is_default_deleter_t = true ∨ u.m_data.m_p ≠ 0 :=
            Or.inr (by rw [hq]; exact hh)
          rw [if_pos this, if_pos hq, hq]
          simp
        · rw [if_neg hq]
          split
          · exact List.count_eq_zero.mpr (by simpa using Ne.symm hq)
          · rfl
      rw [hc]
      omega

theorem destroy_all_spec {D : Type} (ops : deleter_ops D) (w : World D) (ha : w.alive)
    (hwf : w.wf) :
    ∃ w1, destroy_all ops w = some w1 ∧
      ∀ h, h ≠ 0 → w1.calls.count h = w.view.count (some h) + w.calls.count h := by
  obtain ⟨w1, he, hdead, hlen, hsum⟩ := destroy_spec ops (List.range w.objs.length).reverse w
    hwf (List.nodup_reverse.mpr (List.nodup_range _))
    (fun i hi => find_of_alive ha (by simpa using hi))
  refine ⟨w1, he, ?_⟩
  intro h hh
  have hz : w1.view.count (some h) = 0 := by
    apply List.count_eq_zero.mpr
    intro hm
    obtain ⟨i, hi, hget⟩ := List.getElem_of_mem hm
    have hi2 : i < w.objs.length := by
      rw [hlen, view_length] at hi; exact hi
    have := hdead i (Or.inl (by simpa using hi2))
    rw [List.getElem?_eq_getElem hi, hget] at this
    simp at this
  have := hsum h hh
  omega

theorem two_le_count_iff (l : List (Option pointer)) (a : Option pointer) :
    2 ≤ l.count a ↔ ∃ i j : Nat, i < j ∧ l[i]? = some a ∧ l[j]? = some a := by
  induction l with
  | nil => simp
  | cons x l ih =>
    constructor
    · intro h
      by_cases hx : x = a
      · subst hx
        simp only [List.count_cons_self] at h
        have h1 : 0 < l.count x := by omega
        obtain ⟨j, hj, hget⟩ := List.getElem_of_mem (List.count_pos_iff.mp h1)
        exact ⟨0, j + 1, by omega, by simp, by simp [hj, hget]⟩
      · rw [List.count_cons_of_ne (Ne.symm hx)] at h
        obtain ⟨i, j, hij, hi, hj⟩ := ih.mp h
        exact ⟨i + 1, j + 1, by omega, by simpa using hi, by simpa using hj⟩
    · rintro ⟨i, j, hij, hi, hj⟩
      cases j with
      | zero => omega
      | succ j =>
        simp only [List.getElem?_cons_succ] at hj
        cases i with
        | zero =>
          simp only [List.getElem?_cons_zero, Option.some.injEq] at hi
          subst hi
          simp only [List.count_cons_self]
          have : 0 < l.count x := List.count_pos_iff.mpr (List.getElem?_mem hj)
          omega
        | succ i =>
          simp only [List.getElem?_cons_succ] at hi
          have := ih.mpr ⟨i, j, by omega, hi, hj⟩
          have hle : l.count a ≤ (x :: l).count a := by
            rw [List.count_cons]; omega
          omega

theorem view_of_get {D : Type} {w : World D} {i : Nat} {h : pointer}
    (hg : unique_ptr.get w i = some h) : w.view[i]? = some (some h) := by
  simp only [unique_ptr.get, Option.map_eq_some'] at hg
  obtain ⟨u, hu, hp⟩ := hg
  rw [view_getElem_of_find hu, hp]

theorem get_of_view {D : Type} {w : World D} {i : Nat} {h : pointer}
    (hv : w.view[i]? = some (some h)) : unique_ptr.get w i = some h := by
  rw [view_get, hv]; rfl

theorem no_sharing_iff {D : Type} (w : World D) :
    w.no_sharing ↔ ∀ h, h ≠ 0 → w.view.count (some h) ≤ 1 := by
  constructor
  · intro hn h hh
    by_contra hc
    obtain ⟨i, j, hij, hi, hj⟩ := (two_le_count_iff w.view (some h)).mp (by omega)
    exact hh (hn i j h (by omega) (get_of_view hi) (get_of_view hj))
  · intro hc i j h hij hi hj
    by_contra hh
    have h2 : 2 ≤ w.view.count (some h) := by
      rcases Nat.lt_or_gt_of_ne hij with hlt | hlt
      · exact (two_le_count_iff _ _).mpr ⟨i, j, hlt, view_of_get hi, view_of_get hj⟩
      · exact (two_le_count_iff _ _).mpr ⟨j, i, hlt, view_of_get hj, view_of_get hi⟩
    have := hc h hh
    omega


theorem w_pair_wf : w_pair.wf := by
  intro i u k hf hd
  match i with
  | 0 =>
    have : u = u_owner := by simpa [World.find, w_pair] using hf.symm
    subst this
    simp [u_owner] at hd
  | 1 =>
    have : u = u_other := by simpa [World.find, w_pair] using hf.symm
    subst this
    simp [u_other] at hd
  | n + 2 => simp [World.find, w_pair] at hf

theorem w_pair_no_sharing : w_pair.no_sharing := by
  rw [no_sharing_iff]
  intro h _
  have hv : w_pair.view = [some 7, some 9] := rfl
  rw [hv]
  simp only [List.count_cons, List.count_nil]
  by_cases h7 : h = 7
  · subst h7; decide
  · by_cases h9 : h = 9
    · subst h9; decide
    · have e7 : (some (7 : pointer) == some h) = false := by
        simpa using Ne.symm h7
      have e9 : (some (9 : pointer) == some h) = false := by
        simpa using Ne.symm h9
      simp [e7, e9]

theorem w_pair_alive : w_pair.alive := by
  have hv : w_pair.view = [some 7, some 9] := rfl
  unfold World.alive
  rw [hv]
  decide

theorem w_pair_live : ∀ i ∈ (Op.move_assign 1 0).ids, ∃ u, w_pair.find i = some u := by
  intro i hi
  simp only [Op.ids, List.mem_cons, List.mem_singleton, List.not_mem_nil, or_false] at hi
  rcases hi with rfl | rfl
  · exact ⟨_, rfl⟩
  · exact ⟨_, rfl⟩

theorem read_store_same_d {D : Type} {w : World D} {i : Nat} {u v : unique_ptr D}
    (h : w.find i = some u) (hd : v.m_data.d = u.m_data.d) (l : deleter_lvalue) :
    (w.store i v).read l = w.read l := by
  cases l with
  | of_member j =>
    by_cases hij : i = j
    · subst hij
      simp [World.read, find_store_same _ _ _ (find_lt h), h, hd]
    · simp [World.read, find_store_ne _ _ _ _ hij]
  | of_object k => rfl

theorem kind_of_same_d {D : Type} {u v : unique_ptr D} (hd : v.m_data.d = u.m_data.d)
    (ht : v.is_default_deleter_t = u.is_default_deleter_t) : v.kind = u.kind := by
  simp [unique_ptr.kind, hd, ht]

theorem swap_spec {D : Type} (ops : deleter_ops D) (w : World D) (x y : Nat)
    (a b : unique_ptr D) (da db : D)
    (hx : w.find x = some a) (hy : w.find y = some b)
    (hda : unique_ptr.get_deleter w x = some da)
    (hdb : unique_ptr.get_deleter w y = some db)
    (hsw : ∀ p q, ops.swap p q = (q, p)) (hself : ∀ p, ops.swap_self p = p) :
    ∃ w1, unique_ptr.swap ops w x y = some w1 ∧
      unique_ptr.get w1 x = some b.m_data.m_p ∧ unique_ptr.get w1 y = some a.m_data.m_p ∧
      unique_ptr.get_deleter w1 x = some db ∧ unique_ptr.get_deleter w1 y = some da ∧
      w1.log = w.log ∧ w1.heap = w.heap := by
  have hlx := find_lt hx
  have hly := find_lt hy
  rw [get_deleter_eq_read hx] at hda
  rw [get_deleter_eq_read hy] at hdb
  -- the state after the swap of the handles
  have hs1 : (w.store x { a with m_data := { a.m_data with m_p := b.m_data.m_p } }).shape =
      w.shape := shape_store hx (kind_with_m_p a _)
  obtain ⟨b1, hb1, hkb1⟩ := find_of_shape hs1 hy
  have hb1d : b1.m_data.d = b.m_data.d := by
    by_cases hxy : x = y
    · subst hxy
      rw [find_store_same _ _ _ hlx] at hb1
      rw [hx] at hy
      have hab : a = b := Option.some.inj hy
      rw [← Option.some.inj hb1, hab]
    · rw [find_store_ne _ _ _ _ hxy, hy] at hb1
      rw [← Option.some.inj hb1]
  generalize hw2 : (w.store x { a with m_data := { a.m_data with m_p := b.m_data.m_p } }).store y
      { b with m_data := { b.m_data with m_p := a.m_data.m_p } } = w2
  have hread2 : ∀ l, w2.read l = w.read l := by
    intro l
    rw [← hw2, read_store_same_d hb1 (by simpa using hb1d.symm), read_store_m_p hx]
  have hs2 : w2.shape = w.shape := by
    rw [← hw2, shape_store hb1 (by rw [kind_with_m_p, hkb1]), hs1]
  have hview2 : w2.view = (w.view.set x (some b.m_data.m_p)).set y (some a.m_data.m_p) := by
    rw [← hw2]; simp
  have hra : w2.read (a.m_data.deleter x) = some da := by rw [hread2]; exact hda
  have hrb : w2.read (b.m_data.deleter y) = some db := by rw [hread2]; exact hdb
  have he : unique_ptr.swap ops w x y =
      swap_deleter ops w2 (a.m_data.deleter x) (b.m_data.deleter y) := by
    simp only [unique_ptr.swap, hx, hy, hw2]
  -- the swap of the deleters
  have hfin : ∃ w3, swap_deleter ops w2 (a.m_data.deleter x) (b.m_data.deleter y) = some w3 ∧
      w3.view = w2.view ∧ w3.shape = w2.shape ∧ w3.log = w2.log ∧ w3.heap = w2.heap ∧
      w3.read (a.m_data.deleter x) = some db ∧ w3.read (b.m_data.deleter y) = some da := by
    by_cases hab : a.m_data.deleter x = b.m_data.deleter y
    · have hdd : da = db := by
        rw [hab, hrb] at hra
        exact (Option.some.inj hra).symm
      subst hdd
      refine ⟨w2.write (a.m_data.deleter x) (ops.swap_self da),
        by simp [swap_deleter, hra, ← hab], by simp, shape_write_of_read _ _ _ _ hra,
        by simp, by simp, ?_, ?_⟩
      · rw [hself]; exact read_write_same _ _ _ _ hra
      · rw [hself, ← hab]; exact read_write_same _ _ _ _ hra
    · have h1 : (w2.write (a.m_data.deleter x) (ops.swap da db).1).read (b.m_data.deleter y) =
          some db := by
        rw [read_write_ne _ _ _ _ (fun h => hab h.symm)]; exact hrb
      refine ⟨(w2.write (a.m_data.deleter x) (ops.swap da db).1).write (b.m_data.deleter y)
          (ops.swap da db).2,
        by simp [swap_deleter, hra, hrb, hab], by simp, ?_, by simp, by simp, ?_, ?_⟩
      · rw [shape_write_of_read _ _ _ _ h1, shape_write_of_read _ _ _ _ hra]
      · rw [read_write_ne _ _ _ _ hab, hsw]
        exact read_write_same _ _ _ _ hra
      · have h2 := read_write_same _ _ _ (ops.swap da db).2 h1
        rw [h2, hsw]
  obtain ⟨w3, he3, hview3, hshape3, hlog3, hheap3, hr3a, hr3b⟩ := hfin
  obtain ⟨a3, ha3, hka3⟩ := find_of_shape (hshape3.trans hs2) hx
  obtain ⟨b3, hb3, hkb3⟩ := find_of_shape (hshape3.trans hs2) hy
  have hvl : x < w.view.length ∧ y < w.view.length := by
    simp [World.view, hlx, hly]
  refine ⟨w3, by rw [he]; exact he3, ?_, ?_, ?_, ?_, ?_, ?_⟩
  · rw [view_get, hview3, hview2]
    by_cases hxy : x = y
    · subst hxy
      rw [hx] at hy
      have hab : a = b := Option.some.inj hy
      simp [hvl.1, hab]
    · rw [List.getElem?_set_ne (Ne.symm hxy)]
      simp [hvl.1]
  · rw [view_get, hview3, hview2]
    simp [hvl.2]
  · rw [get_deleter_eq_read ha3, (deleter_of_kind hka3 x).1]; exact hr3a
  · rw [get_deleter_eq_read hb3, (deleter_of_kind hkb3 y).1]; exact hr3b
  · rw [hlog3, ← hw2]; simp
  · rw [hheap3, ← hw2]; simp

theorem get_deleter_alloc_new_member {D : Type} (w : World D) (u : unique_ptr D) (d : D)
    (hd : u.m_data.d = .member d) :
    unique_ptr.get_deleter (w.alloc u).2 (w.alloc u).1 = some d := by
  rw [get_deleter_eq_read (find_alloc_new w u)]
  simp only [unique_ptr_data.deleter, hd, World.read, find_alloc_new w u]

theorem get_deleter_of_object {D : Type} {w : World D} {i k : Nat} {v : unique_ptr D}
    (h : w.find i = some v) (hl : v.m_data.deleter i = .of_object k) :
    unique_ptr.get_deleter w i = w.dels[k]? := by
  rw [get_deleter_eq_read h, hl]
  rfl

theorem get_deleter_write_object {D : Type} {w : World D} {i k : Nat} {v : unique_ptr D}
    (h : w.find i = some v) (hl : v.m_data.deleter i = .of_object k)
    (hk : k < w.dels.length) (e : D) :
    unique_ptr.get_deleter (w.write (.of_object k) e) i = some e := by
  have hf : (w.write (.of_object k) e).find i = some v := h
  rw [get_deleter_of_object hf hl]
  simp [World.write, hk]

theorem alloc_member_spec {S : Type} (w : World S) (p : pointer) (d : S) (t : Bool)
    (f : Option (Nat × World S))
    (hf : f = some (w.alloc { m_data := { m_p := p, d := .member d },
                              is_default_deleter_t := t })) :
    ∃ r, f = some r ∧ unique_ptr.get r.2 r.1 = some p ∧
      unique_ptr.get_deleter r.2 r.1 = some d ∧ r.2.log = w.log ∧ r.2.heap = w.heap :=
  ⟨_, hf, get_alloc_new w _, get_deleter_alloc_new_member w _ d rfl, rfl, rfl⟩

theorem array_operator_bool_eq {S : Type} (w : World S) (i : Nat) :
    unique_ptr_array.operator_bool w i = unique_ptr.operator_bool w i := rfl

theorem get_deleter_member_write_object {D : Type} {w : World D} {i : Nat}
    {v : unique_ptr D} {d : D} (h : w.find i = some v) (hd : v.m_data.d = .member d)
    (k : Nat) (e : D) :
    unique_ptr.get_deleter (w.write (.of_object k) e) i = some d := by
  have hf : (w.write (.of_object k) e).find i = some v := h
  rw [get_deleter_eq_read hf]
  simp only [unique_ptr_data.deleter, hd, World.read, hf]

theorem alloc_member_independent {S : Type} (w : World S) (p : pointer) (d : S) (t : Bool)
    (f : Option (Nat × World S))
    (hf : f = some (w.alloc { m_data := { m_p := p, d := .member d },
                              is_default_deleter_t := t })) :
    ∃ r, f = some r ∧ unique_ptr.get r.2 r.1 = some p ∧
      unique_ptr.get_deleter r.2 r.1 = some d ∧ r.2.dels = w.dels ∧ r.2.log = w.log ∧
      ∀ k e, unique_ptr.get_deleter (r.2.write (.of_object k) e) r.1 = some d :=
  ⟨_, hf, get_alloc_new w _, get_deleter_alloc_new_member w _ d rfl, rfl, rfl,
    fun k e => get_deleter_member_write_object (find_alloc_new w _) rfl k e⟩

theorem alloc_reference_spec {S : Type} (w : World S) (p : pointer) (k : Nat) (t : Bool)
    (d : S) (hk : w.dels[k]? = some d) (f : Option (Nat × World S))
    (hf : f = some (w.alloc { m_data := { m_p := p, d := .reference k },
                              is_default_deleter_t := t })) :
    ∃ r u, f = some r ∧ unique_ptr.get r.2 r.1 = some p ∧ r.2.find r.1 = some u ∧
      u.m_data.deleter r.1 = .of_object k ∧ unique_ptr.get_deleter r.2 r.1 = some d ∧
      r.2.log = w.log ∧
      ∀ e, unique_ptr.get_deleter (r.2.write (.of_object k) e) r.1 = some e := by
  have hlt : k < w.dels.length := by
    by_contra hc
    rw [List.getElem?_eq_none (Nat.le_of_not_lt hc)] at hk
    cases hk
  have hfn := find_alloc_new w ({ m_data := { m_p := p, d := .reference k },
                                  is_default_deleter_t := t } : unique_ptr S)
  have hl : ({ m_data := { m_p := p, d := .reference k },
               is_default_deleter_t := t } : unique_ptr S).m_data.deleter
      (w.alloc ({ m_data := { m_p := p, d := .reference k },
                  is_default_deleter_t := t } : unique_ptr S)).1 = .of_object k := rfl
  refine ⟨_, _, hf, get_alloc_new w _, hfn, hl, ?_, rfl, fun e => ?_⟩
  · rw [get_deleter_of_object hfn hl]
    exact hk
  · exact get_deleter_write_object hfn hl hlt e

theorem raw_pointer_ops_consistent : raw_pointer_ops.consistent := by
  intro a b
  simp only [raw_pointer_ops]
  refine ⟨?_, ?_, ?_, ?_⟩
  · by_cases h : a = b <;> simp [h]
  · trivial
  · by_cases h : b < a <;> simp [h, Nat.not_le.2, Nat.le_of_not_lt]
  · by_cases h : a < b <;> simp [h, Nat.not_le.2, Nat.le_of_not_lt]

theorem pointer_type_nested (cc : compiler) (T D P : cpp_type)
    (h : cc.nested_pointer (remove_reference D) = some P) (hP : is_reference P = false) :
    pointer_type cc T D = some P := by
  simp [pointer_type, has_pointer_type, h, hP, pointer_type_imp]

theorem pointer_type_plain (cc : compiler) (T D : cpp_type)
    (h : cc.nested_pointer (remove_reference D) = none) :
    pointer_type cc T D = some (.pointer (remove_extent T) cv_qualifiers.none) := by
  simp [pointer_type, has_pointer_type, h, pointer_type_imp]

theorem unique_ptr_pointer_primary (cc : compiler) (T D : cpp_type)
    (hT : ∀ X, T ≠ .array_unknown_bound X) :
    unique_ptr_pointer cc T D = pointer_type cc T D := by
  cases T <;> first | rfl | exact absurd rfl (hT _)

theorem enable_if_c_isSome (B : Bool) (T : cpp_type) :
    (enable_if_c B T).isSome = B := by
  cases B <;> rfl

theorem unique_moveconvert_assignable_iff (cc : compiler) (T D U E : cpp_type)
    (hT : ∀ X, T ≠ .array_unknown_bound X) :
    unique_moveconvert_assignable cc T D U E = true ↔
      is_array U = false ∧
      ∃ P Q, unique_ptr_pointer cc U E = some P ∧ unique_ptr_pointer cc T D = some Q ∧
        is_convertible cc P Q = true := by
  rw [unique_ptr_pointer_primary cc T D hT]
  by_cases ha : is_array U = true
  · simp [unique_moveconvert_assignable, ha]
  · have ha2 : is_array U = false := by simpa using ha
    have hU : ∀ X, U ≠ .array_unknown_bound X := by
      intro X hX
      rw [hX] at ha2
      simp [is_array] at ha2
    rw [unique_ptr_pointer_primary cc U E hU]
    simp only [unique_moveconvert_assignable, ha2, is_ptr_convertible, Bool.not_false,
      Bool.and_true, true_and]
    cases h1 : pointer_type cc U E <;> cases h2 : pointer_type cc T D <;> simp

theorem remove_reference_of_not_reference (P : cpp_type) (h : is_reference P = false) :
    remove_reference P = P := by
  cases P <;> simp_all [is_reference, remove_reference]

theorem pointer_type_not_reference (cc : compiler) (T D P : cpp_type)
    (h : pointer_type cc T D = some P) : remove_reference P = P := by
  unfold pointer_type has_pointer_type at h
  cases hn : cc.nested_pointer (remove_reference D) with
  | none =>
    simp only [hn, pointer_type_imp, Option.some.injEq] at h
    rw [← h]
    rfl
  | some P1 =>
    cases hr : is_reference P1 with
    | false =>
      simp only [hn, hr, Bool.not_false, pointer_type_imp, Option.some.injEq] at h
      rw [← h]
      exact remove_reference_of_not_reference P1 hr
    | true =>
      simp only [hn, hr, Bool.not_true, pointer_type_imp, Option.some.injEq] at h
      rw [← h]
      rfl

theorem unique_ptr_pointer_of_flat (cc : compiler) (U E : cpp_type)
    (hU : ∀ V, U = .array_unknown_bound V → is_array V = false) :
    unique_ptr_pointer cc U E = pointer_type cc U E := by
  cases U with
  | array_unknown_bound V =>
    have hV := hU V rfl
    simp only [unique_ptr_pointer, pointer_type]
    cases has_pointer_type cc (remove_reference E) with
    | true => rfl
    | false =>
      simp only [pointer_type_imp]
      cases V <;> simp_all [is_array, remove_extent]
  | _ => rfl

theorem same_cvelement_and_convertible_iff (cc : compiler) (P Q : cpp_type)
    (hP : remove_reference P = P) (hQ : remove_reference Q = Q) :
    is_same_cvelement_and_convertible cc P Q = true ↔
      get_cvelement cc P = get_cvelement cc Q ∧ is_convertible cc P Q = true := by
  simp [is_same_cvelement_and_convertible, hP, hQ, is_same]

theorem uniquearray_moveconvert_assignable_iff (cc : compiler) (T D U E : cpp_type)
    (hU : ∀ V, U = .array_unknown_bound V → is_array V = false) :
    uniquearray_moveconvert_assignable cc T D U E = true ↔
      is_array U = true ∧
      ∃ P Q, unique_ptr_pointer cc U E = some P ∧
        unique_ptr_pointer cc (.array_unknown_bound T) D = some Q ∧
        get_cvelement cc P = get_cvelement cc Q ∧ is_convertible cc P Q = true := by
  rw [unique_ptr_pointer_of_flat cc U E hU]
  have e : unique_ptr_pointer cc (.array_unknown_bound T) D = pointer_type cc T D := rfl
  rw [e]
  unfold uniquearray_moveconvert_assignable
  cases h1 : pointer_type cc U E with
  | none => simp
  | some P =>
    cases h2 : pointer_type cc T D with
    | none => simp
    | some Q =>
      simp only [Bool.and_eq_true, Option.some.injEq, exists_and_left, exists_eq_left']
      rw [same_cvelement_and_convertible_iff cc P Q (pointer_type_not_reference cc U E P h1)
        (pointer_type_not_reference cc T D Q h2)]
      constructor
      · rintro ⟨⟨a, b⟩, c⟩
        exact ⟨c, a, b⟩
      · rintro ⟨c, a, b⟩
        exact ⟨⟨a, b⟩, c⟩

theorem get_cvelement_pointer (cc : compiler) (X : cpp_type) :
    get_cvelement cc (.pointer X cv_qualifiers.none) = remove_cv X := rfl

theorem enable_if_c_false (T : cpp_type) : enable_if_c false T = none := rfl

theorem enable_default_delete_single (cc : compiler) (U T ty : cpp_type)
    (hT : is_array T = false) :
    (enable_default_delete cc U T ty).isSome = true ↔
      is_array U = false ∧
      is_convertible cc (.pointer U cv_qualifiers.none) (.pointer T cv_qualifiers.none)
        = true := by
  have hre : remove_extent T = T := by
    cases T <;> simp_all [is_array, remove_extent]
  rw [enable_default_delete, enable_if_c_isSome, hT]
  cases hU : is_array U with
  | true => simp [is_unique_acceptable]
  | false =>
    have hru : remove_extent U = U := by
      cases U <;> simp_all [is_array, remove_extent]
    simp [is_unique_acceptable, element_pointer, hre, hru]

theorem enable_default_delete_array (cc : compiler) (U T ty : cpp_type) :
    (enable_default_delete cc U (.array_unknown_bound T) ty).isSome = true ↔
      is_array U = true ∧ remove_cv (remove_extent U) = remove_cv T ∧
      is_convertible cc (element_pointer U) (.pointer T cv_qualifiers.none) = true := by
  rw [enable_default_delete, enable_if_c_isSome]
  simp [is_unique_acceptable, is_array, element_pointer, remove_extent,
    is_same_cvelement_and_convertible, remove_reference, get_cvelement_pointer, is_same]

theorem le_foldr_max (l : List Nat) (a : Nat) (h : a ∈ l) : a ≤ l.foldr max 0 := by
  induction l with
  | nil => cases h
  | cons b t ih =>
    simp only [List.foldr_cons]
    rcases List.mem_cons.1 h with h1 | h1
    · rw [h1]
      exact Nat.le_max_left _ _
    · exact Nat.le_trans (ih h1) (Nat.le_max_right _ _)

theorem fresh_address_spec (h : Heap) :
    fresh_address h ≠ 0 ∧ fresh_address h ∉ h.map Prod.fst := by
  refine ⟨Nat.succ_ne_zero _, fun hm => ?_⟩
  have := le_foldr_max _ _ hm
  simp only [fresh_address] at this
  omega

theorem objects_at_cons {V : Type} (m : Objects V) (p : pointer) (es : List V) :
    objects_at ((p, es) :: m) p = some es := by
  simp [objects_at]

theorem default_delete_is_default_deleter (T : cpp_type) :
    is_default_deleter_t T (default_delete_type T) = true := by
  simp [is_default_deleter_t, is_same]

theorem live_count_append (h : Heap) (p : pointer) (n : Nat) :
    live_count (h ++ [(p, n)]) = live_count h + n := by
  simp [live_count]

theorem unique_ptr_if_not_array (T : cpp_type) (hT : is_array T = false) :
    unique_ptr_if T = { t_is_not_array := some (unique_ptr_type T),
                        t_is_array_of_unknown_bound := none,
                        t_is_array_of_known_bound := none } := by
  cases T <;> simp_all [is_array, unique_ptr_if]

theorem make_unique_eq {Args V : Type} (T : cpp_type) (operator_new : Heap → pointer)
    (T_ctor : Args → V) (args : Args) (w : World Unit) (m : Objects V)
    (hT : is_array T = false) :
    make_unique T operator_new T_ctor args w m =
      some (w.objs.length,
        { objs := w.objs ++ [some { m_data := { m_p := operator_new w.heap, d := .member () },
                                    is_default_deleter_t := true }],
          dels := w.dels, heap := w.heap ++ [(operator_new w.heap, 1)], log := w.log },
        (operator_new w.heap, [T_ctor args]) :: m) := by
  simp [make_unique, unique_ptr_if_not_array T hT, new_object, unique_ptr.ctor_pointer,
    default_delete_type, is_pointer, is_reference, World.alloc, movelib.is_default_deleter_t,
    is_same, default_delete]

theorem make_unique_array_eq {V : Type} (cc : compiler) (X : cpp_type)
    (operator_new : Heap → pointer) (U_value : V) (n : Nat) (w : World Unit)
    (m : Objects V) (hX : is_array X = false)
    (hD : cc.nested_pointer
      (remove_reference (default_delete_type (.array_unknown_bound X))) = none)
    (hid : is_convertible cc (.pointer X cv_qualifiers.none)
      (.pointer X cv_qualifiers.none) = true) :
    make_unique_array cc (.array_unknown_bound X) operator_new U_value n w m =
      some (w.objs.length,
        { objs := w.objs ++ [some { m_data := { m_p := operator_new w.heap, d := .member () },
                                    is_default_deleter_t := true }],
          dels := w.dels, heap := w.heap ++ [(operator_new w.heap, n)], log := w.log },
        (operator_new w.heap, List.replicate n U_value) :: m) := by
  have hre : remove_extent X = X := by
    cases X <;> simp_all [is_array, remove_extent]
  have hg : enable_same_cvelement_and_convertible cc (.pointer X cv_qualifiers.none)
      (.pointer X cv_qualifiers.none) nat = some nat := by
    simp [enable_same_cvelement_and_convertible, is_same_cvelement_and_convertible,
      remove_reference, is_same, hid, enable_if_c]
  have hpt : pointer_type cc X (default_delete_type (.array_unknown_bound X)) =
      some (.pointer X cv_qualifiers.none) := by
    rw [pointer_type_plain cc X _ hD, hre]
  have hc : unique_ptr_array.ctor_pointer default_delete X
      (default_delete_type (.array_unknown_bound X))
      { w with heap := w.heap ++ [(operator_new w.heap, n)] } (operator_new w.heap) =
      some (w.objs.length,
        { objs := w.objs ++ [some { m_data := { m_p := operator_new w.heap, d := .member () },
                                    is_default_deleter_t := true }],
          dels := w.dels, heap := w.heap ++ [(operator_new w.heap, n)], log := w.log }) := by
    simp [unique_ptr_array.ctor_pointer, default_delete_type, is_pointer, is_reference,
      World.alloc, array_is_default_deleter_t, is_same, default_delete]
  simp only [make_unique_array, unique_ptr_if, new_array, remove_extent,
    unique_ptr_array.ctor_pointer_template, hpt, hg, hc]

theorem getElem?_replicate_of_lt {V : Type} (n j : Nat) (v : V) (h : j < n) :
    (List.replicate n v)[j]? = some v := by
  rw [List.getElem?_eq_getElem (by simpa using h)]
  simp

theorem move_assign_reference_spec {D : Type} (ops : deleter_ops D) (w : World D)
    (t s kt ks : Nat) (ut us : unique_ptr D) (dt ds : D) (hne : t ≠ s)
    (ht : w.find t = some ut) (hs : w.find s = some us)
    (hkt : ut.m_data.d = .reference kt) (hks : us.m_data.d = .reference ks)
    (hk : kt ≠ ks) (hdt : w.dels[kt]? = some dt) (hds : w.dels[ks]? = some ds) :
    ∃ w1 ut1 us1 a, unique_ptr.move_assign ops w t s = some w1 ∧
      w1.find t = some ut1 ∧ w1.find s = some us1 ∧
      ut1.m_data.d = .reference kt ∧ us1.m_data.d = .reference ks ∧
      ut1.m_data.m_p = us.m_data.m_p ∧ us1.m_data.m_p = 0 ∧
      w1.dels[ks]? = some ds ∧ w1.dels[kt]? = some (ops.copy_assign a ds) ∧
      ((ut.is_default_deleter_t = true ∨ ut.m_data.m_p ≠ 0) →
        a = ops.call dt ut.m_data.m_p ((w.view.set s (some 0)).set t (some us.m_data.m_p))) ∧
      ((ut.is_default_deleter_t = false ∧ ut.m_data.m_p = 0) → a = dt) := by
  have hlt : ut.m_data.deleter t = .of_object kt := by simp [unique_ptr_data.deleter, hkt]
  have hls : us.m_data.deleter s = .of_object ks := by simp [unique_ptr_data.deleter, hks]
  have hgt : unique_ptr.get_deleter w t = some dt := by
    rw [get_deleter_of_object ht hlt]; exact hdt
  have hgs : unique_ptr.get_deleter w s = some ds := by
    rw [get_deleter_of_object hs hls]; exact hds
  have heq := (move_assign_spec ops w t s ut us dt ds hne ht hs hgt hgs).1
  rw [release_eq hs] at heq
  simp only [Option.some_bind] at heq
  -- the state after `u.release()`
  have ht0 : (w.store s { us with m_data := { us.m_data with m_p := 0 } }).find t = some ut := by
    rw [find_store_ne _ _ _ _ (Ne.symm hne)]; exact ht
  have hgt0 : unique_ptr.get_deleter
      (w.store s { us with m_data := { us.m_data with m_p := 0 } }) t = some dt := by
    rw [get_deleter_of_object ht0 hlt]; exact hdt
  obtain ⟨w2, hreset, hview2, hshape2, hframe2, hcall2, hskip2⟩ :=
    reset_spec ops _ t us.m_data.m_p ut dt ht0 hgt0
  rw [hreset] at heq
  simp only [Option.some_bind, hlt, hls, hks, deleter_storage.is_reference] at heq
  -- the deleter objects after `reset`
  have hs2 : w2.read (.of_object ks) = some ds := by
    rw [hframe2 (.of_object ks) (by rw [hlt]; simp; exact Ne.symm hk)]
    exact hds
  obtain ⟨a, ha⟩ : ∃ a, w2.read (.of_object kt) = some a :=
    read_of_shape hshape2 (l := .of_object kt) (d := dt) hdt
  have hasg : assign_deleter ops w2 (.of_object kt) (.of_object ks) true =
      some (w2.write (.of_object kt) (ops.copy_assign a ds)) := by
    simp [assign_deleter, ha, hs2, hk]
  rw [hasg] at heq
  -- the containers after `reset`
  have hs0 : (w.store s { us with m_data := { us.m_data with m_p := 0 } }).find s =
      some { us with m_data := { us.m_data with m_p := 0 } } :=
    find_store_same _ _ _ (find_lt hs)
  have hv2t : w2.view[t]? = some (some us.m_data.m_p) := by
    rw [hview2]
    have hl : t < (w.store s { us with m_data := { us.m_data with m_p := 0 } }).view.length := by
      simp [World.view, World.store, find_lt ht]
    have hl2 : t < w.view.length := by simp [World.view, find_lt ht]
    rw [List.getElem?_set, if_pos rfl]
    simp [hl, hl2]
  have hv2s : w2.view[s]? = some (some 0) := by
    rw [hview2, List.getElem?_set_ne hne]
    exact view_getElem_of_find hs0
  obtain ⟨ut2, hut2, hkut2⟩ := find_of_shape hshape2 ht0
  obtain ⟨us2, hus2, hkus2⟩ := find_of_shape hshape2 hs0
  have hpt : ut2.m_data.m_p = us.m_data.m_p := by
    have := view_getElem_of_find hut2
    rw [hv2t] at this
    simpa using this.symm
  have hps : us2.m_data.m_p = 0 := by
    have := view_getElem_of_find hus2
    rw [hv2s] at this
    simpa using this.symm
  have hdt2 : ut2.m_data.d = .reference kt := by
    have := hkut2
    simp only [unique_ptr.kind, hkt, Prod.mk.injEq] at this
    cases hd : ut2.m_data.d with
    | member e => simp [hd] at this
    | reference k => simp [hd] at this; rw [this.2]
  have hds2 : us2.m_data.d = .reference ks := by
    have := hkus2
    simp only [unique_ptr.kind, hks, Prod.mk.injEq] at this
    cases hd : us2.m_data.d with
    | member e => simp [hd] at this
    | reference k => simp [hd] at this; rw [this.2]
  have hlen : kt < w2.dels.length := by
    by_contra hc
    have : w2.read (.of_object kt) = none := by
      simp [World.read, List.getElem?_eq_none (Nat.le_of_not_lt hc)]
    rw [this] at ha
    cases ha
  refine ⟨_, ut2, us2, a, heq, hut2, hus2, hdt2, hds2, hpt, hps, ?_, ?_, ?_, ?_⟩
  · have : (w2.write (.of_object kt) (ops.copy_assign a ds)).dels[ks]? = w2.dels[ks]? := by
      simp [World.write, List.getElem?_set_ne hk]
    rw [this]
    exact hs2
  · simp [World.write, hlen]
  · intro hc
    have h3 := (hcall2 hc).2.2
    rw [hlt, ha] at h3
    have hv : (w.store s { us with m_data := { us.m_data with m_p := 0 } }).view =
        w.view.set s (some 0) := by
      simp [World.view, World.store, List.map_set]
    rw [hv] at h3
    exact Option.some.inj h3
  · intro hc
    have hw := hskip2 hc
    rw [hw] at ha
    have : (w.store s { us with m_data := { us.m_data with m_p := 0 } }).read
        (.of_object kt) = some dt := hdt
    have h4 : ((w.store s { us with m_data := { us.m_data with m_p := 0 } }).store t
        { ut with m_data := { ut.m_data with m_p := us.m_data.m_p } }).read (.of_object kt) =
        some dt := hdt
    rw [h4] at ha
    exact (Option.some.inj ha).symm

theorem unique_ptr_data_variants_agree {S : Type} (ops : deleter_ops S) (p : pointer)
    (d : S) :
    ((unique_ptr_data_member.ctor ops).m_p = 0 ∧ (unique_ptr_data_base.ctor ops).m_p = 0 ∧
      (unique_ptr_data_member.ctor ops).deleter = ops.ctor ∧
      (unique_ptr_data_base.ctor ops).deleter = ops.ctor) ∧
    ((unique_ptr_data_member.ctor_pointer ops p).m_p = p ∧
      (unique_ptr_data_base.ctor_pointer ops p).m_p = p ∧
      (unique_ptr_data_member.ctor_pointer ops p).deleter = ops.ctor ∧
      (unique_ptr_data_base.ctor_pointer ops p).deleter = ops.ctor) ∧
    ((unique_ptr_data_member.ctor_deleter1 ops p d).m_p = p ∧
      (unique_ptr_data_base.ctor_deleter1 ops p d).m_p = p ∧
      (unique_ptr_data_member.ctor_deleter1 ops p d).deleter = ops.copy_ctor d ∧
      (unique_ptr_data_base.ctor_deleter1 ops p d).deleter = ops.copy_ctor d) ∧
    ((unique_ptr_data_member.ctor_deleter2 ops p d).1.m_p = p ∧
      (unique_ptr_data_base.ctor_deleter2 ops p d).1.m_p = p ∧
      (unique_ptr_data_member.ctor_deleter2 ops p d).1.deleter = (ops.move_ctor d).1 ∧
      (unique_ptr_data_base.ctor_deleter2 ops p d).1.deleter = (ops.move_ctor d).1 ∧
      (unique_ptr_data_member.ctor_deleter2 ops p d).2 =
        (unique_ptr_data_base.ctor_deleter2 ops p d).2) :=
  ⟨⟨rfl, rfl, rfl, rfl⟩, ⟨rfl, rfl, rfl, rfl⟩, ⟨rfl, rfl, rfl, rfl⟩, ⟨rfl, rfl, rfl, rfl, rfl⟩⟩

theorem unique_ptr_data_forward_spec {S E : Type} (forward_U : pointer → Option pointer)
    (convert : E → S × E) (p : pointer) (e : E) :
    (∃ r, unique_ptr_data_base.ctor_forward convert p e = some r ∧ r.1.m_p = p ∧
      r.1.deleter = (convert e).1 ∧ r.2 = (convert e).2) ∧
    (forward_U p = none → unique_ptr_data_member.ctor_forward forward_U convert p e = none) ∧
    (∀ q, forward_U p = some q →
      ∃ r, unique_ptr_data_member.ctor_forward forward_U convert p e = some r ∧
        r.1.m_p = q ∧ r.1.deleter = (convert e).1 ∧ r.2 = (convert e).2) := by
  refine ⟨⟨_, rfl, rfl, rfl, rfl⟩, fun h => ?_, fun q h => ?_⟩
  · simp [unique_ptr_data_member.ctor_forward, h]
  · have e1 : unique_ptr_data_member.ctor_forward forward_U convert p e =
        some ({ m_p := q, d := (convert e).1 }, (convert e).2) := by
      simp [unique_ptr_data_member.ctor_forward, h]
    exact ⟨_, e1, rfl, rfl, rfl⟩

theorem unique_compare_test_eq {D : Type} (w : World D) (rpl rpg : Nat) (l g : pointer)
    (hl : unique_ptr.get w rpl = some l) (hg : unique_ptr.get w rpg = some g)
    (hlg : l < g) :
    unique_compare_test raw_pointer_ops w rpl rpg =
      some [true, false, true, true, true, false, true, false, true, true, true, true, true,
        false] ∧
    unique_compare_test raw_pointer_ops w rpg rpl =
      some [true, false, true, true, true, false, true, false, true, true, true, true, true,
        false] := by
  have h1 : ¬ g < l := Nat.lt_asymm hlg
  have h2 : ¬ l = g := Nat.ne_of_lt hlg
  have h3 : ¬ g = l := fun e => Nat.ne_of_lt hlg e.symm
  have h4 : l ≤ g := Nat.le_of_lt hlg
  have h5 : ¬ g ≤ l := Nat.not_le_of_lt hlg
  constructor
  · simp [unique_compare_test, operator_lt, operator_eq, operator_ne, operator_le,
      operator_gt, operator_ge, hl, hg, raw_pointer_ops, all_values, hlg, h1, h2, h3, h4, h5]
  · simp [unique_compare_test, operator_lt, operator_eq, operator_ne, operator_le,
      operator_gt, operator_ge, hl, hg, raw_pointer_ops, all_values, hlg, h1, h2, h3, h4, h5]

theorem self_move_assign_spec {D : Type} (ops : deleter_ops D) (w : World D) (x : Nat)
    (u : unique_ptr D) (d : D) (h : w.find x = some u)
    (hd : unique_ptr.get_deleter w x = some d) :
    ∃ w1, unique_ptr.move_assign ops w x x = some w1 ∧
      unique_ptr.get w1 x = some u.m_data.m_p ∧
      w1.log = w.log ++
        (if u.is_default_deleter_t = true then [⟨u.m_data.deleter x, 0, w.view⟩] else []) ∧
      w1.heap = (if u.is_default_deleter_t = true then ops.dispose d 0 w.heap else w.heap) := by
  have hlt := find_lt h
  have hrel := release_eq h
  have h0 : (w.store x { u with m_data := { u.m_data with m_p := 0 } }).find x =
      some { u with m_data := { u.m_data with m_p := 0 } } := find_store_same _ _ _ hlt
  have hd0 : unique_ptr.get_deleter
      (w.store x { u with m_data := { u.m_data with m_p := 0 } }) x = some d := by
    rw [get_deleter_store_m_p h 0]; exact hd
  obtain ⟨w2, hreset, hview2, hshape2, _, hcall, hskip⟩ :=
    reset_spec ops _ x u.m_data.m_p _ d h0 hd0
  obtain ⟨w2b, hresetb, hget2, hlog2, hheap2, _⟩ :=
    reset_events ops _ x u.m_data.m_p _ d h0 hd0
  have hw : w2b = w2 := Option.some.inj (hresetb.symm.trans hreset)
  subst hw
  obtain ⟨dst, hdst, hkd⟩ := find_of_shape hshape2 h0
  have hdl : dst.m_data.deleter x = u.m_data.deleter x := (deleter_of_kind hkd x).1
  have hread : ∃ a, w2b.read (dst.m_data.deleter x) = some a := by
    rw [hdl]
    cases htag : u.is_default_deleter_t with
    | false =>
      have e := hskip ⟨htag, rfl⟩
      rw [e, read_store_m_p h0]
      rw [get_deleter_eq_read h0] at hd0
      exact ⟨d, hd0⟩
    | true => exact ⟨_, (hcall (Or.inl htag)).2.2⟩
  obtain ⟨a, ha⟩ := hread
  obtain ⟨w3, hasg, hview3, hlog3, hheap3, _⟩ :=
    assign_deleter_spec ops w2b _ _ dst.m_data.d.is_reference a a ha ha
  have hvw : (w.view.set x (some 0)).set x (some u.m_data.m_p) = w.view := by
    rw [List.set_set]
    have hv := view_getElem_of_find h
    have hl : x < w.view.length := by simpa [World.view] using hlt
    apply List.ext_getElem?
    intro n
    by_cases hn : x = n
    · subst hn
      rw [List.getElem?_set, if_pos rfl, hv]
      simp [hl]
    · rw [List.getElem?_set_ne hn]
  refine ⟨w3, ?_, ?_, ?_, ?_⟩
  · simp only [unique_ptr.move_assign, hrel, hreset, hdst]
    exact hasg
  · rw [view_get, hview3, ← view_get]; exact hget2
  · rw [hlog3, hlog2]
    have hv0 : (w.store x { u with m_data := { u.m_data with m_p := 0 } }).view =
        w.view.set x (some 0) := by simp
    rw [hv0, hvw]
    cases htag : u.is_default_deleter_t <;> simp [htag]
    rfl
  · rw [hheap3, hheap2]
    cases htag : u.is_default_deleter_t <;> simp [htag]

theorem view_set_self {D : Type} {w : World D} {x : Nat} {u : unique_ptr D}
    (h : w.find x = some u) : w.view.set x (some u.m_data.m_p) = w.view := by
  have hv := view_getElem_of_find h
  have hl : x < w.view.length := by simpa [World.view] using find_lt h
  apply List.ext_getElem?
  intro n
  by_cases hn : x = n
  · subst hn
    rw [List.getElem?_set, if_pos rfl, hv]
    simp [hl]
  · rw [List.getElem?_set_ne hn]

theorem cpp_delete_removes (p : pointer) (hp : Heap) (h0 : p ≠ 0) :
    ∀ a, a ∈ cpp_delete p hp → a.1 ≠ p := by
  intro a ha
  simp [cpp_delete, h0] at ha
  exact ha.2

theorem is_default_deleter_t_iff (T D : cpp_type) :
    is_default_deleter_t T D = true ↔ D = default_delete_type T := by
  simp [is_default_deleter_t, is_same]

theorem array_is_default_deleter_t_iff (T D : cpp_type) :
    array_is_default_deleter_t T D = true ↔
      D = default_delete_type (.array_unknown_bound T) := by
  simp [array_is_default_deleter_t, is_same]

theorem call_deleter_of_tag {S : Type} (ops : deleter_ops S) (w : World S)
    (l : deleter_lvalue) (p : pointer) (tag : Bool) :
    (tag = true → unique_ptr_call_deleter ops w l p tag = invoke ops w l p) ∧
    (tag = false → unique_ptr_call_deleter ops w l 0 tag = some w ∧
      (p ≠ 0 → unique_ptr_call_deleter ops w l p tag = invoke ops w l p)) := by
  constructor
  · intro h; subst h; rfl
  · intro h; subst h
    exact ⟨by simp [unique_ptr_call_deleter], fun hp => by simp [unique_ptr_call_deleter, hp]⟩

theorem world_ext_of_reads {D : Type} {w1 w2 : World D} (hv : w1.view = w2.view)
    (hs : w1.shape = w2.shape) (hr : ∀ l, w1.read l = w2.read l) (hl : w1.log = w2.log)
    (hh : w1.heap = w2.heap) : w1 = w2 := by
  have hdels : w1.dels = w2.dels := by
    apply List.ext_getElem?
    intro k
    exact hr (.of_object k)
  have hobjs : w1.objs = w2.objs := by
    apply List.ext_getElem?
    intro j
    have h1 : (w1.view)[j]? = (w2.view)[j]? := by rw [hv]
    have h2 : (w1.objs.map (Option.map unique_ptr.kind))[j]? =
        (w2.objs.map (Option.map unique_ptr.kind))[j]? := by
      have := congrArg Prod.fst hs
      simp only [World.shape] at this
      rw [this]
    have h3 := hr (.of_member j)
    simp only [World.view, List.getElem?_map] at h1 h2
    simp only [World.read, World.find] at h3
    cases e1 : w1.objs[j]? with
    | none =>
      cases e2 : w2.objs[j]? with
      | none => rfl
      | some o2 => rw [e1, e2] at h1; simp at h1
    | some o1 =>
      cases e2 : w2.objs[j]? with
      | none => rw [e1, e2] at h1; simp at h1
      | some o2 =>
        rw [e1, e2] at h1 h2 h3
        cases o1 with
        | none =>
          cases o2 with
          | none => rfl
          | some u2 => simp at h1
        | some u1 =>
          cases o2 with
          | none => simp at h1
          | some u2 =>
            obtain ⟨⟨p1, d1⟩, t1⟩ := u1
            obtain ⟨⟨p2, d2⟩, t2⟩ := u2
            simp [unique_ptr.kind] at h1 h2 h3
            cases d1 <;> cases d2 <;> simp_all
  cases w1
  cases w2
  simp_all
theorem swap_full {D : Type} (ops : deleter_ops D) (w : World D) (x y : Nat)
    (a b : unique_ptr D) (da db : D)
    (hx : w.find x = some a) (hy : w.find y = some b)
    (hda : unique_ptr.get_deleter w x = some da)
    (hdb : unique_ptr.get_deleter w y = some db)
    (hsw : ∀ p q, ops.swap p q = (q, p)) (hself : ∀ p, ops.swap_self p = p) :
    ∃ w1, unique_ptr.swap ops w x y = some w1 ∧
      w1.view = (w.view.set x (some b.m_data.m_p)).set y (some a.m_data.m_p) ∧
      w1.shape = w.shape ∧ w1.log = w.log ∧ w1.heap = w.heap ∧
      (∀ l, w1.read l =
        if l = a.m_data.deleter x then some db
        else if l = b.m_data.deleter y then some da else w.read l) := by
  have hlx := find_lt hx
  have hly := find_lt hy
  rw [get_deleter_eq_read hx] at hda
  rw [get_deleter_eq_read hy] at hdb
  have hs1 : (w.store x { a with m_data := { a.m_data with m_p := b.m_data.m_p } }).shape =
      w.shape := shape_store hx (kind_with_m_p a _)
  obtain ⟨b1, hb1, hkb1⟩ := find_of_shape hs1 hy
  have hb1d : b1.m_data.d = b.m_data.d := by
    by_cases hxy : x = y
    · subst hxy
      rw [find_store_same _ _ _ hlx] at hb1
      rw [hx] at hy
      have hab : a = b := Option.some.inj hy
      rw [← Option.some.inj hb1, hab]
    · rw [find_store_ne _ _ _ _ hxy, hy] at hb1
      rw [← Option.some.inj hb1]
  generalize hw2 : (w.store x { a with m_data := { a.m_data with m_p := b.m_data.m_p } }).store y
      { b with m_data := { b.m_data with m_p := a.m_data.m_p } } = w2
  have hread2 : ∀ l, w2.read l = w.read l := by
    intro l
    rw [← hw2, read_store_same_d hb1 (by simpa using hb1d.symm), read_store_m_p hx]
  have hs2 : w2.shape = w.shape := by
    rw [← hw2, shape_store hb1 (by rw [kind_with_m_p, hkb1]), hs1]
  have hview2 : w2.view = (w.view.set x (some b.m_data.m_p)).set y (some a.m_data.m_p) := by
    rw [← hw2]; simp
  have hlog2 : w2.log = w.log := by rw [← hw2]; simp
  have hheap2 : w2.heap = w.heap := by rw [← hw2]; simp
  have hra : w2.read (a.m_data.deleter x) = some da := by rw [hread2]; exact hda
  have hrb : w2.read (b.m_data.deleter y) = some db := by rw [hread2]; exact hdb
  have he : unique_ptr.swap ops w x y =
      swap_deleter ops w2 (a.m_data.deleter x) (b.m_data.deleter y) := by
    simp only [unique_ptr.swap, hx, hy, hw2]
  rw [he]
  by_cases hab : a.m_data.deleter x = b.m_data.deleter y
  · have hdd : da = db := by
      rw [hab, hrb] at hra
      exact (Option.some.inj hra).symm
    subst hdd
    refine ⟨w2.write (a.m_data.deleter x) (ops.swap_self da),
      by simp [swap_deleter, hra, ← hab], by simp [hview2],
      by rw [shape_write_of_read _ _ _ _ hra, hs2], by simp [hlog2], by simp [hheap2], ?_⟩
    intro l
    by_cases hl : l = a.m_data.deleter x
    · rw [if_pos hl, hl, hself]
      exact read_write_same _ _ _ _ hra
    · rw [if_neg hl, if_neg (by rw [← hab]; exact hl), read_write_ne _ _ _ _ hl, hread2]
  · have h1 : (w2.write (a.m_data.deleter x) (ops.swap da db).1).read (b.m_data.deleter y) =
        some db := by
      rw [read_write_ne _ _ _ _ (fun h => hab h.symm)]; exact hrb
    refine ⟨(w2.write (a.m_data.deleter x) (ops.swap da db).1).write (b.m_data.deleter y)
        (ops.swap da db).2,
      by simp [swap_deleter, hra, hrb, hab], by simp [hview2], ?_, by simp [hlog2],
      by simp [hheap2], ?_⟩
    · rw [shape_write_of_read _ _ _ _ h1, shape_write_of_read _ _ _ _ hra, hs2]
    · intro l
      by_cases hl : l = a.m_data.deleter x
      · rw [if_pos hl, hl, read_write_ne _ _ _ _ hab, hsw]
        exact read_write_same _ _ _ _ hra
      · rw [if_neg hl]
        by_cases hl2 : l = b.m_data.deleter y
        · rw [if_pos hl2, hl2, read_write_same _ _ _ _ h1, hsw]
        · rw [if_neg hl2, read_write_ne _ _ _ _ hl2, read_write_ne _ _ _ _ hl, hread2]

theorem move_assign_deleters {D : Type} (ops : deleter_ops D) (w : World D) (t s : Nat)
    (ut us : unique_ptr D) (dt ds : D) (hne : t ≠ s)
    (ht : w.find t = some ut) (hs : w.find s = some us)
    (hdt : unique_ptr.get_deleter w t = some dt)
    (hds : unique_ptr.get_deleter w s = some ds) :
    ∃ w1 a, unique_ptr.move_assign ops w t s = some w1 ∧
      ((ut.is_default_deleter_t = true ∨ ut.m_data.m_p ≠ 0) →
        a = ops.call dt ut.m_data.m_p ((w.view.set s (some 0)).set t (some us.m_data.m_p))) ∧
      ((ut.is_default_deleter_t = false ∧ ut.m_data.m_p = 0) → a = dt) ∧
      (ut.m_data.deleter t ≠ us.m_data.deleter s → us.m_data.d.is_reference = false →
        unique_ptr.get_deleter w1 t = some (ops.move_assign a ds).1 ∧
        unique_ptr.get_deleter w1 s = some (ops.move_assign a ds).2) ∧
      (ut.m_data.deleter t ≠ us.m_data.deleter s → us.m_data.d.is_reference = true →
        unique_ptr.get_deleter w1 t = some (ops.copy_assign a ds) ∧
        unique_ptr.get_deleter w1 s = some ds) ∧
      (ut.m_data.deleter t = us.m_data.deleter s →
        unique_ptr.get_deleter w1 t = some (ops.copy_assign_self a) ∧
        unique_ptr.get_deleter w1 s = some (ops.copy_assign_self a)) := by
  obtain ⟨heq, w1, he, _, _, _, hshape, _, _⟩ :=
    move_assign_spec ops w t s ut us dt ds hne ht hs hdt hds
  rw [release_eq hs] at heq
  simp only [Option.some_bind] at heq
  -- the state after `u.release()`
  have ht0 : (w.store s { us with m_data := { us.m_data with m_p := 0 } }).find t = some ut := by
    rw [find_store_ne _ _ _ _ (Ne.symm hne)]; exact ht
  have hrdt := hdt
  have hrds := hds
  rw [get_deleter_eq_read ht] at hrdt
  rw [get_deleter_eq_read hs] at hrds
  have hgt0 : unique_ptr.get_deleter
      (w.store s { us with m_data := { us.m_data with m_p := 0 } }) t = some dt := by
    rw [get_deleter_eq_read ht0, read_store_m_p hs]; exact hrdt
  obtain ⟨w2, hreset, hview2, hshape2, hframe2, hcall2, hskip2⟩ :=
    reset_spec ops _ t us.m_data.m_p ut dt ht0 hgt0
  rw [hreset] at heq
  simp only [Option.some_bind] at heq
  have hv0 : (w.store s { us with m_data := { us.m_data with m_p := 0 } }).view =
      w.view.set s (some 0) := by simp
  -- the deleter of `t` after `reset`
  have hra : ∃ a, w2.read (ut.m_data.deleter t) = some a ∧
      ((ut.is_default_deleter_t = true ∨ ut.m_data.m_p ≠ 0) →
        a = ops.call dt ut.m_data.m_p ((w.view.set s (some 0)).set t (some us.m_data.m_p))) ∧
      ((ut.is_default_deleter_t = false ∧ ut.m_data.m_p = 0) → a = dt) := by
    by_cases hc : ut.is_default_deleter_t = true ∨ ut.m_data.m_p ≠ 0
    · refine ⟨_, (hcall2 hc).2.2, fun _ => by rw [hv0], fun hn => ?_⟩
      rcases hc with hc | hc
      · rw [hn.1] at hc; cases hc
      · exact absurd hn.2 hc
    · have hc2 : ut.is_default_deleter_t = false ∧ ut.m_data.m_p = 0 := by
        cases htag : ut.is_default_deleter_t <;> simp_all
      refine ⟨dt, ?_, fun h => absurd h hc, fun _ => rfl⟩
      rw [hskip2 hc2, read_store_m_p ht0, read_store_m_p hs]
      exact hrdt
  obtain ⟨a, ha, hac, has⟩ := hra
  -- the containers afterwards
  obtain ⟨ut1, hut1, hkt1⟩ := find_of_shape hshape ht
  obtain ⟨us1, hus1, hks1⟩ := find_of_shape hshape hs
  have hlt1 := (deleter_of_kind hkt1 t).1
  have hls1 := (deleter_of_kind hks1 s).1
  refine ⟨w1, a, he, hac, has, ?_, ?_, ?_⟩
  · intro hl href
    have hb : w2.read (us.m_data.deleter s) = some ds := by
      rw [hframe2 _ (fun h => hl h.symm), read_store_m_p hs]; exact hrds
    have hasg : assign_deleter ops w2 (ut.m_data.deleter t) (us.m_data.deleter s)
        us.m_data.d.is_reference =
        some ((w2.write (ut.m_data.deleter t) (ops.move_assign a ds).1).write
          (us.m_data.deleter s) (ops.move_assign a ds).2) := by
      simp [assign_deleter, ha, hb, hl, href]
    rw [hasg, he] at heq
    have hw := Option.some.inj heq
    have hb1 : (w2.write (ut.m_data.deleter t) (ops.move_assign a ds).1).read
        (us.m_data.deleter s) = some ds := by
      rw [read_write_ne _ _ _ _ (fun h => hl h.symm)]; exact hb
    constructor
    · rw [get_deleter_eq_read hut1, hlt1, hw, read_write_ne _ _ _ _ hl]
      exact read_write_same _ _ _ _ ha
    · rw [get_deleter_eq_read hus1, hls1, hw]
      exact read_write_same _ _ _ _ hb1
  · intro hl href
    have hb : w2.read (us.m_data.deleter s) = some ds := by
      rw [hframe2 _ (fun h => hl h.symm), read_store_m_p hs]; exact hrds
    have hasg : assign_deleter ops w2 (ut.m_data.deleter t) (us.m_data.deleter s)
        us.m_data.d.is_reference =
        some (w2.write (ut.m_data.deleter t) (ops.copy_assign a ds)) := by
      simp [assign_deleter, ha, hb, hl, href]
    rw [hasg, he] at heq
    have hw := Option.some.inj heq
    constructor
    · rw [get_deleter_eq_read hut1, hlt1, hw]
      exact read_write_same _ _ _ _ ha
    · rw [get_deleter_eq_read hus1, hls1, hw, read_write_ne _ _ _ _ (fun h => hl h.symm)]
      exact hb
  · intro hl
    have href : us.m_data.d.is_reference = true := by
      cases hdu : us.m_data.d with
      | reference k => rfl
      | member e =>
        cases hdv : ut.m_data.d with
        | member e2 =>
          simp [unique_ptr_data.deleter, hdu, hdv] at hl
          exact absurd hl hne
        | reference k => simp [unique_ptr_data.deleter, hdu, hdv] at hl
    have hasg : assign_deleter ops w2 (ut.m_data.deleter t) (us.m_data.deleter s)
        us.m_data.d.is_reference =
        some (w2.write (ut.m_data.deleter t) (ops.copy_assign_self a)) := by
      rw [← hl]
      simp [assign_deleter, ha, href]
    rw [hasg, he] at heq
    have hw := Option.some.inj heq
    constructor
    · rw [get_deleter_eq_read hut1, hlt1, hw]
      exact read_write_same _ _ _ _ ha
    · rw [get_deleter_eq_read hus1, hls1, hw, ← hl]
      exact read_write_same _ _ _ _ ha

theorem nullptr_comparisons {D : Type} (po : pointer_ops) (w : World D) (x : Nat)
    (a : pointer) (hgt : ∀ p q, po.gt p q = po.lt q p)
    (hx : unique_ptr.get w x = some a) :
    (∃ b, unique_ptr.operator_bool w x = some b ∧
      operator_eq_nullptr w x = some (!b) ∧ nullptr_operator_eq w x = some (!b) ∧
      operator_ne_nullptr w x = some b ∧ nullptr_operator_ne w x = some b) ∧
    operator_lt_nullptr po w x = some (po.lt a 0) ∧
    nullptr_operator_lt po w x = some (po.lt 0 a) ∧
    operator_gt_nullptr po w x = nullptr_operator_lt po w x ∧
    nullptr_operator_gt po w x = operator_lt_nullptr po w x ∧
    (∃ b, nullptr_operator_lt po w x = some b ∧
      operator_le_nullptr po w x = some (!b) ∧ nullptr_operator_ge po w x = some (!b)) ∧
    (∃ b, operator_lt_nullptr po w x = some b ∧
      nullptr_operator_le po w x = some (!b) ∧ operator_ge_nullptr po w x = some (!b)) := by
  have hb : unique_ptr.operator_bool w x =
      some (if a ≠ 0 then true else false) := by
    simp only [unique_ptr.get] at hx
    simp only [unique_ptr.operator_bool]
    cases hf : w.find x with
    | none => simp [hf] at hx
    | some u =>
      simp only [hf, Option.map_some', Option.some.injEq] at hx ⊢
      rw [hx]
  refine ⟨⟨_, hb, ?_, ?_, ?_, ?_⟩, ?_, ?_, ?_, ?_, ⟨po.lt 0 a, ?_, ?_, ?_⟩,
    ⟨po.lt a 0, ?_, ?_, ?_⟩⟩ <;>
  simp [operator_eq_nullptr, nullptr_operator_eq, operator_ne_nullptr, nullptr_operator_ne,
    operator_lt_nullptr, nullptr_operator_lt, operator_gt_nullptr, nullptr_operator_gt,
    operator_le_nullptr, nullptr_operator_le, operator_ge_nullptr, nullptr_operator_ge,
    hb, hx, hgt]

theorem pointer_type_fallback (cc : compiler) (T D : cpp_type)
    (h : cc.nested_pointer (remove_reference D) = none ∨
      ∃ P, cc.nested_pointer (remove_reference D) = some P ∧ is_reference P = true) :
    pointer_type cc T D = some (.pointer (remove_extent T) cv_qualifiers.none) := by
  rcases h with h | ⟨P, h, hP⟩
  · exact pointer_type_plain cc T D h
  · simp [pointer_type, has_pointer_type, h, hP, pointer_type_imp]

theorem uniquearray_moveconvert_assignable_iff_gate (cc : compiler) (T D U E : cpp_type) :
    uniquearray_moveconvert_assignable cc T D U E = true ↔
      is_array U = true ∧
      ∃ P Q, pointer_type cc U E = some P ∧
        unique_ptr_pointer cc (.array_unknown_bound T) D = some Q ∧
        get_cvelement cc P = get_cvelement cc Q ∧ is_convertible cc P Q = true := by
  have e : unique_ptr_pointer cc (.array_unknown_bound T) D = pointer_type cc T D := rfl
  rw [e]
  unfold uniquearray_moveconvert_assignable
  cases h1 : pointer_type cc U E with
  | none => simp
  | some P =>
    cases h2 : pointer_type cc T D with
    | none => simp
    | some Q =>
      simp only [Bool.and_eq_true, Option.some.injEq, exists_and_left, exists_eq_left']
      rw [same_cvelement_and_convertible_iff cc P Q (pointer_type_not_reference cc U E P h1)
        (pointer_type_not_reference cc T D Q h2)]
      constructor
      · rintro ⟨⟨a, b⟩, c⟩
        exact ⟨c, a, b⟩
      · rintro ⟨c, a, b⟩
        exact ⟨⟨a, b⟩, c⟩

theorem enable_default_delete_of_array (cc : compiler) (U T ty : cpp_type)
    (hT : is_array T = true) :
    (enable_default_delete cc U T ty).isSome = true ↔
      is_array U = true ∧ remove_cv (remove_extent U) = remove_cv (remove_extent T) ∧
      is_convertible cc (element_pointer U) (element_pointer T) = true := by
  rw [enable_default_delete, enable_if_c_isSome, hT]
  simp [is_unique_acceptable, element_pointer, is_same_cvelement_and_convertible,
    remove_reference, get_cvelement_pointer, is_same]

theorem in_class_none {α : Type} (fn cls : cpp_type → Bool) (D : cpp_type) :
    unique_ptr.in_class fn cls D (none : Option α) = none := by
  simp [unique_ptr.in_class]

theorem in_class_of_not_instantiable {α : Type} (fn cls : cpp_type → Bool) (D : cpp_type)
    (r : Option α) (h : unique_ptr_data_instantiable fn cls D = false) :
    unique_ptr.in_class fn cls D r = none := by
  simp [unique_ptr.in_class, h]

theorem in_class_isSome {α : Type} (fn cls : cpp_type → Bool) (D : cpp_type)
    (r : Option α) (h : r.isSome = true) :
    (unique_ptr.in_class fn cls D r).isSome = unique_ptr_data_instantiable fn cls D := by
  cases hc : unique_ptr_data_instantiable fn cls D <;> simp [unique_ptr.in_class, hc, h]

theorem qualified_pointer_not_instantiable (fn cls : cpp_type → Bool) (X : cpp_type)
    (cv : cv_qualifiers) (h : cv ≠ cv_qualifiers.none) :
    unique_ptr_data_instantiable fn cls (.pointer X cv) = false := by
  simp [unique_ptr_data_instantiable, is_unary_or_binary_function, is_reference, h,
    base_class_ok]

/-! ## Claims -/

/-- C1: for a container of either form whose stored handle is `p`, `release()` returns
`p`, leaves `get()` null, invokes no deleter (the trace is unchanged, and so is the free
store) and leaves the stored deleter as it was. -/
theorem release_returns_handle_and_clears {D : Type} (w : World D) (i : Nat)
    (u : unique_ptr D) (h : w.find i = some u) :
    (∃ w1, unique_ptr.release w i = some (u.m_data.m_p, w1) ∧
        unique_ptr.get w1 i = some 0 ∧ w1.log = w.log ∧ w1.heap = w.heap ∧
        w1.dels = w.dels ∧
        unique_ptr.get_deleter w1 i = unique_ptr.get_deleter w i) ∧
    (∃ w1, unique_ptr_array.release w i = some (u.m_data.m_p, w1) ∧
        unique_ptr_array.get w1 i = some 0 ∧ w1.log = w.log ∧ w1.heap = w.heap ∧
        w1.dels = w.dels ∧
        unique_ptr_array.get_deleter w1 i = unique_ptr_array.get_deleter w i) := by
  have hlt := find_lt h
  constructor
  · refine ⟨_, release_eq h, ?_, rfl, rfl, rfl, get_deleter_store_m_p h 0⟩
    simp [unique_ptr.get, find_store_same, hlt]
  · refine ⟨_, release_eq h, ?_, rfl, rfl, rfl, get_deleter_store_m_p h 0⟩
    simp [unique_ptr_array.get, find_store_same, hlt]

/-- C1 on the container of `w_single`, which owns `7`. -/
theorem release_returns_handle_and_clears_witness :
    w_single.find 0 = some u_owner ∧
    ∃ w1, unique_ptr.release w_single 0 = some (7, w1) ∧ unique_ptr.get w1 0 = some 0 ∧
      w1.log = [] :=
  ⟨rfl, (release_returns_handle_and_clears w_single 0 u_owner rfl).1.imp
    (fun _ h => ⟨h.1, h.2.1, h.2.2.1⟩)⟩

/-- C2: move construction of `b` from a container `a` holding `p`, by the move constructor
or by a converting move constructor that the gate accepts, of either form, gives a new
object `b` with `b.get() == p` (after the implicit conversion `c.ptr` of the handle, in the
converting case), leaves `a.get()` null, and invokes no deleter (trace and free store are
unchanged). -/
theorem move_ctor_takes_handle {D : Type} (ops : deleter_ops D) (c : conversion D)
    (w : World D) (a : Nat) (u : unique_ptr D) (h : w.find a = some u) :
    (∃ b w1, unique_ptr.move_ctor ops w a = some (b, w1) ∧ b ≠ a ∧
      unique_ptr.get w1 b = some u.m_data.m_p ∧ unique_ptr.get w1 a = some 0 ∧
      w1.log = w.log ∧ w1.heap = w.heap) ∧
    (∃ b w1, unique_ptr_array.move_ctor ops w a = some (b, w1) ∧ b ≠ a ∧
      unique_ptr_array.get w1 b = some u.m_data.m_p ∧ unique_ptr_array.get w1 a = some 0 ∧
      w1.log = w.log ∧ w1.heap = w.heap) ∧
    (c.accepts w u = true →
      ∃ b w1, unique_ptr.move_ctor_convert c w a = some (b, w1) ∧ b ≠ a ∧
        unique_ptr.get w1 b = some (c.ptr u.m_data.m_p) ∧ unique_ptr.get w1 a = some 0 ∧
        w1.log = w.log ∧ w1.heap = w.heap) ∧
    (c.accepts w u = true →
      ∃ b w1, unique_ptr_array.move_ctor_convert c w a = some (b, w1) ∧ b ≠ a ∧
        unique_ptr_array.get w1 b = some (c.ptr u.m_data.m_p) ∧
        unique_ptr_array.get w1 a = some 0 ∧ w1.log = w.log ∧ w1.heap = w.heap) := by
  rw [array_move_ctor_eq, array_move_ctor_convert_eq, array_get_eq]
  have h1 := move_ctor_spec ops w a u h
  have h2 := fun hc => move_ctor_convert_spec c w a u h hc
  refine ⟨?_, ?_, fun hc => ?_, fun hc => ?_⟩
  · obtain ⟨⟨b, w1⟩, hr⟩ := h1
    exact ⟨b, w1, hr⟩
  · obtain ⟨⟨b, w1⟩, hr⟩ := h1
    exact ⟨b, w1, hr⟩
  · obtain ⟨⟨b, w1⟩, hr⟩ := h2 hc
    exact ⟨b, w1, hr⟩
  · obtain ⟨⟨b, w1⟩, hr⟩ := h2 hc
    exact ⟨b, w1, hr⟩

/-- C2 on the container of `w_single`: the move constructor, and the converting move
constructor of the conversion `derived_to_base`. -/
theorem move_ctor_takes_handle_witness :
    w_single.find 0 = some u_owner ∧ derived_to_base.accepts w_single u_owner = true ∧
    (∃ b w1, unique_ptr.move_ctor move_constr_deleter w_single 0 = some (b, w1) ∧ b ≠ 0 ∧
      unique_ptr.get w1 b = some 7 ∧ unique_ptr.get w1 0 = some 0 ∧
      w1.log = [] ∧ w1.heap = [(7, 1)]) ∧
    (∃ b w1, unique_ptr.move_ctor_convert derived_to_base w_single 0 = some (b, w1) ∧ b ≠ 0 ∧
      unique_ptr.get w1 b = some 7 ∧ unique_ptr.get w1 0 = some 0 ∧
      w1.log = [] ∧ w1.heap = [(7, 1)]) :=
  ⟨rfl, rfl,
    (move_ctor_takes_handle move_constr_deleter derived_to_base w_single 0 u_owner rfl).1,
    (move_ctor_takes_handle move_constr_deleter derived_to_base w_single 0 u_owner rfl).2.2.1
      rfl⟩

/-- C3: for `t ≠ s`, the move assignment `t = move(s)` is `t.reset(s.release())` followed
by the assignment of the deleter of `s` to the deleter of `t`; afterwards `t.get()` is the
handle `p` of `s` and `s.get()` is null; a non-null old handle `q` of `t` is disposed
of exactly once (one event is appended to the trace), through the deleter lvalue of `t` and
with the deleter state `dt` that `t` had before the transfer. The deleters afterwards: let
`a` be the state of the deleter of `t` after `reset` (what its call on `q` made of `dt`, or
`dt` when there was no call). With member deleters, `t` and `s` have the two results of the
move assignment of `ds` to `a`, so the state that the deleter class moves and the
moved-from state; with reference deleters bound to two objects, the object of `t` is what
the copy assignment of `ds` to `a` gives and the object of `s` keeps `ds`; with reference
deleters bound to one object, that object is copy-assigned to itself. Both forms. -/
theorem move_assign_is_reset_release {D : Type} (ops : deleter_ops D) (w : World D)
    (t s : Nat) (ut us : unique_ptr D) (dt ds : D) (hne : t ≠ s)
    (ht : w.find t = some ut) (hs : w.find s = some us)
    (hdt : unique_ptr.get_deleter w t = some dt)
    (hds : unique_ptr.get_deleter w s = some ds) :
    (unique_ptr.move_assign ops w t s =
      (unique_ptr.release w s).bind (fun r =>
        (unique_ptr.reset ops r.2 t r.1).bind (fun w2 =>
          assign_deleter ops w2 (ut.m_data.deleter t) (us.m_data.deleter s)
            us.m_data.d.is_reference)) ∧
     ∃ w1 a, unique_ptr.move_assign ops w t s = some w1 ∧
      unique_ptr.get w1 t = some us.m_data.m_p ∧ unique_ptr.get w1 s = some 0 ∧
      (ut.m_data.m_p ≠ 0 →
        (∃ v, w1.log = w.log ++ [⟨ut.m_data.deleter t, ut.m_data.m_p, v⟩]) ∧
        w1.heap = ops.dispose dt ut.m_data.m_p w.heap) ∧
      ((ut.is_default_deleter_t = true ∨ ut.m_data.m_p ≠ 0) →
        a = ops.call dt ut.m_data.m_p ((w.view.set s (some 0)).set t (some us.m_data.m_p))) ∧
      ((ut.is_default_deleter_t = false ∧ ut.m_data.m_p = 0) → a = dt) ∧
      (ut.m_data.deleter t ≠ us.m_data.deleter s → us.m_data.d.is_reference = false →
        unique_ptr.get_deleter w1 t = some (ops.move_assign a ds).1 ∧
        unique_ptr.get_deleter w1 s = some (ops.move_assign a ds).2) ∧
      (ut.m_data.deleter t ≠ us.m_data.deleter s → us.m_data.d.is_reference = true →
        unique_ptr.get_deleter w1 t = some (ops.copy_assign a ds) ∧
        unique_ptr.get_deleter w1 s = some ds) ∧
      (ut.m_data.deleter t = us.m_data.deleter s →
        unique_ptr.get_deleter w1 t = some (ops.copy_assign_self a) ∧
        unique_ptr.get_deleter w1 s = some (ops.copy_assign_self a))) ∧
    (unique_ptr_array.move_assign ops w t s =
      (unique_ptr_array.release w s).bind (fun r =>
        (unique_ptr_array.reset ops r.2 t r.1).bind (fun w2 =>
          assign_deleter ops w2 (ut.m_data.deleter t) (us.m_data.deleter s)
            us.m_data.d.is_reference)) ∧
     ∃ w1 a, unique_ptr_array.move_assign ops w t s = some w1 ∧
      unique_ptr_array.get w1 t = some us.m_data.m_p ∧ unique_ptr_array.get w1 s = some 0 ∧
      (ut.m_data.m_p ≠ 0 →
        (∃ v, w1.log = w.log ++ [⟨ut.m_data.deleter t, ut.m_data.m_p, v⟩]) ∧
        w1.heap = ops.dispose dt ut.m_data.m_p w.heap) ∧
      ((ut.is_default_deleter_t = true ∨ ut.m_data.m_p ≠ 0) →
        a = ops.call dt ut.m_data.m_p ((w.view.set s (some 0)).set t (some us.m_data.m_p))) ∧
      ((ut.is_default_deleter_t = false ∧ ut.m_data.m_p = 0) → a = dt) ∧
      (ut.m_data.deleter t ≠ us.m_data.deleter s → us.m_data.d.is_reference = false →
        unique_ptr_array.get_deleter w1 t = some (ops.move_assign a ds).1 ∧
        unique_ptr_array.get_deleter w1 s = some (ops.move_assign a ds).2) ∧
      (ut.m_data.deleter t ≠ us.m_data.deleter s → us.m_data.d.is_reference = true →
        unique_ptr_array.get_deleter w1 t = some (ops.copy_assign a ds) ∧
        unique_ptr_array.get_deleter w1 s = some ds) ∧
      (ut.m_data.deleter t = us.m_data.deleter s →
        unique_ptr_array.get_deleter w1 t = some (ops.copy_assign_self a) ∧
        unique_ptr_array.get_deleter w1 s = some (ops.copy_assign_self a))) := by
  rw [array_move_assign_eq, array_release_eq, array_reset_eq, array_get_eq,
    array_get_deleter_eq]
  obtain ⟨h1, w1, h2, h3, h4, _, _, h5, _⟩ :=
    move_assign_spec ops w t s ut us dt ds hne ht hs hdt hds
  obtain ⟨w1b, a, h2b, hac, has, hmem, href, hsame⟩ :=
    move_assign_deleters ops w t s ut us dt ds hne ht hs hdt hds
  have hw : w1b = w1 := Option.some.inj (h2b.symm.trans h2)
  subst hw
  have key : unique_ptr.move_assign ops w t s =
      (unique_ptr.release w s).bind (fun r =>
        (unique_ptr.reset ops r.2 t r.1).bind (fun w2 =>
          assign_deleter ops w2 (ut.m_data.deleter t) (us.m_data.deleter s)
            us.m_data.d.is_reference)) ∧
     ∃ w1 a, unique_ptr.move_assign ops w t s = some w1 ∧
      unique_ptr.get w1 t = some us.m_data.m_p ∧ unique_ptr.get w1 s = some 0 ∧
      (ut.m_data.m_p ≠ 0 →
        (∃ v, w1.log = w.log ++ [⟨ut.m_data.deleter t, ut.m_data.m_p, v⟩]) ∧
        w1.heap = ops.dispose dt ut.m_data.m_p w.heap) ∧
      ((ut.is_default_deleter_t = true ∨ ut.m_data.m_p ≠ 0) →
        a = ops.call dt ut.m_data.m_p ((w.view.set s (some 0)).set t (some us.m_data.m_p))) ∧
      ((ut.is_default_deleter_t = false ∧ ut.m_data.m_p = 0) → a = dt) ∧
      (ut.m_data.deleter t ≠ us.m_data.deleter s → us.m_data.d.is_reference = false →
        unique_ptr.get_deleter w1 t = some (ops.move_assign a ds).1 ∧
        unique_ptr.get_deleter w1 s = some (ops.move_assign a ds).2) ∧
      (ut.m_data.deleter t ≠ us.m_data.deleter s → us.m_data.d.is_reference = true →
        unique_ptr.get_deleter w1 t = some (ops.copy_assign a ds) ∧
        unique_ptr.get_deleter w1 s = some ds) ∧
      (ut.m_data.deleter t = us.m_data.deleter s →
        unique_ptr.get_deleter w1 t = some (ops.copy_assign_self a) ∧
        unique_ptr.get_deleter w1 s = some (ops.copy_assign_self a)) :=
    ⟨h1, w1b, a, h2, h3, h4, fun hq => ⟨⟨_, (h5 (Or.inr hq)).1⟩, (h5 (Or.inr hq)).2⟩,
      hac, has, hmem, href, hsame⟩
  exact ⟨key, key⟩

/-- C3 on `w_pair`, with the deleter class `move_constr_deleter` of the test
`unique_ptr_asgn_move01`: the container that owns `9` is assigned from the one that owns
`7`. The object at `9` is deleted; the target has the deleter state `5` of the source and
the source the moved-from state `0`. -/
theorem move_assign_is_reset_release_witness :
    (1 : Nat) ≠ 0 ∧ w_pair.find 1 = some u_other ∧ w_pair.find 0 = some u_owner ∧
    unique_ptr.get_deleter w_pair 1 = some 5 ∧ unique_ptr.get_deleter w_pair 0 = some 5 ∧
    ∃ w1, unique_ptr.move_assign move_constr_deleter w_pair 1 0 = some w1 ∧
      unique_ptr.get w1 1 = some 7 ∧ unique_ptr.get w1 0 = some 0 ∧
      (∃ v, w1.log = [⟨.of_member 1, 9, v⟩]) ∧
      w1.heap = [(7, 1)] ∧
      unique_ptr.get_deleter w1 1 = some 5 ∧ unique_ptr.get_deleter w1 0 = some 0 := by
  obtain ⟨w1, a, h2, h3, h4, h5, _, _, hmem, _, _⟩ :=
    (move_assign_is_reset_release move_constr_deleter w_pair 1 0 u_other u_owner 5 5
      (by decide) rfl rfl rfl rfl).1.2
  have hq := h5 (by decide)
  have hm := hmem (by decide) rfl
  exact ⟨by decide, rfl, rfl, rfl, rfl, w1, h2, h3, h4, hq.1, hq.2, hm.1, hm.2⟩

/-- C4, as stated, fails: `reset(p)` invokes the deleter on `p` when `p` is the old
handle. An empty `unique_ptr<A>` with the default deleter on which `reset()` is called has
its deleter invoked on the null handle, which is `p`; and a container that owns `7` on
which `reset(7)` is called has its deleter invoked on `7`, which it still stores. -/
theorem reset_own_handle_calls_deleter_on_it :
    (unique_ptr.get w_default_null 0 = some 0 ∧
      (unique_ptr.reset default_delete w_default_null 0 0).map
        (fun w => (unique_ptr.get w 0, w.calls)) = some (some 0, [0])) ∧
    (unique_ptr.get w_single 0 = some 7 ∧
      (unique_ptr.reset move_constr_deleter w_single 0 7).map
        (fun w => (unique_ptr.get w 0, w.calls)) = some (some 7, [7])) := by
  decide

/-- C4, amended: `reset(p)`, of either form, leaves `get() == p`, invokes the deleter on
the old handle `q` exactly once when `q` is non-null, and invokes the deleter on no handle
other than `q`: never on `p` unless `p == q`. -/
theorem reset_stores_new_disposes_old {D : Type} (ops : deleter_ops D) (w : World D)
    (i : Nat) (p : pointer) (u : unique_ptr D) (d : D) (h : w.find i = some u)
    (hd : unique_ptr.get_deleter w i = some d) :
    (∃ w1 new, unique_ptr.reset ops w i p = some w1 ∧ unique_ptr.get w1 i = some p ∧
      w1.log = w.log ++ new ∧ (∀ e ∈ new, e.arg = u.m_data.m_p) ∧
      (u.m_data.m_p ≠ 0 → new.length = 1) ∧
      (p ≠ u.m_data.m_p → ∀ e ∈ new, e.arg ≠ p)) ∧
    (∃ w1 new, unique_ptr_array.reset ops w i p = some w1 ∧
      unique_ptr_array.get w1 i = some p ∧
      w1.log = w.log ++ new ∧ (∀ e ∈ new, e.arg = u.m_data.m_p) ∧
      (u.m_data.m_p ≠ 0 → new.length = 1) ∧
      (p ≠ u.m_data.m_p → ∀ e ∈ new, e.arg ≠ p)) ∧
    (∃ w1 new, unique_ptr_array.reset_void ops w i = some w1 ∧
      unique_ptr_array.get w1 i = some 0 ∧
      w1.log = w.log ++ new ∧ (∀ e ∈ new, e.arg = u.m_data.m_p) ∧
      (u.m_data.m_p ≠ 0 → new.length = 1) ∧
      (0 ≠ u.m_data.m_p → ∀ e ∈ new, e.arg ≠ 0)) := by
  have key : ∀ p : pointer, ∃ w1 new, unique_ptr.reset ops w i p = some w1 ∧
      unique_ptr.get w1 i = some p ∧
      w1.log = w.log ++ new ∧ (∀ e ∈ new, e.arg = u.m_data.m_p) ∧
      (u.m_data.m_p ≠ 0 → new.length = 1) ∧
      (p ≠ u.m_data.m_p → ∀ e ∈ new, e.arg ≠ p) := by
    intro p
    obtain ⟨w1, he, hget, hlog, _, _⟩ := reset_events ops w i p u d h hd
    refine ⟨w1, _, he, hget, hlog, ?_, ?_, ?_⟩
    · intro e he
      split at he <;> simp_all
    · intro hq
      simp [hq]
    · intro hp e he
      split at he
      · simp only [List.mem_singleton] at he
        rw [he]; exact fun hc => hp hc.symm
      · simp at he
  rw [array_reset_eq, array_get_eq]
  exact ⟨key p, key p, by simpa only [array_reset_void_eq] using key 0⟩

/-- C4, amended, on the container of `w_single`: `reset(11)` while it owns `7`. -/
theorem reset_stores_new_disposes_old_witness :
    w_single.find 0 = some u_owner ∧ unique_ptr.get_deleter w_single 0 = some 5 ∧
    ∃ w1 new, unique_ptr.reset move_constr_deleter w_single 0 11 = some w1 ∧
      unique_ptr.get w1 0 = some 11 ∧ w1.log = [] ++ new ∧ (∀ e ∈ new, e.arg = 7) ∧
      ((7 : Nat) ≠ 0 → new.length = 1) ∧ ((11 : Nat) ≠ 7 → ∀ e ∈ new, e.arg ≠ 11) :=
  ⟨rfl, rfl,
    (reset_stores_new_disposes_old move_constr_deleter w_single 0 11 u_owner 5 rfl rfl).1⟩

/-- C5: during `reset(p)`, of either form, the deleter is invoked when the container
already stores `p`: every invocation made by the call ran in a state where `get()` of the
container was `p` (the `view` of the event, which is also what the call operator of the
deleter is given to inspect), never the old handle. -/
theorem reset_deleter_runs_after_store {D : Type} (ops : deleter_ops D) (w : World D)
    (i : Nat) (p : pointer) (u : unique_ptr D) (d : D) (h : w.find i = some u)
    (hd : unique_ptr.get_deleter w i = some d) :
    (∃ w1 new, unique_ptr.reset ops w i p = some w1 ∧ w1.log = w.log ++ new ∧
      (∀ e ∈ new, e.view[i]? = some (some p)) ∧
      ((u.is_default_deleter_t = true ∨ u.m_data.m_p ≠ 0) →
        ∃ v, v[i]? = some (some p) ∧ new = [⟨u.m_data.deleter i, u.m_data.m_p, v⟩] ∧
          unique_ptr.get_deleter w1 i = some (ops.call d u.m_data.m_p v))) ∧
    (∃ w1 new, unique_ptr_array.reset ops w i p = some w1 ∧ w1.log = w.log ++ new ∧
      (∀ e ∈ new, e.view[i]? = some (some p)) ∧
      ((u.is_default_deleter_t = true ∨ u.m_data.m_p ≠ 0) →
        ∃ v, v[i]? = some (some p) ∧ new = [⟨u.m_data.deleter i, u.m_data.m_p, v⟩] ∧
          unique_ptr_array.get_deleter w1 i = some (ops.call d u.m_data.m_p v))) ∧
    (∃ w1 new, unique_ptr_array.reset_void ops w i = some w1 ∧ w1.log = w.log ++ new ∧
      (∀ e ∈ new, e.view[i]? = some (some 0)) ∧
      ((u.is_default_deleter_t = true ∨ u.m_data.m_p ≠ 0) →
        ∃ v, v[i]? = some (some 0) ∧ new = [⟨u.m_data.deleter i, u.m_data.m_p, v⟩] ∧
          unique_ptr_array.get_deleter w1 i = some (ops.call d u.m_data.m_p v))) := by
  have key : ∀ p : pointer, ∃ w1 new, unique_ptr.reset ops w i p = some w1 ∧
      w1.log = w.log ++ new ∧ (∀ e ∈ new, e.view[i]? = some (some p)) ∧
      ((u.is_default_deleter_t = true ∨ u.m_data.m_p ≠ 0) →
        ∃ v, v[i]? = some (some p) ∧ new = [⟨u.m_data.deleter i, u.m_data.m_p, v⟩] ∧
          unique_ptr.get_deleter w1 i = some (ops.call d u.m_data.m_p v)) := by
    intro p
    obtain ⟨w1, he, _, hshape, _, hcall, _⟩ := reset_spec ops w i p u d h hd
    obtain ⟨w2, he2, _, hlog, _, _⟩ := reset_events ops w i p u d h hd
    have hw : w2 = w1 := Option.some.inj (he2.symm.trans he)
    subst hw
    have hlt : i < w.view.length := by simpa [World.view] using find_lt h
    have hv : (w.view.set i (some p))[i]? = some (some p) := by simp [hlt]
    obtain ⟨u1, hf1, hk1⟩ := find_of_shape hshape h
    refine ⟨_, _, he, hlog, ?_, ?_⟩
    · intro e hmem
      split at hmem
      · simp only [List.mem_singleton] at hmem
        rw [hmem]; exact hv
      · simp at hmem
    · intro hc
      refine ⟨_, hv, by rw [if_pos hc], ?_⟩
      rw [get_deleter_eq_read hf1, (deleter_of_kind hk1 i).1]
      exact (hcall hc).2.2
  rw [array_reset_eq, array_get_deleter_eq]
  exact ⟨key p, key p, by simpa only [array_reset_void_eq] using key 0⟩

/-- C5 on the container of `w_single`: `reset(11)` while it owns `7`. -/
theorem reset_deleter_runs_after_store_witness :
    w_single.find 0 = some u_owner ∧ unique_ptr.get_deleter w_single 0 = some 5 ∧
    ∃ w1 new, unique_ptr.reset move_constr_deleter w_single 0 11 = some w1 ∧
      w1.log = [] ++ new ∧ (∀ e ∈ new, e.view[0]? = some (some 11)) ∧
      ((false = true ∨ (7 : Nat) ≠ 0) →
        ∃ v, v[0]? = some (some 11) ∧ new = [⟨.of_member 0, 7, v⟩] ∧
          unique_ptr.get_deleter w1 0 = some (move_constr_deleter.call 5 7 v)) :=
  ⟨rfl, rfl,
    (reset_deleter_runs_after_store move_constr_deleter w_single 0 11 u_owner 5 rfl rfl).1⟩

/-- C6: a container whose deleter type is not `default_delete` (the constant
`is_default_deleter_t` is false) and whose handle is null invokes its deleter neither in
its destructor nor in `reset`, whatever the argument: the trace, the free store and the
deleter objects are unchanged, and after `reset` the stored deleter is in the same state.
Both forms. -/
theorem null_custom_deleter_not_called {D : Type} (ops : deleter_ops D) (w : World D)
    (i : Nat) (p : pointer) (u : unique_ptr D) (h : w.find i = some u)
    (htag : u.is_default_deleter_t = false) (hnull : u.m_data.m_p = 0) :
    (∃ w1, unique_ptr.dtor ops w i = some w1 ∧ w1.log = w.log ∧ w1.dels = w.dels ∧
      w1.heap = w.heap) ∧
    (∃ w1, unique_ptr.reset ops w i p = some w1 ∧ w1.log = w.log ∧ w1.dels = w.dels ∧
      w1.heap = w.heap ∧ unique_ptr.get_deleter w1 i = unique_ptr.get_deleter w i) ∧
    (∃ w1, unique_ptr_array.dtor ops w i = some w1 ∧ w1.log = w.log ∧ w1.dels = w.dels ∧
      w1.heap = w.heap) ∧
    (∃ w1, unique_ptr_array.reset ops w i p = some w1 ∧ w1.log = w.log ∧
      w1.dels = w.dels ∧ w1.heap = w.heap ∧
      unique_ptr_array.get_deleter w1 i = unique_ptr_array.get_deleter w i) ∧
    (∃ w1, unique_ptr_array.reset_void ops w i = some w1 ∧ w1.log = w.log ∧
      w1.dels = w.dels ∧ w1.heap = w.heap ∧
      unique_ptr_array.get_deleter w1 i = unique_ptr_array.get_deleter w i) := by
  have hdtor : ∃ w1, unique_ptr.dtor ops w i = some w1 ∧ w1.log = w.log ∧
      w1.dels = w.dels ∧ w1.heap = w.heap :=
    ⟨_, dtor_null_custom ops h htag hnull, rfl, rfl, rfl⟩
  have hreset : ∀ p : pointer, ∃ w1, unique_ptr.reset ops w i p = some w1 ∧
      w1.log = w.log ∧ w1.dels = w.dels ∧ w1.heap = w.heap ∧
      unique_ptr.get_deleter w1 i = unique_ptr.get_deleter w i :=
    fun p => ⟨_, reset_null_custom ops h htag hnull p, rfl, rfl, rfl,
      get_deleter_store_m_p h p⟩
  rw [array_dtor_eq, array_reset_eq, array_get_deleter_eq]
  exact ⟨hdtor, hreset p, hdtor, hreset p,
    by simpa only [array_reset_void_eq] using hreset 0⟩

/-- C6 on the state of the test `unique_ptr_dtor_null`: the destructor and `reset(7)`. -/
theorem null_custom_deleter_not_called_witness :
    w_null_ref.find 0 = some u_null_ref ∧ u_null_ref.is_default_deleter_t = false ∧
    u_null_ref.m_data.m_p = 0 ∧
    (∃ w1, unique_ptr.dtor def_constr_deleter w_null_ref 0 = some w1 ∧ w1.log = [] ∧
      w1.dels = [5] ∧ w1.heap = [(7, 1)]) ∧
    (∃ w1, unique_ptr.reset def_constr_deleter w_null_ref 0 7 = some w1 ∧ w1.log = [] ∧
      w1.dels = [5] ∧ w1.heap = [(7, 1)] ∧
      unique_ptr.get_deleter w1 0 = unique_ptr.get_deleter w_null_ref 0) :=
  ⟨rfl, rfl, rfl,
    (null_custom_deleter_not_called def_constr_deleter w_null_ref 0 7 u_null_ref
      rfl rfl rfl).1,
    (null_custom_deleter_not_called def_constr_deleter w_null_ref 0 7 u_null_ref
      rfl rfl rfl).2.1⟩

/-- C7: a container with the default deleter (`is_default_deleter_t` is true, the deleter
is `default_delete`) invokes the deleter on the old handle in its destructor and in
`reset` unconditionally, also when that handle is null; and the invocation on the null
handle changes neither the free store nor the instance counter. Both forms. -/
theorem default_deleter_called_unconditionally (w : World Unit) (i : Nat) (p : pointer)
    (u : unique_ptr Unit) (h : w.find i = some u)
    (hd : unique_ptr.get_deleter w i = some ())
    (htag : u.is_default_deleter_t = true) :
    (∃ w1, unique_ptr.dtor default_delete w i = some w1 ∧
      w1.log = w.log ++ [⟨u.m_data.deleter i, u.m_data.m_p, w.view⟩] ∧
      (u.m_data.m_p = 0 → w1.heap = w.heap ∧ live_count w1.heap = live_count w.heap)) ∧
    (∃ w1, unique_ptr.reset default_delete w i p = some w1 ∧
      w1.log = w.log ++ [⟨u.m_data.deleter i, u.m_data.m_p, w.view.set i (some p)⟩] ∧
      (u.m_data.m_p = 0 → w1.heap = w.heap ∧ live_count w1.heap = live_count w.heap)) ∧
    (∃ w1, unique_ptr_array.dtor default_delete w i = some w1 ∧
      w1.log = w.log ++ [⟨u.m_data.deleter i, u.m_data.m_p, w.view⟩] ∧
      (u.m_data.m_p = 0 → w1.heap = w.heap ∧ live_count w1.heap = live_count w.heap)) ∧
    (∃ w1, unique_ptr_array.reset default_delete w i p = some w1 ∧
      w1.log = w.log ++ [⟨u.m_data.deleter i, u.m_data.m_p, w.view.set i (some p)⟩] ∧
      (u.m_data.m_p = 0 → w1.heap = w.heap ∧ live_count w1.heap = live_count w.heap)) ∧
    (∃ w1, unique_ptr_array.reset_void default_delete w i = some w1 ∧
      w1.log = w.log ++ [⟨u.m_data.deleter i, u.m_data.m_p, w.view.set i (some 0)⟩] ∧
      (u.m_data.m_p = 0 → w1.heap = w.heap ∧ live_count w1.heap = live_count w.heap)) := by
  have hdtor : ∃ w1, unique_ptr.dtor default_delete w i = some w1 ∧
      w1.log = w.log ++ [⟨u.m_data.deleter i, u.m_data.m_p, w.view⟩] ∧
      (u.m_data.m_p = 0 → w1.heap = w.heap ∧ live_count w1.heap = live_count w.heap) := by
    obtain ⟨w1, he, _, _, hcall, _⟩ := dtor_spec default_delete w i u () h hd
    obtain ⟨h1, h2⟩ := hcall (Or.inl htag)
    refine ⟨w1, he, h1, fun hq => ?_⟩
    have : w1.heap = w.heap := by
      rw [h2, hq]; exact cpp_delete_null _
    exact ⟨this, by rw [this]⟩
  have hreset : ∀ p : pointer, ∃ w1, unique_ptr.reset default_delete w i p = some w1 ∧
      w1.log = w.log ++ [⟨u.m_data.deleter i, u.m_data.m_p, w.view.set i (some p)⟩] ∧
      (u.m_data.m_p = 0 → w1.heap = w.heap ∧ live_count w1.heap = live_count w.heap) := by
    intro p
    obtain ⟨w1, he, _, _, _, hcall, _⟩ := reset_spec default_delete w i p u () h hd
    obtain ⟨h1, h2, _⟩ := hcall (Or.inl htag)
    refine ⟨w1, he, h1, fun hq => ?_⟩
    have : w1.heap = w.heap := by
      rw [h2, hq]; exact cpp_delete_null _
    exact ⟨this, by rw [this]⟩
  rw [array_dtor_eq, array_reset_eq]
  exact ⟨hdtor, hreset p, hdtor, hreset p,
    by simpa only [array_reset_void_eq] using hreset 0⟩

/-- C7 on an empty `unique_ptr<A>` with the default deleter: the destructor. -/
theorem default_deleter_called_unconditionally_witness :
    w_default_null.find 0 = some u_default_null ∧
    unique_ptr.get_deleter w_default_null 0 = some () ∧
    u_default_null.is_default_deleter_t = true ∧
    (∃ w1, unique_ptr.dtor default_delete w_default_null 0 = some w1 ∧
      w1.log = [] ++ [⟨.of_member 0, 0, [some 0]⟩] ∧
      ((0 : Nat) = 0 → w1.heap = [(7, 1)] ∧ live_count w1.heap = 1)) :=
  ⟨rfl, rfl, rfl,
    (default_deleter_called_unconditionally w_default_null 0 0 u_default_null
      rfl rfl rfl).1⟩

/-- C8, as stated, fails for the default deleter: on an empty `unique_ptr<A>` both
`reset()` and the destructor call the deleter, on the null handle, although the old
stored pointer is null. -/
theorem default_deleter_called_on_null :
    unique_ptr.get w_default_null 0 = some 0 ∧
    (unique_ptr.reset default_delete w_default_null 0 0).map World.calls = some [0] ∧
    (unique_ptr.dtor default_delete w_default_null 0).map World.calls = some [0] := by
  decide

/-- C8, amended: for every deleter class, the destructor and `reset(p)` call
`get_deleter()(old_p)` if and only if `old_p` is not null or the deleter type is the
default deleter (`is_default_deleter_t`); when neither holds the destructor has no effect
but the end of the object, and `reset(p)` only stores `p`. Both forms. -/
theorem deleter_called_iff_nonnull_or_default {D : Type} (ops : deleter_ops D)
    (w : World D) (i : Nat) (p : pointer) (u : unique_ptr D) (d : D)
    (h : w.find i = some u) (hd : unique_ptr.get_deleter w i = some d) :
    (∃ w1, unique_ptr.dtor ops w i = some w1 ∧
      w1.log = w.log ++
        (if u.is_default_deleter_t = true ∨ u.m_data.m_p ≠ 0 then
          [⟨u.m_data.deleter i, u.m_data.m_p, w.view⟩] else []) ∧
      w1.heap = (if u.is_default_deleter_t = true ∨ u.m_data.m_p ≠ 0 then
          ops.dispose d u.m_data.m_p w.heap else w.heap) ∧
      ((u.is_default_deleter_t = false ∧ u.m_data.m_p = 0) → w1 = w.kill i)) ∧
    (∃ w1, unique_ptr.reset ops w i p = some w1 ∧
      w1.log = w.log ++
        (if u.is_default_deleter_t = true ∨ u.m_data.m_p ≠ 0 then
          [⟨u.m_data.deleter i, u.m_data.m_p, w.view.set i (some p)⟩] else []) ∧
      w1.heap = (if u.is_default_deleter_t = true ∨ u.m_data.m_p ≠ 0 then
          ops.dispose d u.m_data.m_p w.heap else w.heap) ∧
      ((u.is_default_deleter_t = false ∧ u.m_data.m_p = 0) →
        w1 = w.store i { u with m_data := { u.m_data with m_p := p } })) ∧
    unique_ptr_array.dtor ops w i = unique_ptr.dtor ops w i ∧
    unique_ptr_array.reset ops w i p = unique_ptr.reset ops w i p ∧
    unique_ptr_array.reset_void ops w i = unique_ptr.reset ops w i 0 := by
  refine ⟨?_, ?_, rfl, rfl, rfl⟩
  · obtain ⟨w1, he, _, hlog, hheap, hskip⟩ := dtor_events ops w i u d h hd
    exact ⟨w1, he, hlog, hheap, hskip⟩
  · obtain ⟨w1, he, _, hlog, hheap, _⟩ := reset_events ops w i p u d h hd
    obtain ⟨w2, he2, _, _, _, _, hskip⟩ := reset_spec ops w i p u d h hd
    have hw : w2 = w1 := Option.some.inj (he2.symm.trans he)
    subst hw
    exact ⟨_, he, hlog, hheap, hskip⟩

/-- C8, amended, on the container of `w_single`: the destructor disposes of `7`. -/
theorem deleter_called_iff_nonnull_or_default_witness :
    w_single.find 0 = some u_owner ∧ unique_ptr.get_deleter w_single 0 = some 5 ∧
    ∃ w1, unique_ptr.dtor move_constr_deleter w_single 0 = some w1 ∧
      w1.log = [] ++ [⟨.of_member 0, 7, [some 7]⟩] ∧ w1.heap = [] :=
  ⟨rfl, rfl,
    (deleter_called_iff_nonnull_or_default move_constr_deleter w_single 0 0 u_owner 5
      rfl rfl).1.imp (fun _ hw => ⟨hw.1, hw.2.1, hw.2.2.1⟩)⟩

/-- C9: take any state whose containers are all alive and own distinct non-null handles
(no non-null handle is stored twice), and run any sequence of move constructions, move
assignments (also of a container to itself) and swaps, of either form, each on containers
that exist at that point. The run and the destruction of all containers at its end are
defined, and over the whole run the deleter is invoked exactly once on each handle that
was owned, and not at all on any other non-null handle. -/
theorem every_owned_handle_disposed_once {D : Type} (ops : deleter_ops D) (w : World D)
    (seq : List Op) (ha : w.alive) (hwf : w.wf)
    (hv : valid_run w.objs.length seq = true)
    (hr : ∀ op ∈ seq, op.is_release = false) (hd : w.no_sharing) :
    ∃ w1 w2, run ops w seq = some w1 ∧ destroy_all ops w1 = some w2 ∧
      ∀ h, h ≠ 0 →
        (some h ∈ w.view → w2.calls.count h = w.calls.count h + 1) ∧
        (some h ∉ w.view → w2.calls.count h = w.calls.count h) := by
  obtain ⟨w1, he1, ha1, hwf1, hsum1⟩ := run_follows ops seq w ha hwf hv hr
  obtain ⟨w2, he2, hsum2⟩ := destroy_all_spec ops w1 ha1 hwf1
  refine ⟨w1, w2, he1, he2, ?_⟩
  intro h hh
  have h1 := hsum1 h hh
  have h2 := hsum2 h hh
  have h3 := (no_sharing_iff w).mp hd h hh
  constructor
  · intro hm
    have : 0 < w.view.count (some h) := List.count_pos_iff.mpr hm
    omega
  · intro hm
    have : w.view.count (some h) = 0 := List.count_eq_zero.mpr hm
    omega

/-- C9 on `w_pair` and the program `prog_moves`: `7` and `9` are each disposed of once. -/
theorem every_owned_handle_disposed_once_witness :
    w_pair.alive ∧ w_pair.wf ∧ valid_run w_pair.objs.length prog_moves = true ∧
    (∀ op ∈ prog_moves, op.is_release = false) ∧ w_pair.no_sharing ∧
    ∃ w1 w2, run move_constr_deleter w_pair prog_moves = some w1 ∧
      destroy_all move_constr_deleter w1 = some w2 ∧
      w2.calls.count 7 = 1 ∧ w2.calls.count 9 = 1 :=
  ⟨w_pair_alive, w_pair_wf, rfl, by decide, w_pair_no_sharing, by
    obtain ⟨w1, w2, h1, h2, h3⟩ :=
      every_owned_handle_disposed_once move_constr_deleter w_pair prog_moves w_pair_alive
        w_pair_wf rfl (by decide) w_pair_no_sharing
    exact ⟨w1, w2, h1, h2, (h3 7 (by decide)).1 (by decide), (h3 9 (by decide)).1 (by decide)⟩⟩

/-- C10: if no two distinct live containers hold the same non-null handle, this is
still so after a move construction, a move assignment, a swap or a `release()`, of either
form, on live containers; in particular, after `t = move(u)` with `t` and `u` distinct,
and after the construction of a new container from `u`, the source `u` holds the null
handle, so that the source and the destination do not both hold the same non-null
handle. -/
theorem no_sharing_is_preserved {D : Type} (ops : deleter_ops D) (w : World D) (op : Op)
    (hwf : w.wf) (hlive : ∀ i ∈ op.ids, ∃ u, w.find i = some u) (hinv : w.no_sharing) :
    ∃ w1, step ops w op = some w1 ∧ w1.no_sharing ∧
      (∀ t u, (op = .move_assign t u ∨ op = .array_move_assign t u) → t ≠ u →
        unique_ptr.get w1 u = some 0 ∧
        ∀ h, unique_ptr.get w1 t = some h → unique_ptr.get w1 u = some h → h = 0) ∧
      (∀ u, (op = .move_ctor u ∨ op = .array_move_ctor u) →
        w1.objs.length = w.objs.length + 1 ∧ unique_ptr.get w1 u = some 0 ∧
        ∀ h, unique_ptr.get w1 w.objs.length = some h → unique_ptr.get w1 u = some h →
          h = 0) := by
  obtain ⟨w1, he, _, hlen, _, hle, _⟩ := follows_step ops hwf op hlive
  have hns : w1.no_sharing := by
    rw [no_sharing_iff] at hinv ⊢
    intro h hh
    exact le_trans (hle h hh) (hinv h hh)
  refine ⟨w1, he, hns, ?_, ?_⟩
  · intro t u hop htu
    refine ⟨?_, fun h ht hu => hns t u h htu ht hu⟩
    obtain ⟨a, ha⟩ := hlive t (by rcases hop with hop | hop <;> rw [hop] <;> simp [Op.ids])
    obtain ⟨b, hb⟩ := hlive u (by rcases hop with hop | hop <;> rw [hop] <;> simp [Op.ids])
    obtain ⟨w2, he2, hview, _, _⟩ := move_assign_view ops hwf ha hb
    have hstep : step ops w op = unique_ptr.move_assign ops w t u := by
      rcases hop with hop | hop <;> rw [hop] <;> rfl
    have hw : w2 = w1 := Option.some.inj ((he2.symm.trans hstep.symm).trans he)
    subst hw
    apply get_of_view
    rw [hview, List.getElem?_set_ne htu]
    have hu : u < w.view.length := by rw [view_length]; exact find_lt hb
    simp [hu]
  · intro u hop
    have hc : op.creates = true := by
      rcases hop with hop | hop <;> rw [hop] <;> rfl
    obtain ⟨x, hx⟩ := hlive u (by rcases hop with hop | hop <;> rw [hop] <;> simp [Op.ids])
    have hu : u < w.objs.length := find_lt hx
    rw [hc] at hlen
    refine ⟨by simpa using hlen, ?_, fun h h1 h2 => hns w.objs.length u h (by omega) h1 h2⟩
    obtain ⟨r, he2, _, _, hget, _⟩ := move_ctor_spec ops w u x hx
    have hstep : step ops w op = (unique_ptr.move_ctor ops w u).map Prod.snd := by
      rcases hop with hop | hop <;> rw [hop] <;> rfl
    rw [hstep, he2] at he
    have hw : r.2 = w1 := Option.some.inj he
    subst hw
    exact hget

/-- C10 on `w_pair`: the move assignment of the owner of `7` to the owner of `9`. -/
theorem no_sharing_is_preserved_witness :
    w_pair.wf ∧ (∀ i ∈ (Op.move_assign 1 0).ids, ∃ u, w_pair.find i = some u) ∧
    w_pair.no_sharing ∧
    ∃ w1, step move_constr_deleter w_pair (.move_assign 1 0) = some w1 ∧ w1.no_sharing ∧
      unique_ptr.get w1 1 = some 7 ∧ unique_ptr.get w1 0 = some 0 :=
  ⟨w_pair_wf, w_pair_live, w_pair_no_sharing, by
    obtain ⟨w1, h1, h2, _⟩ :=
      no_sharing_is_preserved move_constr_deleter w_pair (.move_assign 1 0) w_pair_wf
        w_pair_live w_pair_no_sharing
    have e : step move_constr_deleter w_pair (.move_assign 1 0) = some
        { objs := [some { m_data := { m_p := 0, d := .member 0 }, is_default_deleter_t := false },
                   some { m_data := { m_p := 7, d := .member 5 }, is_default_deleter_t := false }],
          dels := [], heap := [(7, 1)], log := [⟨.of_member 1, 9, [some 0, some 7]⟩] } := rfl
    rw [e] at h1
    have hw := Option.some.inj h1
    subst hw
    exact ⟨_, e, h2, rfl, rfl⟩⟩

/-- C11: for two containers `x` and `y` of one class (of either form) whose deleters are
bound, `x.swap(y)` and the free function `swap(x, y)` leave `x` with the former handle and
deleter of `y` and `y` with the former handle and deleter of `x`, and invoke no deleter
(trace and free store are unchanged). The helper `boost::move_detail::swap` that the member
function calls on the deleters exchanges the values of its two arguments. -/
theorem swap_exchanges_handle_and_deleter {D : Type} (ops : deleter_ops D) (w : World D)
    (x y : Nat) (a b : unique_ptr D) (da db : D)
    (hx : w.find x = some a) (hy : w.find y = some b)
    (hda : unique_ptr.get_deleter w x = some da)
    (hdb : unique_ptr.get_deleter w y = some db)
    (hsw : ∀ p q, ops.swap p q = (q, p)) (hself : ∀ p, ops.swap_self p = p) :
    (∃ w1, unique_ptr.swap ops w x y = some w1 ∧ swap ops false w x y = some w1 ∧
      unique_ptr.get w1 x = some b.m_data.m_p ∧ unique_ptr.get w1 y = some a.m_data.m_p ∧
      unique_ptr.get_deleter w1 x = some db ∧ unique_ptr.get_deleter w1 y = some da ∧
      w1.log = w.log ∧ w1.heap = w.heap) ∧
    (∃ w1, unique_ptr_array.swap ops w x y = some w1 ∧ swap ops true w x y = some w1 ∧
      unique_ptr_array.get w1 x = some b.m_data.m_p ∧
      unique_ptr_array.get w1 y = some a.m_data.m_p ∧
      unique_ptr_array.get_deleter w1 x = some db ∧
      unique_ptr_array.get_deleter w1 y = some da ∧
      w1.log = w.log ∧ w1.heap = w.heap) := by
  obtain ⟨w1, he, h1, h2, h3, h4, h5, h6⟩ :=
    swap_spec ops w x y a b da db hx hy hda hdb hsw hself
  exact ⟨⟨w1, he, he, h1, h2, h3, h4, h5, h6⟩, ⟨w1, he, he, h1, h2, h3, h4, h5, h6⟩⟩

/-- C11 on the state of the test `unique_ptr_modifiers_swap`. -/
theorem swap_exchanges_handle_and_deleter_witness :
    unique_ptr.get w_swap 0 = some 7 ∧ unique_ptr.get w_swap 1 = some 9 ∧
    unique_ptr.get_deleter w_swap 0 = some 1 ∧ unique_ptr.get_deleter w_swap 1 = some 2 ∧
    (∀ p q, move_constr_deleter.swap p q = (q, p)) ∧
    (∀ p, move_constr_deleter.swap_self p = p) ∧
    ∃ w1, unique_ptr.swap move_constr_deleter w_swap 0 1 = some w1 ∧
      swap move_constr_deleter false w_swap 0 1 = some w1 ∧
      unique_ptr.get w1 0 = some 9 ∧ unique_ptr.get w1 1 = some 7 ∧
      unique_ptr.get_deleter w1 0 = some 2 ∧ unique_ptr.get_deleter w1 1 = some 1 ∧
      w1.log = [] ∧ w1.heap = [(7, 1), (9, 1)] :=
  ⟨rfl, rfl, rfl, rfl, fun _ _ => rfl, fun _ => rfl,
    (swap_exchanges_handle_and_deleter move_constr_deleter w_swap 0 1 _ _ 1 2 rfl rfl rfl rfl
      (fun _ _ => rfl) (fun _ => rfl)).1⟩

/-- C13: for a deleter type `D` that is neither a pointer nor a reference (the static
assertions of these constructors), the default constructor and the constructor from
`nullptr` return a new container with `get() == 0` (the null handle) whose deleter is the
default-constructed deleter `ops.ctor`, and the constructor from a handle `p` returns one
with `get() == p` and the default-constructed deleter; the record of deleter calls and the
free store are as before the construction. This holds for the primary template and for the
array specialisation. -/
theorem ctor_gives_handle_and_default_deleter {S : Type} (ops : deleter_ops S)
    (T D : cpp_type) (w : World S) (p : pointer)
    (hp : is_pointer D = false) (hr : is_reference D = false) :
    (∃ r, unique_ptr.ctor ops T D w = some r ∧ unique_ptr.get r.2 r.1 = some 0 ∧
      unique_ptr.get_deleter r.2 r.1 = some ops.ctor ∧ r.2.log = w.log ∧
      r.2.heap = w.heap) ∧
    (∃ r, unique_ptr.ctor_nullptr ops T D w = some r ∧ unique_ptr.get r.2 r.1 = some 0 ∧
      unique_ptr.get_deleter r.2 r.1 = some ops.ctor ∧ r.2.log = w.log ∧
      r.2.heap = w.heap) ∧
    (∃ r, unique_ptr.ctor_pointer ops T D w p = some r ∧ unique_ptr.get r.2 r.1 = some p ∧
      unique_ptr.get_deleter r.2 r.1 = some ops.ctor ∧ r.2.log = w.log ∧
      r.2.heap = w.heap) ∧
    (∃ r, unique_ptr_array.ctor ops T D w = some r ∧
      unique_ptr_array.get r.2 r.1 = some 0 ∧
      unique_ptr_array.get_deleter r.2 r.1 = some ops.ctor ∧ r.2.log = w.log ∧
      r.2.heap = w.heap) ∧
    (∃ r, unique_ptr_array.ctor_nullptr ops T D w = some r ∧
      unique_ptr_array.get r.2 r.1 = some 0 ∧
      unique_ptr_array.get_deleter r.2 r.1 = some ops.ctor ∧ r.2.log = w.log ∧
      r.2.heap = w.heap) ∧
    (∃ r, unique_ptr_array.ctor_pointer ops T D w p = some r ∧
      unique_ptr_array.get r.2 r.1 = some p ∧
      unique_ptr_array.get_deleter r.2 r.1 = some ops.ctor ∧ r.2.log = w.log ∧
      r.2.heap = w.heap) := by
  simp only [array_get_eq, array_get_deleter_eq]
  refine ⟨?_, ?_, ?_, ?_, ?_, ?_⟩
  · exact alloc_member_spec w 0 ops.ctor (movelib.is_default_deleter_t T D) _
      (by simp [unique_ptr.ctor, hp, hr])
  · exact alloc_member_spec w 0 ops.ctor (movelib.is_default_deleter_t T D) _
      (by simp [unique_ptr.ctor_nullptr, hp, hr])
  · exact alloc_member_spec w p ops.ctor (movelib.is_default_deleter_t T D) _
      (by simp [unique_ptr.ctor_pointer, hp, hr])
  · exact alloc_member_spec w 0 ops.ctor (array_is_default_deleter_t T D) _
      (by simp [unique_ptr_array.ctor, hp, hr])
  · exact alloc_member_spec w 0 ops.ctor (array_is_default_deleter_t T D) _
      (by simp [unique_ptr_array.ctor_nullptr, hp, hr])
  · exact alloc_member_spec w p ops.ctor (array_is_default_deleter_t T D) _
      (by simp [unique_ptr_array.ctor_pointer, hp, hr])

/-- C13 on `unique_ptr<int, def_constr_deleter<int> >` (the test
`unique_ptr_ctor_default01`): the default constructor gives the null handle and a deleter
in state `5`. -/
theorem ctor_gives_handle_and_default_deleter_witness :
    is_pointer (def_constr_deleter_type int_type) = false ∧
    is_reference (def_constr_deleter_type int_type) = false ∧
    (∃ r, unique_ptr.ctor def_constr_deleter int_type (def_constr_deleter_type int_type)
        w_outside = some r ∧ unique_ptr.get r.2 r.1 = some 0 ∧
      unique_ptr.get_deleter r.2 r.1 = some 5 ∧ r.2.log = [] ∧ r.2.heap = [(7, 1)]) ∧
    (∃ r, unique_ptr.ctor_pointer def_constr_deleter int_type
        (def_constr_deleter_type int_type) w_outside 7 = some r ∧
      unique_ptr.get r.2 r.1 = some 7 ∧
      unique_ptr.get_deleter r.2 r.1 = some 5 ∧ r.2.log = [] ∧ r.2.heap = [(7, 1)]) :=
  ⟨by decide, by decide,
    (ctor_gives_handle_and_default_deleter def_constr_deleter int_type
      (def_constr_deleter_type int_type) w_outside 7 (by decide) (by decide)).1,
    (ctor_gives_handle_and_default_deleter def_constr_deleter int_type
      (def_constr_deleter_type int_type) w_outside 7 (by decide) (by decide)).2.2.1⟩

/-- C14: let `d` be a deleter object in state `s`. For a deleter type `D` that is not a
reference, `unique_ptr<T, D>(p, d)` with `d` an lvalue returns a container with
`get() == p` whose deleter is the copy `ops.copy_ctor s` of `d`, and with `d` an rvalue one
whose deleter is move constructed from `d`; in both cases `get_deleter()` stays what it is
whatever state is later written to the object `d`. For `D` an lvalue reference type,
`unique_ptr<T, D>(p, d)` returns a container with `get() == p` whose `get_deleter()`
designates the object `d` itself: it reads the state of `d`, and after any later write to
`d` it reads the written state. No deleter is called. This holds for both forms. -/
theorem ctor_pointer_deleter_copies_or_binds {S : Type} (ops : deleter_ops S)
    (T D : cpp_type) (w : World S) (p : pointer) (k : Nat) (s : S)
    (hk : w.dels[k]? = some s) :
    (is_reference D = false →
      (∃ r, unique_ptr.ctor_pointer_deleter1 ops T D w p k = some r ∧
        unique_ptr.get r.2 r.1 = some p ∧
        unique_ptr.get_deleter r.2 r.1 = some (ops.copy_ctor s) ∧ r.2.log = w.log ∧
        ∀ e, unique_ptr.get_deleter (r.2.write (.of_object k) e) r.1 =
          some (ops.copy_ctor s)) ∧
      (∃ r, unique_ptr.ctor_pointer_deleter2 ops T D w p k = some r ∧
        unique_ptr.get r.2 r.1 = some p ∧
        unique_ptr.get_deleter r.2 r.1 = some (ops.move_ctor s).1 ∧ r.2.log = w.log ∧
        ∀ e, unique_ptr.get_deleter (r.2.write (.of_object k) e) r.1 =
          some (ops.move_ctor s).1) ∧
      (∃ r, unique_ptr_array.ctor_pointer_deleter1 ops T D w p k = some r ∧
        unique_ptr_array.get r.2 r.1 = some p ∧
        unique_ptr_array.get_deleter r.2 r.1 = some (ops.copy_ctor s) ∧ r.2.log = w.log ∧
        ∀ e, unique_ptr_array.get_deleter (r.2.write (.of_object k) e) r.1 =
          some (ops.copy_ctor s)) ∧
      (∃ r, unique_ptr_array.ctor_pointer_deleter2 ops T D w p k = some r ∧
        unique_ptr_array.get r.2 r.1 = some p ∧
        unique_ptr_array.get_deleter r.2 r.1 = some (ops.move_ctor s).1 ∧
        r.2.log = w.log ∧
        ∀ e, unique_ptr_array.get_deleter (r.2.write (.of_object k) e) r.1 =
          some (ops.move_ctor s).1)) ∧
    (is_lvalue_reference D = true →
      (∃ r u, unique_ptr.ctor_pointer_deleter1 ops T D w p k = some r ∧
        unique_ptr.get r.2 r.1 = some p ∧ r.2.find r.1 = some u ∧
        u.m_data.deleter r.1 = .of_object k ∧
        unique_ptr.get_deleter r.2 r.1 = some s ∧ r.2.log = w.log ∧
        ∀ e, unique_ptr.get_deleter (r.2.write (.of_object k) e) r.1 = some e) ∧
      (∃ r u, unique_ptr_array.ctor_pointer_deleter1 ops T D w p k = some r ∧
        unique_ptr_array.get r.2 r.1 = some p ∧ r.2.find r.1 = some u ∧
        u.m_data.deleter r.1 = .of_object k ∧
        unique_ptr_array.get_deleter r.2 r.1 = some s ∧ r.2.log = w.log ∧
        ∀ e, unique_ptr_array.get_deleter (r.2.write (.of_object k) e) r.1 = some e)) := by
  simp only [array_get_eq, array_get_deleter_eq]
  constructor
  · intro hr
    have e1 : unique_ptr.ctor_pointer_deleter1 ops T D w p k =
        some (w.alloc { m_data := { m_p := p, d := .member (ops.copy_ctor s) },
                        is_default_deleter_t := movelib.is_default_deleter_t T D }) := by
      cases D <;> simp_all [unique_ptr.ctor_pointer_deleter1, is_reference]
    have e2 : unique_ptr.ctor_pointer_deleter2 ops T D w p k =
        some (({ w with dels := w.dels.set k (ops.move_ctor s).2 } : World S).alloc
          { m_data := { m_p := p, d := .member (ops.move_ctor s).1 },
            is_default_deleter_t := movelib.is_default_deleter_t T D }) := by
      cases D <;> simp_all [unique_ptr.ctor_pointer_deleter2, is_reference]
    have e3 : unique_ptr_array.ctor_pointer_deleter1 ops T D w p k =
        some (w.alloc { m_data := { m_p := p, d := .member (ops.copy_ctor s) },
                        is_default_deleter_t := array_is_default_deleter_t T D }) := by
      cases D <;> simp_all [unique_ptr_array.ctor_pointer_deleter1, is_reference]
    have e4 : unique_ptr_array.ctor_pointer_deleter2 ops T D w p k =
        some (({ w with dels := w.dels.set k (ops.move_ctor s).2 } : World S).alloc
          { m_data := { m_p := p, d := .member (ops.move_ctor s).1 },
            is_default_deleter_t := array_is_default_deleter_t T D }) := by
      cases D <;> simp_all [unique_ptr_array.ctor_pointer_deleter2, is_reference]
    refine ⟨?_, ?_, ?_, ?_⟩
    · obtain ⟨r, h1, h2, h3, _, h5, h6⟩ := alloc_member_independent w p _ _ _ e1
      exact ⟨r, h1, h2, h3, h5, h6 k⟩
    · obtain ⟨r, h1, h2, h3, _, h5, h6⟩ := alloc_member_independent _ p _ _ _ e2
      exact ⟨r, h1, h2, h3, h5, h6 k⟩
    · obtain ⟨r, h1, h2, h3, _, h5, h6⟩ := alloc_member_independent w p _ _ _ e3
      exact ⟨r, h1, h2, h3, h5, h6 k⟩
    · obtain ⟨r, h1, h2, h3, _, h5, h6⟩ := alloc_member_independent _ p _ _ _ e4
      exact ⟨r, h1, h2, h3, h5, h6 k⟩
  · intro hl
    have e1 : unique_ptr.ctor_pointer_deleter1 ops T D w p k =
        some (w.alloc { m_data := { m_p := p, d := .reference k },
                        is_default_deleter_t := movelib.is_default_deleter_t T D }) := by
      cases D <;> simp_all [unique_ptr.ctor_pointer_deleter1, is_lvalue_reference]
    have e3 : unique_ptr_array.ctor_pointer_deleter1 ops T D w p k =
        some (w.alloc { m_data := { m_p := p, d := .reference k },
                        is_default_deleter_t := array_is_default_deleter_t T D }) := by
      cases D <;> simp_all [unique_ptr_array.ctor_pointer_deleter1, is_lvalue_reference]
    exact ⟨alloc_reference_spec w p k _ s hk _ e1, alloc_reference_spec w p k _ s hk _ e3⟩

/-- C14 on the tests `unique_ptr_ctor_pointer_deleter02` and
`unique_ptr_ctor_pointer_deleter03`: with `copy_constr_deleter<A>` the deleter of the
container stays in state `5` after `d.set_state(6)`; with `def_constr_deleter<A>&` it is
then in state `6`. -/
theorem ctor_pointer_deleter_copies_or_binds_witness :
    w_outside.dels[0]? = some 5 ∧
    is_reference (copy_constr_deleter_type A_type) = false ∧
    (∃ r, unique_ptr.ctor_pointer_deleter1 copy_constr_deleter A_type
        (copy_constr_deleter_type A_type) w_outside 7 0 = some r ∧
      unique_ptr.get r.2 r.1 = some 7 ∧
      unique_ptr.get_deleter r.2 r.1 = some 5 ∧ r.2.log = [] ∧
      ∀ e, unique_ptr.get_deleter (r.2.write (.of_object 0) e) r.1 = some 5) ∧
    is_lvalue_reference (.lvalue_reference (def_constr_deleter_type A_type)) = true ∧
    (∃ r u, unique_ptr.ctor_pointer_deleter1 def_constr_deleter A_type
        (.lvalue_reference (def_constr_deleter_type A_type)) w_outside 7 0 = some r ∧
      unique_ptr.get r.2 r.1 = some 7 ∧ r.2.find r.1 = some u ∧
      u.m_data.deleter r.1 = .of_object 0 ∧
      unique_ptr.get_deleter r.2 r.1 = some 5 ∧ r.2.log = [] ∧
      ∀ e, unique_ptr.get_deleter (r.2.write (.of_object 0) e) r.1 = some e) :=
  ⟨rfl, by decide,
    ((ctor_pointer_deleter_copies_or_binds copy_constr_deleter A_type
      (copy_constr_deleter_type A_type) w_outside 7 0 5 rfl).1 (by decide)).1,
    by decide,
    ((ctor_pointer_deleter_copies_or_binds def_constr_deleter A_type
      (.lvalue_reference (def_constr_deleter_type A_type)) w_outside 7 0 5 rfl).2
        (by decide)).1⟩

/-- C15: for a live container `x` of either form, the conversion to `bool` returns a
value, and that value is `true` if and only if `x.get()` is not the null handle. -/
theorem operator_bool_iff_get_nonnull {S : Type} (w : World S) (x : Nat) (u : unique_ptr S)
    (h : w.find x = some u) :
    (∃ b p, unique_ptr.operator_bool w x = some b ∧ unique_ptr.get w x = some p ∧
      (b = true ↔ p ≠ 0)) ∧
    (∃ b p, unique_ptr_array.operator_bool w x = some b ∧
      unique_ptr_array.get w x = some p ∧ (b = true ↔ p ≠ 0)) := by
  rw [array_operator_bool_eq, array_get_eq]
  have key : ∃ b p, unique_ptr.operator_bool w x = some b ∧ unique_ptr.get w x = some p ∧
      (b = true ↔ p ≠ 0) := by
    refine ⟨_, _, by simp only [unique_ptr.operator_bool, h, Option.map_some']; rfl,
      by simp only [unique_ptr.get, h, Option.map_some']; rfl, ?_⟩
    by_cases hp : u.m_data.m_p = 0 <;> simp [hp]
  exact ⟨key, key⟩

/-- C15 on the container of `w_single`, which owns the object at `7`, and on the null
container of `w_null_ref`. -/
theorem operator_bool_iff_get_nonnull_witness :
    w_single.find 0 = some u_owner ∧
    (∃ b p, unique_ptr.operator_bool w_single 0 = some b ∧
      unique_ptr.get w_single 0 = some p ∧ (b = true ↔ p ≠ 0)) ∧
    unique_ptr.operator_bool w_single 0 = some true ∧
    unique_ptr.operator_bool w_null_ref 0 = some false :=
  ⟨rfl, (operator_bool_iff_get_nonnull w_single 0 u_owner rfl).1, rfl, rfl⟩

/-- C16: let `x` and `y` be live containers with `x.get() == a` and `y.get() == b`, and
let the six operators of the handle type agree with each other as those of a total order
do. Then each of `x == y`, `x != y`, `x < y`, `x <= y`, `x > y` and `x >= y` returns what
the same operator of the handle type returns on `a` and `b`; and the result is the same
after any write to any deleter object, so the deleters have no influence. -/
theorem comparison_is_comparison_of_handles {D : Type} (po : pointer_ops) (w : World D)
    (x y : Nat) (a b : pointer) (hc : po.consistent)
    (hx : unique_ptr.get w x = some a) (hy : unique_ptr.get w y = some b) :
    (operator_eq po w x y = some (po.eq a b) ∧ operator_ne po w x y = some (po.ne a b) ∧
      operator_lt po w x y = some (po.lt a b) ∧ operator_le po w x y = some (po.le a b) ∧
      operator_gt po w x y = some (po.gt a b) ∧ operator_ge po w x y = some (po.ge a b)) ∧
    ∀ l e, operator_eq po (w.write l e) x y = operator_eq po w x y ∧
      operator_ne po (w.write l e) x y = operator_ne po w x y ∧
      operator_lt po (w.write l e) x y = operator_lt po w x y ∧
      operator_le po (w.write l e) x y = operator_le po w x y ∧
      operator_gt po (w.write l e) x y = operator_gt po w x y ∧
      operator_ge po (w.write l e) x y = operator_ge po w x y := by
  obtain ⟨_, hgt, hle, hge⟩ := hc a b
  constructor
  · simp [operator_eq, operator_ne, operator_lt, operator_le, operator_gt, operator_ge,
      hx, hy, hgt, hle, hge]
  · intro l e
    simp [operator_eq, operator_ne, operator_lt, operator_le, operator_gt, operator_ge]

/-- C16 on the two containers of `w_pair`, which own the objects at `7` and at `9`, with
the built-in operators of raw pointers. -/
theorem comparison_is_comparison_of_handles_witness :
    raw_pointer_ops.consistent ∧ unique_ptr.get w_pair 0 = some 7 ∧
    unique_ptr.get w_pair 1 = some 9 ∧
    operator_eq raw_pointer_ops w_pair 0 1 = some false ∧
    operator_ne raw_pointer_ops w_pair 0 1 = some true ∧
    operator_lt raw_pointer_ops w_pair 0 1 = some true ∧
    operator_le raw_pointer_ops w_pair 0 1 = some true ∧
    operator_gt raw_pointer_ops w_pair 0 1 = some false ∧
    operator_ge raw_pointer_ops w_pair 0 1 = some false :=
  ⟨raw_pointer_ops_consistent, rfl, rfl,
    (comparison_is_comparison_of_handles raw_pointer_ops w_pair 0 1 7 9
      raw_pointer_ops_consistent rfl rfl).1⟩

/-- C17 on the container of `w_single`, which owns the object at `7`, with a handle type
whose operator `>` is not the converse of its operator `<`: `x > nullptr` is computed as
`x.get() > pointer()` and returns `false`, while `nullptr < x`, which the documentation of
the operator names as its result, returns `true`; `nullptr > x` is computed as
`pointer() > x.get()` and returns `true`, while `x < nullptr` returns `false`. The operator
`>` on two containers returns `y < x`: with the same handle type it is `true` on the owner
of `9` and the owner of `7`, where the operator `>` of the handles answers `false`. The ten
other operators of the claim return on this container what the claim says. -/
theorem nullptr_greater_is_handle_greater :
    unique_ptr.get w_single 0 = some 7 ∧
    operator_gt_nullptr odd_pointer_ops w_single 0 = some false ∧
    nullptr_operator_lt odd_pointer_ops w_single 0 = some true ∧
    nullptr_operator_gt odd_pointer_ops w_single 0 = some true ∧
    operator_lt_nullptr odd_pointer_ops w_single 0 = some false ∧
    operator_gt odd_pointer_ops w_pair 1 0 = some true ∧
    operator_lt odd_pointer_ops w_pair 0 1 = some true ∧
    odd_pointer_ops.gt 9 7 = false ∧
    (unique_ptr.operator_bool w_single 0 = some true ∧
      operator_eq_nullptr w_single 0 = some false ∧
      nullptr_operator_eq w_single 0 = some false ∧
      operator_ne_nullptr w_single 0 = some true ∧
      nullptr_operator_ne w_single 0 = some true) ∧
    operator_lt_nullptr odd_pointer_ops w_single 0 = some (odd_pointer_ops.lt 7 0) ∧
    nullptr_operator_lt odd_pointer_ops w_single 0 = some (odd_pointer_ops.lt 0 7) ∧
    operator_le_nullptr odd_pointer_ops w_single 0 = some false ∧
    nullptr_operator_ge odd_pointer_ops w_single 0 = some false ∧
    nullptr_operator_le odd_pointer_ops w_single 0 = some true ∧
    operator_ge_nullptr odd_pointer_ops w_single 0 = some true := by
  refine ⟨rfl, ?_, ?_, ?_, ?_, ?_, ?_, ?_, ⟨?_, ?_, ?_, ?_, ?_⟩, ?_, ?_, ?_, ?_, ?_, ?_⟩ <;>
  decide

/-- C18 fails for a deleter class that declares `typedef int& pointer;`: no pointer to
the nested type can be formed, `has_pointer_type` is false, and the member type `pointer`
of `unique_ptr<int, D>` and of `unique_ptr<int[], D>` is `int*`, not the nested type. -/
theorem pointer_is_not_nested_reference_type :
    ref_pointer_compiler.nested_pointer (remove_reference ref_pointer_deleter_type) =
      some (.lvalue_reference int_type) ∧
    unique_ptr_pointer ref_pointer_compiler int_type ref_pointer_deleter_type =
      some (.pointer int_type cv_qualifiers.none) ∧
    unique_ptr_pointer ref_pointer_compiler (.array_unknown_bound int_type)
        ref_pointer_deleter_type =
      some (.pointer int_type cv_qualifiers.none) ∧
    unique_ptr_pointer ref_pointer_compiler int_type ref_pointer_deleter_type ≠
      ref_pointer_compiler.nested_pointer (remove_reference ref_pointer_deleter_type) ∧
    unique_ptr_pointer ref_pointer_compiler (.array_unknown_bound int_type)
        ref_pointer_deleter_type ≠
      ref_pointer_compiler.nested_pointer (remove_reference ref_pointer_deleter_type) := by
  refine ⟨?_, ?_, ?_, ?_, ?_⟩ <;> decide

/-- C18, amended: let `T` be the element type of the primary template `unique_ptr<T, D>`
(so `T` is not of the form `X[]`) or of the specialisation `unique_ptr<T[], D>`. When
`remove_reference<D>::type` declares a nested type `pointer` that is not a reference
type, the member type `pointer` of both is that nested type. When it declares none, or
declares one that is a reference type, `pointer` is in both a plain pointer to
`remove_extent<T>::type`, which is `T` itself unless `T` is an array; so
`unique_ptr<int>::pointer` and `unique_ptr<int[]>::pointer` are both `int*`. -/
theorem pointer_is_nested_type_or_plain_pointer (cc : compiler) (T D : cpp_type) :
    (∀ P, cc.nested_pointer (remove_reference D) = some P → is_reference P = false →
      unique_ptr_pointer cc T D = some P ∧
      unique_ptr_pointer cc (.array_unknown_bound T) D = some P) ∧
    ((cc.nested_pointer (remove_reference D) = none ∨
        ∃ P, cc.nested_pointer (remove_reference D) = some P ∧ is_reference P = true) →
      ((∀ X, T ≠ .array_unknown_bound X) →
        unique_ptr_pointer cc T D =
          some (.pointer (remove_extent T) cv_qualifiers.none)) ∧
      unique_ptr_pointer cc (.array_unknown_bound T) D =
        some (.pointer (remove_extent T) cv_qualifiers.none) ∧
      (is_array T = false →
        unique_ptr_pointer cc T D = some (.pointer T cv_qualifiers.none) ∧
        unique_ptr_pointer cc (.array_unknown_bound T) D =
          some (.pointer T cv_qualifiers.none))) ∧
    (cc.nested_pointer (default_delete_type int_type) = none →
      cc.nested_pointer (default_delete_type (.array_unknown_bound int_type)) = none →
      unique_ptr_pointer cc int_type (default_delete_type int_type) =
        some (.pointer int_type cv_qualifiers.none) ∧
      unique_ptr_pointer cc (.array_unknown_bound int_type)
          (default_delete_type (.array_unknown_bound int_type)) =
        some (.pointer int_type cv_qualifiers.none)) := by
  refine ⟨fun P h hP => ⟨?_, pointer_type_nested cc T D P h hP⟩, fun h => ⟨fun hT => ?_,
    pointer_type_fallback cc T D h, fun ha => ⟨?_, ?_⟩⟩, fun h1 h2 => ⟨?_, ?_⟩⟩
  · cases T <;> exact pointer_type_nested cc _ D P h hP
  · rw [unique_ptr_pointer_primary cc T D hT]
    exact pointer_type_fallback cc T D h
  · have hT : ∀ X, T ≠ .array_unknown_bound X := by
      intro X hX
      rw [hX] at ha
      simp [is_array] at ha
    rw [unique_ptr_pointer_primary cc T D hT, pointer_type_fallback cc T D h]
    cases T <;> simp_all [is_array, remove_extent]
  · have e : unique_ptr_pointer cc (.array_unknown_bound T) D = pointer_type cc T D := rfl
    rw [e, pointer_type_fallback cc T D h]
    cases T <;> simp_all [is_array, remove_extent]
  · exact pointer_type_plain cc int_type _ h1
  · exact pointer_type_plain cc int_type _ h2

/-- C18, amended, on the test `pointer_type`, where the class `Deleter` declares a nested
`pointer` and `default_delete` does not, and on the class `ref_pointer_deleter`, whose
nested `pointer` is a reference type. -/
theorem pointer_is_nested_type_or_plain_pointer_witness :
    test_compiler.nested_pointer (remove_reference Deleter_type) =
      some Deleter_pointer_type ∧
    is_reference Deleter_pointer_type = false ∧
    unique_ptr_pointer test_compiler int_type Deleter_type = some Deleter_pointer_type ∧
    unique_ptr_pointer test_compiler (.array_unknown_bound int_type) Deleter_type =
      some Deleter_pointer_type ∧
    test_compiler.nested_pointer (default_delete_type int_type) = none ∧
    test_compiler.nested_pointer
      (default_delete_type (.array_unknown_bound int_type)) = none ∧
    unique_ptr_pointer test_compiler int_type (default_delete_type int_type) =
      some (.pointer int_type cv_qualifiers.none) ∧
    unique_ptr_pointer test_compiler (.array_unknown_bound int_type)
        (default_delete_type (.array_unknown_bound int_type)) =
      some (.pointer int_type cv_qualifiers.none) ∧
    unique_ptr_pointer ref_pointer_compiler (.array_unknown_bound int_type)
        ref_pointer_deleter_type =
      some (.pointer (remove_extent int_type) cv_qualifiers.none) :=
  ⟨by decide, by decide,
    ((pointer_is_nested_type_or_plain_pointer test_compiler int_type Deleter_type).1
      Deleter_pointer_type (by decide) (by decide)).1,
    ((pointer_is_nested_type_or_plain_pointer test_compiler int_type Deleter_type).1
      Deleter_pointer_type (by decide) (by decide)).2,
    by decide, by decide,
    ((pointer_is_nested_type_or_plain_pointer test_compiler int_type Deleter_type).2.2
      (by decide) (by decide)).1,
    ((pointer_is_nested_type_or_plain_pointer test_compiler int_type Deleter_type).2.2
      (by decide) (by decide)).2,
    ((pointer_is_nested_type_or_plain_pointer ref_pointer_compiler int_type
      ref_pointer_deleter_type).2.1
      (Or.inr ⟨.lvalue_reference int_type, by decide, by decide⟩)).2.1⟩

/-- C19: for the primary template `unique_ptr<T, D>` (`T` is not of the form `X[]`), the
converting move constructor from `unique_ptr<U, E>` takes part in overload resolution,
that is `enable_unique_moveconvert_constructible<T, D, U, E>::type` exists, if and only if
`U` is not an array type, `unique_ptr<U, E>::pointer` converts implicitly to
`unique_ptr<T, D>::pointer`, and `unique_deleter_is_initializable<D, E>` holds. -/
theorem converting_ctor_enabled_iff (cc : compiler) (T D U E ty : cpp_type)
    (hT : ∀ X, T ≠ .array_unknown_bound X) :
    (enable_unique_moveconvert_constructible cc T D U E ty).isSome = true ↔
      is_array U = false ∧
      (∃ P Q, unique_ptr_pointer cc U E = some P ∧ unique_ptr_pointer cc T D = some Q ∧
        is_convertible cc P Q = true) ∧
      unique_deleter_is_initializable cc D E = true := by
  rw [enable_unique_moveconvert_constructible, enable_if_c_isSome,
    unique_moveconvert_constructible]
  simp only [Bool.and_eq_true]
  rw [unique_moveconvert_assignable_iff cc T D U E hT, and_assoc]

/-- C19 on the construction of a `unique_ptr<A>` from a `unique_ptr<B>`, which is
enabled, and of a `unique_ptr<B>` from a `unique_ptr<A>`, which is not. -/
theorem converting_ctor_enabled_iff_witness :
    (∀ X, A_type ≠ .array_unknown_bound X) ∧
    ((enable_unique_moveconvert_constructible test_compiler A_type
        (default_delete_type A_type) B_type (default_delete_type B_type) nat).isSome = true ↔
      is_array B_type = false ∧
      (∃ P Q, unique_ptr_pointer test_compiler B_type (default_delete_type B_type) = some P ∧
        unique_ptr_pointer test_compiler A_type (default_delete_type A_type) = some Q ∧
        is_convertible test_compiler P Q = true) ∧
      unique_deleter_is_initializable test_compiler (default_delete_type A_type)
        (default_delete_type B_type) = true) ∧
    (enable_unique_moveconvert_constructible test_compiler A_type
      (default_delete_type A_type) B_type (default_delete_type B_type) nat).isSome = true ∧
    (enable_unique_moveconvert_constructible test_compiler B_type
      (default_delete_type B_type) A_type (default_delete_type A_type) nat).isSome = false :=
  ⟨by intro X h; simp [A_type] at h,
    converting_ctor_enabled_iff test_compiler A_type (default_delete_type A_type) B_type
      (default_delete_type B_type) nat (by intro X h; simp [A_type] at h),
    by decide, by decide⟩

/-- C20 fails on the test `unique_ptr_asgn_move_convert03`: the assignment of a
`unique_ptr<B, copy_constr_deleter<B>&>` to a `unique_ptr<A, copy_constr_deleter<A>&>` is
enabled, although `unique_deleter_is_initializable` does not hold for these two deleter
types and the converting constructor is not enabled. -/
theorem converting_assignment_ignores_deleter_rule :
    (enable_unique_moveconvert_assignable test_compiler A_type
      (.lvalue_reference (copy_constr_deleter_type A_type)) B_type
      (.lvalue_reference (copy_constr_deleter_type B_type)) unique_ptr_A_ref_type).isSome
        = true ∧
    unique_deleter_is_initializable test_compiler
      (.lvalue_reference (copy_constr_deleter_type A_type))
      (.lvalue_reference (copy_constr_deleter_type B_type)) = false ∧
    (enable_unique_moveconvert_constructible test_compiler A_type
      (.lvalue_reference (copy_constr_deleter_type A_type)) B_type
      (.lvalue_reference (copy_constr_deleter_type B_type)) nat).isSome = false ∧
    ¬ ((enable_unique_moveconvert_assignable test_compiler A_type
        (.lvalue_reference (copy_constr_deleter_type A_type)) B_type
        (.lvalue_reference (copy_constr_deleter_type B_type)) unique_ptr_A_ref_type).isSome
          = true ↔
      is_array B_type = false ∧
      (∃ P Q, unique_ptr_pointer test_compiler B_type
          (.lvalue_reference (copy_constr_deleter_type B_type)) = some P ∧
        unique_ptr_pointer test_compiler A_type
          (.lvalue_reference (copy_constr_deleter_type A_type)) = some Q ∧
        is_convertible test_compiler P Q = true) ∧
      unique_deleter_is_initializable test_compiler
        (.lvalue_reference (copy_constr_deleter_type A_type))
        (.lvalue_reference (copy_constr_deleter_type B_type)) = true) :=
  ⟨by decide, by decide, by decide, fun h => absurd (h.1 (by decide)).2.2 (by decide)⟩

/-- C20, amended: for the primary template `unique_ptr<T, D>` (`T` is not of the form
`X[]`), the converting move assignment from `unique_ptr<U, E>` takes part in overload
resolution, that is `enable_unique_moveconvert_assignable<T, D, U, E, unique_ptr&>::type`
exists, if and only if `U` is not an array type and `unique_ptr<U, E>::pointer` converts
implicitly to `unique_ptr<T, D>::pointer`; the deleter types `D` and `E` have a part in
this only through the two `pointer` types. The gate of the converting constructor is this
one together with `unique_deleter_is_initializable<D, E>`. -/
theorem converting_assignment_enabled_iff (cc : compiler) (T D U E ty : cpp_type)
    (hT : ∀ X, T ≠ .array_unknown_bound X) :
    ((enable_unique_moveconvert_assignable cc T D U E ty).isSome = true ↔
      is_array U = false ∧
      ∃ P Q, unique_ptr_pointer cc U E = some P ∧ unique_ptr_pointer cc T D = some Q ∧
        is_convertible cc P Q = true) ∧
    ((enable_unique_moveconvert_constructible cc T D U E ty).isSome = true ↔
      (enable_unique_moveconvert_assignable cc T D U E ty).isSome = true ∧
      unique_deleter_is_initializable cc D E = true) := by
  constructor
  · rw [enable_unique_moveconvert_assignable, enable_if_c_isSome]
    exact unique_moveconvert_assignable_iff cc T D U E hT
  · rw [enable_unique_moveconvert_constructible, enable_unique_moveconvert_assignable,
      enable_if_c_isSome, enable_if_c_isSome, unique_moveconvert_constructible]
    simp only [Bool.and_eq_true]

/-- C20, amended, on the test `unique_ptr_asgn_move_convert03`: the assignment of a
`unique_ptr<B, copy_constr_deleter<B>&>` to a `unique_ptr<A, copy_constr_deleter<A>&>` is
enabled. -/
theorem converting_assignment_enabled_iff_witness :
    (∀ X, A_type ≠ .array_unknown_bound X) ∧
    ((enable_unique_moveconvert_assignable test_compiler A_type
        (.lvalue_reference (copy_constr_deleter_type A_type)) B_type
        (.lvalue_reference (copy_constr_deleter_type B_type)) unique_ptr_A_ref_type).isSome
          = true ↔
      is_array B_type = false ∧
      ∃ P Q, unique_ptr_pointer test_compiler B_type
          (.lvalue_reference (copy_constr_deleter_type B_type)) = some P ∧
        unique_ptr_pointer test_compiler A_type
          (.lvalue_reference (copy_constr_deleter_type A_type)) = some Q ∧
        is_convertible test_compiler P Q = true) ∧
    is_array B_type = false ∧
    unique_ptr_pointer test_compiler B_type
      (.lvalue_reference (copy_constr_deleter_type B_type)) =
        some (.pointer B_type cv_qualifiers.none) ∧
    unique_ptr_pointer test_compiler A_type
      (.lvalue_reference (copy_constr_deleter_type A_type)) =
        some (.pointer A_type cv_qualifiers.none) ∧
    is_convertible test_compiler (.pointer B_type cv_qualifiers.none)
      (.pointer A_type cv_qualifiers.none) = true :=
  ⟨by intro X h; simp [A_type] at h,
    (converting_assignment_enabled_iff test_compiler A_type
      (.lvalue_reference (copy_constr_deleter_type A_type)) B_type
      (.lvalue_reference (copy_constr_deleter_type B_type)) unique_ptr_A_ref_type
      (by intro X h; simp [A_type] at h)).1,
    by decide, by decide, by decide, by decide⟩

/-- C21 fails on a compiler without rvalue references: there
`unique_deleter_is_initializable<D, E>` holds for `D = def_constr_deleter<A>`, which is not
a reference type, and `E = Deleter`, although no rvalue of type `E` converts to `D`. -/
theorem deleter_initializable_without_conversion :
    unique_deleter_is_initializable test_compiler_cxx03 (def_constr_deleter_type A_type)
      Deleter_type = true ∧
    is_reference (def_constr_deleter_type A_type) = false ∧
    is_rvalue_convertible test_compiler_cxx03 Deleter_type
      (def_constr_deleter_type A_type) = false ∧
    ¬ (unique_deleter_is_initializable test_compiler_cxx03
        (def_constr_deleter_type A_type) Deleter_type = true ↔
      (is_reference (def_constr_deleter_type A_type) = true ∧
        Deleter_type = def_constr_deleter_type A_type) ∨
      (is_reference (def_constr_deleter_type A_type) = false ∧
        is_rvalue_convertible test_compiler_cxx03 Deleter_type
          (def_constr_deleter_type A_type) = true)) := by
  refine ⟨by decide, by decide, by decide, fun h => ?_⟩
  have h1 := h.1 (by decide)
  revert h1
  decide

/-- C21, amended: `unique_deleter_is_initializable<D, E>` is true if and only if either `D`
is a reference type and `E` is the same type as `D`, or `D` is not a reference type and
one of these holds: the compiler has no rvalue references (the predicate is then true for
every `E`), or an rvalue of type `E` converts to `D`, which is the answer of
`__is_convertible_to(E, D)` on clang with that intrinsic and of
`is_rvalue_convertible<E, D>` on the other compilers. -/
theorem deleter_initializable_iff (cc : compiler) (D E : cpp_type) :
    unique_deleter_is_initializable cc D E = true ↔
      (is_reference D = true ∧ E = D) ∨
      (is_reference D = false ∧
        (cc.no_cxx11_rvalue_references = true ∨
          (cc.no_cxx11_rvalue_references = false ∧ cc.clang_is_convertible_to = true ∧
            cc.intrinsic_is_convertible_to E D = true) ∨
          (cc.no_cxx11_rvalue_references = false ∧ cc.clang_is_convertible_to = false ∧
            is_rvalue_convertible cc E D = true))) := by
  unfold unique_deleter_is_initializable
  cases hr : is_reference D
  · cases h1 : cc.no_cxx11_rvalue_references <;> cases h2 : cc.clang_is_convertible_to <;>
      simp
  · have e : is_same D E = decide (E = D) := by
      simp only [is_same]
      by_cases h : D = E
      · simp [h]
      · have h2 : ¬ E = D := fun h3 => h h3.symm
        simp [h, h2]
    rw [e]
    simp

/-- C22 fails for a source that is an array of arrays: the gate reads the pointer of the
source as `pointer_type<U, E>::type`, which for `U = int[][3]` is `int (*)[3]`, while the
member type `pointer` of `unique_ptr<int[][3]>` is `int*`. So `U` is an array type and
the `pointer` types of `unique_ptr<int[][3]>` and `unique_ptr<int[]>` are both `int*`,
of one element type and convertible, and yet the converting move assignment is not
enabled. -/
theorem array_gate_reads_pointer_type_of_argument :
    is_array (.array_unknown_bound (.array int_type 3)) = true ∧
    unique_ptr_pointer test_compiler (.array_unknown_bound (.array int_type 3))
        (default_delete_type (.array_unknown_bound (.array int_type 3))) =
      some (.pointer int_type cv_qualifiers.none) ∧
    unique_ptr_pointer test_compiler (.array_unknown_bound int_type)
        (default_delete_type (.array_unknown_bound int_type)) =
      some (.pointer int_type cv_qualifiers.none) ∧
    get_cvelement test_compiler (.pointer int_type cv_qualifiers.none) =
      get_cvelement test_compiler (.pointer int_type cv_qualifiers.none) ∧
    is_convertible test_compiler (.pointer int_type cv_qualifiers.none)
      (.pointer int_type cv_qualifiers.none) = true ∧
    pointer_type test_compiler (.array_unknown_bound (.array int_type 3))
        (default_delete_type (.array_unknown_bound (.array int_type 3))) =
      some (.pointer (.array int_type 3) cv_qualifiers.none) ∧
    enable_uniquearray_moveconvert_assignable test_compiler int_type
      (default_delete_type (.array_unknown_bound int_type))
      (.array_unknown_bound (.array int_type 3))
      (default_delete_type (.array_unknown_bound (.array int_type 3))) nat = none := by
  refine ⟨?_, ?_, ?_, ?_, ?_, ?_, ?_⟩ <;> decide

/-- C22, amended: the converting move assignment of a `unique_ptr<U, E>` to a
`unique_ptr<T[], D>` takes part in overload resolution, that is
`enable_uniquearray_moveconvert_assignable<T, D, U, E, unique_ptr&>::type` exists, if and
only if `U` is an array type, the type `pointer_type<U, E>::type` and the `pointer` of the
destination have the same element type once the qualifiers are removed, and the former
converts implicitly to the latter. The converting move constructor takes part if and only
if this holds and `unique_deleter_is_initializable<D, E>` holds as well. The type
`pointer_type<U, E>::type` is the member type `pointer` of the source `unique_ptr<U, E>`
whenever `U` is not an array of arrays. -/
theorem array_converting_assignment_enabled_iff (cc : compiler) (T D U E ty : cpp_type) :
    ((enable_uniquearray_moveconvert_assignable cc T D U E ty).isSome = true ↔
      is_array U = true ∧
      ∃ P Q, pointer_type cc U E = some P ∧
        unique_ptr_pointer cc (.array_unknown_bound T) D = some Q ∧
        get_cvelement cc P = get_cvelement cc Q ∧ is_convertible cc P Q = true) ∧
    ((enable_uniquearray_moveconvert_constructible cc T D U E ty).isSome = true ↔
      (is_array U = true ∧
        ∃ P Q, pointer_type cc U E = some P ∧
          unique_ptr_pointer cc (.array_unknown_bound T) D = some Q ∧
          get_cvelement cc P = get_cvelement cc Q ∧ is_convertible cc P Q = true) ∧
      unique_deleter_is_initializable cc D E = true) ∧
    ((∀ V, U = .array_unknown_bound V → is_array V = false) →
      pointer_type cc U E = unique_ptr_pointer cc U E ∧
      ((enable_uniquearray_moveconvert_assignable cc T D U E ty).isSome = true ↔
        is_array U = true ∧
        ∃ P Q, unique_ptr_pointer cc U E = some P ∧
          unique_ptr_pointer cc (.array_unknown_bound T) D = some Q ∧
          get_cvelement cc P = get_cvelement cc Q ∧ is_convertible cc P Q = true) ∧
      ((enable_uniquearray_moveconvert_constructible cc T D U E ty).isSome = true ↔
        (is_array U = true ∧
          ∃ P Q, unique_ptr_pointer cc U E = some P ∧
            unique_ptr_pointer cc (.array_unknown_bound T) D = some Q ∧
            get_cvelement cc P = get_cvelement cc Q ∧ is_convertible cc P Q = true) ∧
        unique_deleter_is_initializable cc D E = true)) := by
  refine ⟨?_, ?_, fun hU => ⟨(unique_ptr_pointer_of_flat cc U E hU).symm, ?_, ?_⟩⟩
  · rw [enable_uniquearray_moveconvert_assignable, enable_if_c_isSome]
    exact uniquearray_moveconvert_assignable_iff_gate cc T D U E
  · rw [enable_uniquearray_moveconvert_constructible, enable_if_c_isSome,
      uniquearray_moveconvert_constructible]
    simp only [Bool.and_eq_true]
    rw [uniquearray_moveconvert_assignable_iff_gate cc T D U E]
  · rw [enable_uniquearray_moveconvert_assignable, enable_if_c_isSome]
    exact uniquearray_moveconvert_assignable_iff cc T D U E hU
  · rw [enable_uniquearray_moveconvert_constructible, enable_if_c_isSome,
      uniquearray_moveconvert_constructible]
    simp only [Bool.and_eq_true]
    rw [uniquearray_moveconvert_assignable_iff cc T D U E hU]

/-- C22, amended, on the test `unique_ptr_ctor_move_convert01`: a `unique_ptr<A[]>` is
assignable to a `unique_ptr<const volatile A[]>` and the latter constructible from it, not
the other way round. -/
theorem array_converting_assignment_enabled_iff_witness :
    (∀ V, cpp_type.array_unknown_bound A_type = .array_unknown_bound V →
      is_array V = false) ∧
    ((enable_uniquearray_moveconvert_assignable test_compiler
        const_volatile_A_type
        (default_delete_type (.array_unknown_bound const_volatile_A_type))
        (.array_unknown_bound A_type) (default_delete_type (.array_unknown_bound A_type))
        nat).isSome = true ↔
      is_array (.array_unknown_bound A_type) = true ∧
      ∃ P Q, unique_ptr_pointer test_compiler (.array_unknown_bound A_type)
          (default_delete_type (.array_unknown_bound A_type)) = some P ∧
        unique_ptr_pointer test_compiler
          (.array_unknown_bound const_volatile_A_type)
          (default_delete_type (.array_unknown_bound const_volatile_A_type)) = some Q ∧
        get_cvelement test_compiler P = get_cvelement test_compiler Q ∧
        is_convertible test_compiler P Q = true) ∧
    (enable_uniquearray_moveconvert_assignable test_compiler
      const_volatile_A_type
      (default_delete_type (.array_unknown_bound const_volatile_A_type))
      (.array_unknown_bound A_type) (default_delete_type (.array_unknown_bound A_type))
      nat).isSome = true ∧
    (enable_uniquearray_moveconvert_constructible test_compiler
      const_volatile_A_type
      (default_delete_type (.array_unknown_bound const_volatile_A_type))
      (.array_unknown_bound A_type) (default_delete_type (.array_unknown_bound A_type))
      nat).isSome = true ∧
    (enable_uniquearray_moveconvert_assignable test_compiler A_type
      (default_delete_type (.array_unknown_bound A_type))
      (.array_unknown_bound const_volatile_A_type)
      (default_delete_type (.array_unknown_bound const_volatile_A_type))
      nat).isSome = false :=
  ⟨by intro V h; cases h; decide,
    ((array_converting_assignment_enabled_iff test_compiler
      const_volatile_A_type
      (default_delete_type (.array_unknown_bound const_volatile_A_type))
      (.array_unknown_bound A_type) (default_delete_type (.array_unknown_bound A_type))
      nat).2.2 (by intro V h; cases h; decide)).2.1,
    by decide, by decide, by decide⟩

/-- C24 fails for the primary template instantiated with an array of known bound: a
`unique_ptr<A[3]>`, which is not of the array form, is assignable to the array form
`unique_ptr<A[]>`, as `A[3]` is an array type and both handles are `A*`; and a
`unique_ptr<A>` is assignable to a `unique_ptr<A[3]>`. -/
theorem known_bound_converts_to_array_form :
    (∀ X, cpp_type.array A_type 3 ≠ .array_unknown_bound X) ∧
    is_array (.array A_type 3) = true ∧
    (enable_uniquearray_moveconvert_assignable test_compiler A_type
      (default_delete_type (.array_unknown_bound A_type)) (.array A_type 3)
      (default_delete_type (.array A_type 3)) nat).isSome = true ∧
    (enable_unique_moveconvert_assignable test_compiler (.array A_type 3)
      (default_delete_type (.array A_type 3)) A_type (default_delete_type A_type)
      nat).isSome = true := by
  refine ⟨?_, ?_, ?_, ?_⟩
  · intro X h
    cases h
  · decide
  · decide
  · decide

/-- C24, amended: whatever the compiler answers and whatever the types `T`, `D` and `E`
are, a `unique_ptr<T[], D>` is neither constructible nor assignable from a
`unique_ptr<U, E>` whose `U` is not an array type, and a `unique_ptr<T, D>` of the primary
template is neither constructible nor assignable from a `unique_ptr<U, E>` whose `U` is an
array type, so in particular from no `unique_ptr<X[], E>`. A `unique_ptr<X[N], E>`, which
is of the primary template, is assignable to a `unique_ptr<T[], D>` exactly when its
handle type passes the gate of the array form. -/
theorem no_conversion_between_forms (cc : compiler) (T D U E ty : cpp_type) :
    (is_array U = false →
      enable_uniquearray_moveconvert_constructible cc T D U E ty = none ∧
      enable_uniquearray_moveconvert_assignable cc T D U E ty = none) ∧
    (is_array U = true →
      enable_unique_moveconvert_constructible cc T D U E ty = none ∧
      enable_unique_moveconvert_assignable cc T D U E ty = none) ∧
    (∀ X, enable_unique_moveconvert_constructible cc T D (.array_unknown_bound X) E ty
        = none ∧
      enable_unique_moveconvert_assignable cc T D (.array_unknown_bound X) E ty = none) ∧
    (∀ X n, (enable_uniquearray_moveconvert_assignable cc T D (.array X n) E ty).isSome
        = true ↔
      ∃ P Q, unique_ptr_pointer cc (.array X n) E = some P ∧
        unique_ptr_pointer cc (.array_unknown_bound T) D = some Q ∧
        get_cvelement cc P = get_cvelement cc Q ∧ is_convertible cc P Q = true) := by
  have ha : is_array U = false → uniquearray_moveconvert_assignable cc T D U E = false := by
    intro h
    unfold uniquearray_moveconvert_assignable
    cases pointer_type cc U E <;> cases pointer_type cc T D <;> simp [h]
  have hb : ∀ V, is_array V = true → unique_moveconvert_assignable cc T D V E = false := by
    intro V h
    simp [unique_moveconvert_assignable, h]
  have hc : ∀ V, is_array V = true →
      enable_unique_moveconvert_constructible cc T D V E ty = none ∧
      enable_unique_moveconvert_assignable cc T D V E ty = none := by
    intro V h
    simp only [enable_unique_moveconvert_constructible, unique_moveconvert_constructible,
      enable_unique_moveconvert_assignable, hb V h, Bool.false_and, enable_if_c_false,
      and_self]
  refine ⟨fun h => ?_, hc U, fun X => hc _ rfl, fun X n => ?_⟩
  · simp only [enable_uniquearray_moveconvert_constructible,
      uniquearray_moveconvert_constructible, enable_uniquearray_moveconvert_assignable, ha h,
      Bool.false_and, enable_if_c_false, and_self]
  · rw [enable_uniquearray_moveconvert_assignable, enable_if_c_isSome,
      uniquearray_moveconvert_assignable_iff_gate cc T D (.array X n) E]
    have e : unique_ptr_pointer cc (.array X n) E = pointer_type cc (.array X n) E := rfl
    rw [e]
    simp [is_array]

/-- C24, amended, on the classes of the tests: no conversion from `unique_ptr<A>` to
`unique_ptr<A[]>`, and none from `unique_ptr<A[]>` to `unique_ptr<A>`. -/
theorem no_conversion_between_forms_witness :
    is_array A_type = false ∧
    enable_uniquearray_moveconvert_constructible test_compiler A_type
      (default_delete_type (.array_unknown_bound A_type)) A_type
      (default_delete_type A_type) nat = none ∧
    enable_uniquearray_moveconvert_assignable test_compiler A_type
      (default_delete_type (.array_unknown_bound A_type)) A_type
      (default_delete_type A_type) nat = none ∧
    is_array (.array_unknown_bound A_type) = true ∧
    enable_unique_moveconvert_constructible test_compiler A_type
      (default_delete_type A_type) (.array_unknown_bound A_type)
      (default_delete_type (.array_unknown_bound A_type)) nat = none ∧
    enable_unique_moveconvert_assignable test_compiler A_type
      (default_delete_type A_type) (.array_unknown_bound A_type)
      (default_delete_type (.array_unknown_bound A_type)) nat = none :=
  ⟨by decide,
    ((no_conversion_between_forms test_compiler A_type
      (default_delete_type (.array_unknown_bound A_type)) A_type
      (default_delete_type A_type) nat).1 (by decide)).1,
    ((no_conversion_between_forms test_compiler A_type
      (default_delete_type (.array_unknown_bound A_type)) A_type
      (default_delete_type A_type) nat).1 (by decide)).2,
    by decide,
    ((no_conversion_between_forms test_compiler A_type
      (default_delete_type A_type) (.array_unknown_bound A_type)
      (default_delete_type (.array_unknown_bound A_type)) nat).2.1 (by decide)).1,
    ((no_conversion_between_forms test_compiler A_type
      (default_delete_type A_type) (.array_unknown_bound A_type)
      (default_delete_type (.array_unknown_bound A_type)) nat).2.1 (by decide)).2⟩

/-- C26 fails for the primary template instantiated with an array of known bound: a
`default_delete<A[3]>`, which is the single-object form and uses plain `delete`, is
constructible and assignable from the array form `default_delete<A[]>`, whose `U = A[]`
is an array type; and the array form `default_delete<A[]>` is constructible and assignable
from `default_delete<A[3]>`. -/
theorem default_delete_known_bound_converts :
    (∀ X, cpp_type.array A_type 3 ≠ .array_unknown_bound X) ∧
    is_array (.array_unknown_bound A_type) = true ∧
    (default_delete_convert_ctor test_compiler (.array A_type 3)
      (.array_unknown_bound A_type)).isSome = true ∧
    (default_delete_convert_assign test_compiler (.array A_type 3)
      (.array_unknown_bound A_type)).isSome = true ∧
    (default_delete_array_convert_ctor test_compiler A_type (.array A_type 3)).isSome
      = true ∧
    (default_delete_array_convert_assign test_compiler A_type (.array A_type 3)).isSome
      = true := by
  refine ⟨?_, ?_, ?_, ?_, ?_, ?_⟩
  · intro X h
    cases h
  · decide
  · decide
  · decide
  · decide
  · decide

/-- C26, amended: for a type `T` that is not an array, the converting constructor and the
converting assignment of `default_delete<T>` from `default_delete<U>` take part in
overload resolution if and only if `U` is not an array type and `U*` converts implicitly
to `T*`. Those of `default_delete<T[]>` take part if and only if `U` is an array type,
its element type and `T` are the same type once the qualifiers are removed, and
`element_pointer<U>::type` converts implicitly to `T*`. Hence a `default_delete<T>` with
`T` not an array is never constructible or assignable from a `default_delete<X[]>`, and a
`default_delete<T[]>` never from a `default_delete<U>` with `U` not an array. For an
array type `T` of known bound, the converting constructor and assignment of the primary
template `default_delete<T>` follow the rule of the array form: they take part if and
only if `U` is an array type, the element types of `U` and `T` are the same once the
qualifiers are removed, and `element_pointer<U>::type` converts implicitly to
`element_pointer<T>::type`. -/
theorem default_delete_conversion_iff (cc : compiler) (T U X : cpp_type) :
    (is_array T = false →
      ((default_delete_convert_ctor cc T U).isSome = true ↔
        is_array U = false ∧
        is_convertible cc (.pointer U cv_qualifiers.none) (.pointer T cv_qualifiers.none)
          = true) ∧
      ((default_delete_convert_assign cc T U).isSome = true ↔
        is_array U = false ∧
        is_convertible cc (.pointer U cv_qualifiers.none) (.pointer T cv_qualifiers.none)
          = true) ∧
      default_delete_convert_ctor cc T (.array_unknown_bound X) = none ∧
      default_delete_convert_assign cc T (.array_unknown_bound X) = none) ∧
    ((default_delete_array_convert_ctor cc T U).isSome = true ↔
      is_array U = true ∧ remove_cv (remove_extent U) = remove_cv T ∧
      is_convertible cc (element_pointer U) (.pointer T cv_qualifiers.none) = true) ∧
    ((default_delete_array_convert_assign cc T U).isSome = true ↔
      is_array U = true ∧ remove_cv (remove_extent U) = remove_cv T ∧
      is_convertible cc (element_pointer U) (.pointer T cv_qualifiers.none) = true) ∧
    (is_array U = false →
      default_delete_array_convert_ctor cc T U = none ∧
      default_delete_array_convert_assign cc T U = none) ∧
    (is_array T = true →
      ((default_delete_convert_ctor cc T U).isSome = true ↔
        is_array U = true ∧ remove_cv (remove_extent U) = remove_cv (remove_extent T) ∧
        is_convertible cc (element_pointer U) (element_pointer T) = true) ∧
      ((default_delete_convert_assign cc T U).isSome = true ↔
        is_array U = true ∧ remove_cv (remove_extent U) = remove_cv (remove_extent T) ∧
        is_convertible cc (element_pointer U) (element_pointer T) = true)) := by
  have none_of : ∀ o : Option cpp_type, ¬ (o.isSome = true) → o = none := by
    intro o h
    cases o with
    | none => rfl
    | some v => exact absurd rfl h
  refine ⟨fun hT => ⟨?_, enable_default_delete_single cc U T _ hT, ?_, ?_⟩, ?_,
    enable_default_delete_array cc U T _, fun hU => ⟨?_, ?_⟩,
    fun hT => ⟨?_, enable_default_delete_of_array cc U T _ hT⟩⟩
  · rw [default_delete_convert_ctor, Option.isSome_map']
    exact enable_default_delete_single cc U T _ hT
  · apply none_of
    rw [default_delete_convert_ctor, Option.isSome_map',
      enable_default_delete_single cc _ T _ hT]
    simp [is_array]
  · apply none_of
    rw [default_delete_convert_assign, enable_default_delete_single cc _ T _ hT]
    simp [is_array]
  · rw [default_delete_array_convert_ctor, Option.isSome_map']
    exact enable_default_delete_array cc U T _
  · apply none_of
    rw [default_delete_array_convert_ctor, Option.isSome_map',
      enable_default_delete_array cc U T _]
    simp [hU]
  · apply none_of
    rw [default_delete_array_convert_assign, enable_default_delete_array cc U T _]
    simp [hU]
  · rw [default_delete_convert_ctor, Option.isSome_map']
    exact enable_default_delete_of_array cc U T _ hT

/-- C26, amended, on the test `unique_ptr_dltr_dflt_convert_ctor`: a `default_delete<A>`
is constructible from a `default_delete<B>` and a `default_delete<const A[]>` from a
`default_delete<A[]>`; a `default_delete<A>` is not constructible from a
`default_delete<A[]>`, nor a `default_delete<A[]>` from a `default_delete<A>`. -/
theorem default_delete_conversion_iff_witness :
    is_array A_type = false ∧
    ((default_delete_convert_ctor test_compiler A_type B_type).isSome = true ↔
      is_array B_type = false ∧
      is_convertible test_compiler (.pointer B_type cv_qualifiers.none)
        (.pointer A_type cv_qualifiers.none) = true) ∧
    (default_delete_convert_ctor test_compiler A_type B_type).isSome = true ∧
    (default_delete_array_convert_ctor test_compiler const_A_type
      (.array_unknown_bound A_type)).isSome = true ∧
    default_delete_convert_ctor test_compiler A_type (.array_unknown_bound A_type) = none ∧
    default_delete_array_convert_ctor test_compiler A_type A_type = none :=
  ⟨by decide,
    ((default_delete_conversion_iff test_compiler A_type B_type A_type).1 (by decide)).1,
    by decide, by decide,
    ((default_delete_conversion_iff test_compiler A_type B_type A_type).1
      (by decide)).2.2.1,
    ((default_delete_conversion_iff test_compiler A_type A_type A_type).2.2.2.1
      (by decide)).1⟩

/-- C27 fails on a compiler without deleted functions: there a `default_delete<const A[]>`
can be called on an `A*`, whose element type differs from `const A` in its qualifiers
only, and the call runs `delete []`. -/
theorem default_delete_array_accepts_less_qualified :
    A_type ≠ const_A_type ∧ remove_cv A_type = remove_cv const_A_type ∧
    default_delete_array_call test_compiler_cxx03 const_A_type A_type = .executes ∧
    ¬ (∀ T U, U ≠ T → default_delete_array_call test_compiler_cxx03 T U ≠ .executes) := by
  refine ⟨by decide, by decide, by decide, fun h => ?_⟩
  exact h const_A_type A_type (by decide) (by decide)

/-- C27, amended: on a compiler with deleted functions, the call of a `default_delete<T[]>`
on a pointer of type `U*` runs only for `U = T`; for every other `U`, unrelated to `T` or
different from `T` in its qualifiers only, the deleted function template is chosen and the
program is ill-formed. On a compiler without deleted functions the call runs if and only
if `U` and `T` are the same type once the qualifiers are removed and `U*` converts
implicitly to `T*`, and otherwise no function is viable: a pointer to an unrelated type is
rejected, and, on a compiler that follows the rule of the language on qualification
conversions, a `U*` with `U` and `T` the same type up to qualifiers is accepted exactly
when `T` has every qualifier of `U`. -/
theorem default_delete_array_call_iff (cc : compiler) (T U : cpp_type) :
    (cc.no_cxx11_deleted_functions = false →
      (default_delete_array_call cc T U = .executes ↔ U = T) ∧
      (U ≠ T → default_delete_array_call cc T U = .deleted)) ∧
    (cc.no_cxx11_deleted_functions = true →
      (default_delete_array_call cc T U = .executes ↔
        remove_cv U = remove_cv T ∧
        is_convertible cc (.pointer U cv_qualifiers.none) (.pointer T cv_qualifiers.none)
          = true) ∧
      (default_delete_array_call cc T U ≠ .executes →
        default_delete_array_call cc T U = .no_match) ∧
      (remove_cv U ≠ remove_cv T → default_delete_array_call cc T U = .no_match) ∧
      (remove_cv U = remove_cv T → cc.qualification_conversions →
        (default_delete_array_call cc T U = .executes ↔ U.cv.le T.cv = true))) := by
  constructor
  · intro h
    by_cases hUT : U = T
    · simp [default_delete_array_call, h, hUT]
    · simp [default_delete_array_call, h, hUT]
  · intro h
    have hg := enable_default_delete_array cc (.array_unknown_bound U) T nat
    simp only [is_array, remove_extent, element_pointer, true_and] at hg
    have key : default_delete_array_call cc T U = .executes ↔
        remove_cv U = remove_cv T ∧
        is_convertible cc (.pointer U cv_qualifiers.none) (.pointer T cv_qualifiers.none)
          = true := by
      rw [← hg]
      simp only [default_delete_array_call, h]
      cases enable_default_delete cc (.array_unknown_bound U) (.array_unknown_bound T)
        nat <;> simp
    have hno : default_delete_array_call cc T U ≠ .executes →
        default_delete_array_call cc T U = .no_match := by
      simp only [default_delete_array_call, h]
      cases enable_default_delete cc (.array_unknown_bound U) (.array_unknown_bound T)
        nat <;> simp
    refine ⟨key, hno, fun hne => hno (fun hc => hne (key.1 hc).1), fun heq hq => ?_⟩
    rw [key, ← hq U T heq]
    simp [heq]

/-- C27, amended, on the classes of the tests: with deleted functions a
`default_delete<const A[]>` runs on a `const A*` only, not on an `A*` nor on a `B*`;
without them it runs on an `A*` too, and neither a `default_delete<A[]>` on a `const A*`
nor a `default_delete<A[]>` on a `B*`. -/
theorem default_delete_array_call_iff_witness :
    test_compiler.no_cxx11_deleted_functions = false ∧
    default_delete_array_call test_compiler const_A_type const_A_type = .executes ∧
    default_delete_array_call test_compiler const_A_type A_type = .deleted ∧
    default_delete_array_call test_compiler A_type B_type = .deleted ∧
    test_compiler_cxx03.no_cxx11_deleted_functions = true ∧
    default_delete_array_call test_compiler_cxx03 const_A_type A_type = .executes ∧
    default_delete_array_call test_compiler_cxx03 A_type const_A_type = .no_match ∧
    default_delete_array_call test_compiler_cxx03 A_type B_type = .no_match :=
  ⟨rfl, by decide,
    ((default_delete_array_call_iff test_compiler const_A_type A_type).1 rfl).2
      (by decide),
    ((default_delete_array_call_iff test_compiler A_type B_type).1 rfl).2 (by decide),
    rfl, by decide, by decide,
    ((default_delete_array_call_iff test_compiler_cxx03 A_type B_type).2 rfl).2.2.1
      (by decide)⟩

/-- C28: for a type `T` that is not an array, an argument list `args` and an allocation
function that returns an address that is not null and not in use, `make_unique<T>(args...)`
returns a new container of the class `unique_ptr<T>`, whose deleter is `default_delete<T>`;
the handle it owns is that address, where the free store holds one new allocation of one
object, whose value is what the constructor of `T` makes of `args`; no deleter is called
and the other containers are as before. The result is that of the constructor
`unique_ptr<T>(p)` on the result `p` of `new T(args...)`. -/
theorem make_unique_owns_new_object {Args V : Type} (T : cpp_type)
    (operator_new : Heap → pointer) (T_ctor : Args → V) (args : Args) (w : World Unit)
    (m : Objects V) (hT : is_array T = false)
    (hnew : operator_new w.heap ≠ 0 ∧ operator_new w.heap ∉ w.heap.map Prod.fst) :
    ∃ r u p, make_unique T operator_new T_ctor args w m = some r ∧
      (unique_ptr_if T).t_is_not_array = some (unique_ptr_type T) ∧
      r.2.1.find r.1 = some u ∧ u.is_default_deleter_t = true ∧
      u.m_data.d = .member default_delete.ctor ∧
      unique_ptr.get r.2.1 r.1 = some p ∧ p ≠ 0 ∧ p ∉ w.heap.map Prod.fst ∧
      r.2.1.heap = w.heap ++ [(p, 1)] ∧ live_count r.2.1.heap = live_count w.heap + 1 ∧
      objects_at r.2.2 p = some [T_ctor args] ∧ r.2.1.log = w.log ∧
      (∀ j, j < w.objs.length → r.2.1.find j = w.find j) ∧
      unique_ptr.ctor_pointer default_delete T (default_delete_type T)
          { w with heap := (new_object operator_new (T_ctor args) w.heap m).2.1 }
          (new_object operator_new (T_ctor args) w.heap m).1 = some (r.1, r.2.1) := by
  refine ⟨_, { m_data := { m_p := operator_new w.heap, d := .member () },
               is_default_deleter_t := true }, operator_new w.heap,
    make_unique_eq T operator_new T_ctor args w m hT, ?_, ?_, rfl, rfl, ?_, hnew.1, hnew.2,
    rfl, live_count_append _ _ _, objects_at_cons _ _ _, rfl, ?_, ?_⟩
  · rw [unique_ptr_if_not_array T hT]
  · simp [World.find]
  · simp [unique_ptr.get, World.find]
  · intro j hj
    simp [World.find, List.getElem?_append_left hj]
  · simp [new_object, unique_ptr.ctor_pointer, default_delete_type, is_pointer,
      is_reference, World.alloc, movelib.is_default_deleter_t, is_same, default_delete]

/-- C28 on the test `make_unique_single`: `make_unique<A>(0, 1)` owns a new `A` with the
members `0`, `1` and `1001`. -/
theorem make_unique_owns_new_object_witness :
    is_array A_type = false ∧
    (fresh_address w_default_null.heap ≠ 0 ∧
      fresh_address w_default_null.heap ∉ w_default_null.heap.map Prod.fst) ∧
    (∃ r u p, make_unique A_type fresh_address A_ctor [0, 1] w_default_null [] = some r ∧
      (unique_ptr_if A_type).t_is_not_array = some (unique_ptr_type A_type) ∧
      r.2.1.find r.1 = some u ∧ u.is_default_deleter_t = true ∧
      u.m_data.d = .member default_delete.ctor ∧
      unique_ptr.get r.2.1 r.1 = some p ∧ p ≠ 0 ∧ p ∉ w_default_null.heap.map Prod.fst ∧
      r.2.1.heap = w_default_null.heap ++ [(p, 1)] ∧
      live_count r.2.1.heap = live_count w_default_null.heap + 1 ∧
      objects_at r.2.2 p = some [A_ctor [0, 1]] ∧ r.2.1.log = w_default_null.log ∧
      (∀ j, j < w_default_null.objs.length → r.2.1.find j = w_default_null.find j) ∧
      unique_ptr.ctor_pointer default_delete A_type (default_delete_type A_type)
          { w_default_null with
            heap := (new_object fresh_address (A_ctor [0, 1]) w_default_null.heap
              ([] : Objects (Int × Int × Int))).2.1 }
          (new_object fresh_address (A_ctor [0, 1]) w_default_null.heap
            ([] : Objects (Int × Int × Int))).1 = some (r.1, r.2.1)) ∧
    A_ctor [0, 1] = (0, 1, 1001) :=
  ⟨by decide, fresh_address_spec _,
    make_unique_owns_new_object A_type fresh_address A_ctor [0, 1] w_default_null []
      (by decide) (fresh_address_spec _),
    rfl⟩

/-- C29 fails for an array of arrays: for `int[][3]` the expression `new U[n]()` has the
type `int (*)[3]`, while the member type `pointer` of `unique_ptr<int[][3]>` is `int*`;
the constructor template of the array form does not accept that argument, so
`make_unique<int[][3]>(2)`, whose return type exists, yields no container. -/
theorem make_unique_array_of_arrays_rejected :
    (unique_ptr_if (.array_unknown_bound (.array int_type 3))).t_is_array_of_unknown_bound =
      some (unique_ptr_type (.array_unknown_bound (.array int_type 3))) ∧
    unique_ptr_pointer test_compiler (.array_unknown_bound (.array int_type 3))
        (default_delete_type (.array_unknown_bound (.array int_type 3))) =
      some (.pointer int_type cv_qualifiers.none) ∧
    enable_same_cvelement_and_convertible test_compiler
      (.pointer (.array int_type 3) cv_qualifiers.none)
      (.pointer int_type cv_qualifiers.none) nat = none ∧
    make_unique_array test_compiler (.array_unknown_bound (.array int_type 3)) fresh_address
      (0 : Int) 2 w_default_null [] = none := by
  refine ⟨rfl, ?_, ?_, ?_⟩
  · decide
  · decide
  · have e : enable_same_cvelement_and_convertible test_compiler
        (.pointer (.array int_type 3) cv_qualifiers.none)
        (.pointer int_type cv_qualifiers.none) nat = none := by decide
    have hp : pointer_type test_compiler (.array int_type 3)
        (default_delete_type (.array_unknown_bound (.array int_type 3))) =
        some (.pointer int_type cv_qualifiers.none) := by decide
    simp only [make_unique_array, unique_ptr_if, remove_extent,
      unique_ptr_array.ctor_pointer_template, hp, e]

/-- C29, amended: let `X` be an element type that is not itself an array, so that the member type
`pointer` of `unique_ptr<X[]>` is `X*`, on a compiler for which `default_delete<X[]>`
declares no nested `pointer` and an `X*` converts to an `X*`, and let the allocation
function return an address that is not null and not in use. Then `make_unique<X[]>(n)`
returns a new container of the array form with the deleter `default_delete<X[]>`; the
handle it owns is that address, where the free store holds one new allocation of exactly
`n` elements, and for every `j < n` the element `[j]` of the container is a
value-initialised `X`; no deleter is called. -/
theorem make_unique_array_owns_n_elements {V : Type} (cc : compiler) (X : cpp_type)
    (operator_new : Heap → pointer) (U_value : V) (n : Nat) (w : World Unit)
    (m : Objects V) (hX : is_array X = false)
    (hD : cc.nested_pointer
      (remove_reference (default_delete_type (.array_unknown_bound X))) = none)
    (hid : is_convertible cc (.pointer X cv_qualifiers.none)
      (.pointer X cv_qualifiers.none) = true)
    (hnew : operator_new w.heap ≠ 0 ∧ operator_new w.heap ∉ w.heap.map Prod.fst) :
    ∃ r u p elems,
      make_unique_array cc (.array_unknown_bound X) operator_new U_value n w m = some r ∧
      (unique_ptr_if (.array_unknown_bound X)).t_is_array_of_unknown_bound =
        some (unique_ptr_type (.array_unknown_bound X)) ∧
      r.2.1.find r.1 = some u ∧ u.is_default_deleter_t = true ∧
      u.m_data.d = .member default_delete.ctor ∧
      unique_ptr_array.get r.2.1 r.1 = some p ∧ p ≠ 0 ∧ p ∉ w.heap.map Prod.fst ∧
      r.2.1.heap = w.heap ++ [(p, n)] ∧ live_count r.2.1.heap = live_count w.heap + n ∧
      objects_at r.2.2 p = some elems ∧ elems.length = n ∧
      (∀ j, j < n → elems[j]? = some U_value ∧
        unique_ptr_array.operator_index r.2.1 r.2.2 r.1 j = some U_value) ∧
      r.2.1.log = w.log ∧ (∀ j, j < w.objs.length → r.2.1.find j = w.find j) := by
  have hget : unique_ptr_array.get
      ({ objs := w.objs ++ [some { m_data := { m_p := operator_new w.heap, d := .member () },
                                   is_default_deleter_t := true }],
         dels := w.dels, heap := w.heap ++ [(operator_new w.heap, n)],
         log := w.log } : World Unit) w.objs.length = some (operator_new w.heap) := by
    simp [unique_ptr_array.get, World.find]
  refine ⟨_, { m_data := { m_p := operator_new w.heap, d := .member () },
               is_default_deleter_t := true }, operator_new w.heap,
    List.replicate n U_value,
    make_unique_array_eq cc X operator_new U_value n w m hX hD hid, rfl, ?_, rfl, rfl,
    hget, hnew.1, hnew.2, rfl, live_count_append _ _ _, objects_at_cons _ _ _,
    List.length_replicate _ _, fun j hj => ⟨getElem?_replicate_of_lt n j U_value hj, ?_⟩, rfl,
    ?_⟩
  · simp [World.find]
  · simp only [unique_ptr_array.operator_index, hget, objects_at_cons]
    simp [hnew.1, getElem?_replicate_of_lt n j U_value hj]
  · intro j hj
    simp [World.find, List.getElem?_append_left hj]

/-- C29, amended, on the test `make_unique_array`: `make_unique<A[]>(10)` owns ten objects, each
with the members `999`, `1000` and `1001`. -/
theorem make_unique_array_owns_n_elements_witness :
    is_array A_type = false ∧
    test_compiler.nested_pointer
      (remove_reference (default_delete_type (.array_unknown_bound A_type))) = none ∧
    is_convertible test_compiler (.pointer A_type cv_qualifiers.none)
      (.pointer A_type cv_qualifiers.none) = true ∧
    (fresh_address w_default_null.heap ≠ 0 ∧
      fresh_address w_default_null.heap ∉ w_default_null.heap.map Prod.fst) ∧
    (∃ r u p elems,
      make_unique_array test_compiler (.array_unknown_bound A_type) fresh_address
        (A_ctor []) 10 w_default_null [] = some r ∧
      (unique_ptr_if (.array_unknown_bound A_type)).t_is_array_of_unknown_bound =
        some (unique_ptr_type (.array_unknown_bound A_type)) ∧
      r.2.1.find r.1 = some u ∧ u.is_default_deleter_t = true ∧
      u.m_data.d = .member default_delete.ctor ∧
      unique_ptr_array.get r.2.1 r.1 = some p ∧ p ≠ 0 ∧
      p ∉ w_default_null.heap.map Prod.fst ∧
      r.2.1.heap = w_default_null.heap ++ [(p, 10)] ∧
      live_count r.2.1.heap = live_count w_default_null.heap + 10 ∧
      objects_at r.2.2 p = some elems ∧ elems.length = 10 ∧
      (∀ j, j < 10 → elems[j]? = some (A_ctor []) ∧
        unique_ptr_array.operator_index r.2.1 r.2.2 r.1 j = some (A_ctor [])) ∧
      r.2.1.log = w_default_null.log ∧
      (∀ j, j < w_default_null.objs.length → r.2.1.find j = w_default_null.find j)) ∧
    A_ctor [] = (999, 1000, 1001) :=
  ⟨by decide, by decide, by decide, fresh_address_spec _,
    make_unique_array_owns_n_elements test_compiler A_type fresh_address (A_ctor []) 10
      w_default_null [] (by decide) (by decide) (by decide) (fresh_address_spec _),
    rfl⟩

/-- C30 fails on a compiler without deleted functions: for `int[3]` the deleted form of
`make_unique` is not declared, and none of the three forms is selectable. -/
theorem make_unique_known_bound_no_form :
    make_unique_selectable test_compiler_cxx03 (.array int_type 3) .object_factory = false ∧
    make_unique_selectable test_compiler_cxx03 (.array int_type 3) .array_factory = false ∧
    make_unique_selectable test_compiler_cxx03 (.array int_type 3) .deleted_form = false ∧
    ¬ (∀ T, (make_unique_selectable test_compiler_cxx03 T .deleted_form = true ↔
        ∃ X N, T = .array X N) ∧
      ∃ f, make_unique_selectable test_compiler_cxx03 T f = true) := by
  refine ⟨by decide, by decide, by decide, fun h => ?_⟩
  have h1 := ((h (.array int_type 3)).1).2 ⟨_, _, rfl⟩
  revert h1
  decide

/-- C30, amended: for every type `T`, the object factory is selectable if and only if `T`
is not an array, the array factory if and only if `T` is an array of unknown bound, and the
deleted form if and only if the compiler has deleted functions and `T` is an array of known
bound; no two forms are selectable together, and with deleted functions exactly one is.
For an array of known bound neither factory is selectable on any compiler, and neither
returns a container. -/
theorem make_unique_form_selection {Args V : Type} (cc : compiler) (T : cpp_type)
    (operator_new : Heap → pointer) (T_ctor : Args → V) (args : Args) (U_value : V)
    (n : Nat) (w : World Unit) (m : Objects V) :
    (make_unique_selectable cc T .object_factory = true ↔ is_array T = false) ∧
    (make_unique_selectable cc T .array_factory = true ↔
      ∃ X, T = .array_unknown_bound X) ∧
    (make_unique_selectable cc T .deleted_form = true ↔
      cc.no_cxx11_deleted_functions = false ∧ ∃ X N, T = .array X N) ∧
    (∀ f g, make_unique_selectable cc T f = true → make_unique_selectable cc T g = true →
      f = g) ∧
    (cc.no_cxx11_deleted_functions = false →
      ∃ f, make_unique_selectable cc T f = true) ∧
    ((∃ X N, T = .array X N) →
      make_unique_selectable cc T .object_factory = false ∧
      make_unique_selectable cc T .array_factory = false ∧
      make_unique T operator_new T_ctor args w m = none ∧
      make_unique_array cc T operator_new U_value n w m = none) := by
  refine ⟨?_, ?_, ?_, ?_, ?_, ?_⟩
  · cases T <;> simp [make_unique_selectable, unique_ptr_if, is_array]
  · cases T <;> simp [make_unique_selectable, unique_ptr_if]
  · cases T <;> simp [make_unique_selectable, unique_ptr_if]
  · intro f g hf hg
    cases T <;> cases f <;> cases g <;>
      simp_all [make_unique_selectable, unique_ptr_if]
  · intro h
    cases T
    case array_unknown_bound => exact ⟨.array_factory, rfl⟩
    case array => exact ⟨.deleted_form, by simp [make_unique_selectable, unique_ptr_if, h]⟩
    all_goals exact ⟨.object_factory, rfl⟩
  · rintro ⟨X, N, rfl⟩
    exact ⟨rfl, rfl, rfl, rfl⟩

/-- C30, amended, on `int`, `int[]` and `int[3]` with a compiler that has deleted
functions: one form each. -/
theorem make_unique_form_selection_witness :
    test_compiler.no_cxx11_deleted_functions = false ∧
    make_unique_selectable test_compiler int_type .object_factory = true ∧
    make_unique_selectable test_compiler (.array_unknown_bound int_type) .array_factory
      = true ∧
    make_unique_selectable test_compiler (.array int_type 3) .deleted_form = true ∧
    (∃ f, make_unique_selectable test_compiler (.array int_type 3) f = true) ∧
    make_unique (.array int_type 3) fresh_address A_ctor [] w_default_null [] = none ∧
    make_unique_array test_compiler (.array int_type 3) fresh_address (A_ctor []) 2
      w_default_null [] = none :=
  ⟨rfl, by decide, by decide, by decide,
    (make_unique_form_selection test_compiler (.array int_type 3) fresh_address A_ctor []
      (A_ctor []) 2 w_default_null []).2.2.2.2.1 rfl,
    ((make_unique_form_selection test_compiler (.array int_type 3) fresh_address A_ctor []
      (A_ctor []) 2 w_default_null []).2.2.2.2.2 ⟨_, _, rfl⟩).2.2.1,
    ((make_unique_form_selection test_compiler (.array int_type 3) fresh_address A_ctor []
      (A_ctor []) 2 w_default_null []).2.2.2.2.2 ⟨_, _, rfl⟩).2.2.2⟩

/-- C31: the default constructor, the constructor from `nullptr` and the constructor from
a handle alone, of either form, are rejected at compile time whenever the deleter type `D`
is a pointer type or a reference type: the static assertions `!is_pointer<D>` and
`!is_reference<D>` reject a reference and an unqualified pointer `X*`, and a pointer type
with qualifiers of its own, for which the trait `is_pointer` does not hold, cannot be the
base class that `unique_ptr_data` makes of it. For any other `D` the static assertions
hold, and each of these constructors is compiled, and returns a container, exactly when
`unique_ptr_data<pointer, D>` can be instantiated. -/
theorem ctor_rejected_iff_pointer_or_reference {S : Type} (ops : deleter_ops S)
    (fn cls : cpp_type → Bool) (T D : cpp_type) (w : World S) (p : pointer) :
    ((D.is_pointer_type = true ∨ is_reference D = true) →
      unique_ptr.in_class fn cls D (unique_ptr.ctor ops T D w) = none ∧
      unique_ptr.in_class fn cls D (unique_ptr.ctor_nullptr ops T D w) = none ∧
      unique_ptr.in_class fn cls D (unique_ptr.ctor_pointer ops T D w p) = none ∧
      unique_ptr.in_class fn cls D (unique_ptr_array.ctor ops T D w) = none ∧
      unique_ptr.in_class fn cls D (unique_ptr_array.ctor_nullptr ops T D w) = none ∧
      unique_ptr.in_class fn cls D (unique_ptr_array.ctor_pointer ops T D w p) = none) ∧
    ((is_pointer D = true ∨ is_reference D = true) →
      unique_ptr.ctor ops T D w = none ∧ unique_ptr.ctor_nullptr ops T D w = none ∧
      unique_ptr.ctor_pointer ops T D w p = none ∧
      unique_ptr_array.ctor ops T D w = none ∧
      unique_ptr_array.ctor_nullptr ops T D w = none ∧
      unique_ptr_array.ctor_pointer ops T D w p = none) ∧
    ((D.is_pointer_type = false ∧ is_reference D = false) →
      (is_pointer D = false ∧ is_reference D = false) ∧
      (unique_ptr.in_class fn cls D (unique_ptr.ctor ops T D w)).isSome =
        unique_ptr_data_instantiable fn cls D ∧
      (unique_ptr.in_class fn cls D (unique_ptr.ctor_nullptr ops T D w)).isSome =
        unique_ptr_data_instantiable fn cls D ∧
      (unique_ptr.in_class fn cls D (unique_ptr.ctor_pointer ops T D w p)).isSome =
        unique_ptr_data_instantiable fn cls D ∧
      (unique_ptr.in_class fn cls D (unique_ptr_array.ctor ops T D w)).isSome =
        unique_ptr_data_instantiable fn cls D ∧
      (unique_ptr.in_class fn cls D (unique_ptr_array.ctor_nullptr ops T D w)).isSome =
        unique_ptr_data_instantiable fn cls D ∧
      (unique_ptr.in_class fn cls D (unique_ptr_array.ctor_pointer ops T D w p)).isSome =
        unique_ptr_data_instantiable fn cls D) := by
  have hstatic : (is_pointer D = true ∨ is_reference D = true) →
      unique_ptr.ctor ops T D w = none ∧ unique_ptr.ctor_nullptr ops T D w = none ∧
      unique_ptr.ctor_pointer ops T D w p = none ∧
      unique_ptr_array.ctor ops T D w = none ∧
      unique_ptr_array.ctor_nullptr ops T D w = none ∧
      unique_ptr_array.ctor_pointer ops T D w p = none := by
    intro h
    have hb : (is_pointer D || is_reference D) = true := by
      rcases h with h | h <;> simp [h]
    simp [unique_ptr.ctor, unique_ptr.ctor_nullptr, unique_ptr.ctor_pointer,
      unique_ptr_array.ctor, unique_ptr_array.ctor_nullptr, unique_ptr_array.ctor_pointer, hb]
  have hrej : (is_pointer D = true ∨ is_reference D = true) →
      unique_ptr.in_class fn cls D (unique_ptr.ctor ops T D w) = none ∧
      unique_ptr.in_class fn cls D (unique_ptr.ctor_nullptr ops T D w) = none ∧
      unique_ptr.in_class fn cls D (unique_ptr.ctor_pointer ops T D w p) = none ∧
      unique_ptr.in_class fn cls D (unique_ptr_array.ctor ops T D w) = none ∧
      unique_ptr.in_class fn cls D (unique_ptr_array.ctor_nullptr ops T D w) = none ∧
      unique_ptr.in_class fn cls D (unique_ptr_array.ctor_pointer ops T D w p) = none := by
    intro h
    obtain ⟨h1, h2, h3, h4, h5, h6⟩ := hstatic h
    rw [h1, h2, h3, h4, h5, h6]
    simp [in_class_none]
  refine ⟨?_, hstatic, ?_⟩
  · intro h
    rcases h with h | h
    · cases D with
      | pointer X cv =>
        by_cases hcv : cv = cv_qualifiers.none
        · exact hrej (Or.inl (by simp [is_pointer, hcv]))
        · have hn := qualified_pointer_not_instantiable fn cls X cv hcv
          simp [in_class_of_not_instantiable _ _ _ _ hn]
      | _ => simp [cpp_type.is_pointer_type] at h
    · exact hrej (Or.inr h)
  · rintro ⟨h1, h2⟩
    have hp : is_pointer D = false := by
      cases D <;> simp_all [cpp_type.is_pointer_type, is_pointer]
    refine ⟨⟨hp, h2⟩, ?_, ?_, ?_, ?_, ?_, ?_⟩ <;>
    · apply in_class_isSome
      simp [unique_ptr.ctor, unique_ptr.ctor_nullptr, unique_ptr.ctor_pointer,
        unique_ptr_array.ctor, unique_ptr_array.ctor_nullptr, unique_ptr_array.ctor_pointer,
        hp, h2]

/-- C31 on the deleter types `void (*)(A*)`, `A* const` and `def_constr_deleter<A>&`,
which are rejected, and `def_constr_deleter<A>`, which is not. -/
theorem ctor_rejected_iff_pointer_or_reference_witness :
    function_pointer_deleter_type.is_pointer_type = true ∧
    unique_ptr.in_class test_function_types test_classes function_pointer_deleter_type
      (unique_ptr.ctor def_constr_deleter A_type function_pointer_deleter_type w_outside)
      = none ∧
    (cpp_type.pointer A_type { is_const := true, is_volatile := false }).is_pointer_type
      = true ∧
    is_pointer (.pointer A_type { is_const := true, is_volatile := false }) = false ∧
    unique_ptr.in_class test_function_types test_classes
      (.pointer A_type { is_const := true, is_volatile := false })
      (unique_ptr.ctor def_constr_deleter A_type
        (.pointer A_type { is_const := true, is_volatile := false }) w_outside) = none ∧
    is_reference (.lvalue_reference (def_constr_deleter_type A_type)) = true ∧
    unique_ptr.in_class test_function_types test_classes
      (.lvalue_reference (def_constr_deleter_type A_type))
      (unique_ptr.ctor_pointer def_constr_deleter A_type
        (.lvalue_reference (def_constr_deleter_type A_type)) w_outside 7) = none ∧
    ((def_constr_deleter_type A_type).is_pointer_type = false ∧
      is_reference (def_constr_deleter_type A_type) = false) ∧
    unique_ptr_data_instantiable test_function_types test_classes
      (def_constr_deleter_type A_type) = true ∧
    (unique_ptr.in_class test_function_types test_classes (def_constr_deleter_type A_type)
      (unique_ptr.ctor_pointer def_constr_deleter A_type (def_constr_deleter_type A_type)
        w_outside 7)).isSome = true :=
  ⟨by decide,
    ((ctor_rejected_iff_pointer_or_reference def_constr_deleter test_function_types
      test_classes A_type function_pointer_deleter_type w_outside 7).1
      (Or.inl (by decide))).1,
    by decide, by decide,
    ((ctor_rejected_iff_pointer_or_reference def_constr_deleter test_function_types
      test_classes A_type (.pointer A_type { is_const := true, is_volatile := false })
      w_outside 7).1 (Or.inl (by decide))).1,
    by decide,
    ((ctor_rejected_iff_pointer_or_reference def_constr_deleter test_function_types
      test_classes A_type (.lvalue_reference (def_constr_deleter_type A_type)) w_outside
      7).1 (Or.inr (by decide))).2.2.1,
    ⟨by decide, by decide⟩, by decide,
    (((ctor_rejected_iff_pointer_or_reference def_constr_deleter test_function_types
      test_classes A_type (def_constr_deleter_type A_type) w_outside 7).2.2
      ⟨by decide, by decide⟩).2.2.2.1).trans (by decide)⟩

/-- C32: for a live container of the array form whose handle `p` is not null, and an index
`i` within the allocation at `p`, `operator[](i)` passes its assertion and returns the
element `i` of that allocation, which is `get()[i]`. The member function is `const`: it
is embedded as a function that reads the state and returns no new state, so that the
handle and the deleter of the container are as before. -/
theorem operator_index_returns_element {S V : Type} (w : World S) (m : Objects V)
    (x i : Nat) (p : pointer) (elems : List V)
    (hg : unique_ptr_array.get w x = some p) (hp : p ≠ 0)
    (ha : objects_at m p = some elems) (hi : i < elems.length) :
    ∃ v, unique_ptr_array.operator_index w m x i = some v ∧ elems[i]? = some v ∧
      (objects_at m p).bind (fun es => es[i]?) = some v := by
  refine ⟨elems[i], ?_, List.getElem?_eq_getElem hi, ?_⟩
  · simp [unique_ptr_array.operator_index, hg, hp, ha, List.getElem?_eq_getElem hi]
  · simp [ha, List.getElem?_eq_getElem hi]

/-- C32 on the test `unique_ptr_observers_op_index`: `p[0]` is `999` and `p[1]` is `888`. -/
theorem operator_index_returns_element_witness :
    unique_ptr_array.get w_indexed 0 = some 7 ∧ (7 : pointer) ≠ 0 ∧
    objects_at m_indexed 7 = some [999, 888] ∧ 1 < [(999 : Int), 888].length ∧
    (∃ v, unique_ptr_array.operator_index w_indexed m_indexed 0 1 = some v ∧
      [(999 : Int), 888][1]? = some v ∧
      (objects_at m_indexed 7).bind (fun es => es[1]?) = some v) ∧
    unique_ptr_array.operator_index w_indexed m_indexed 0 0 = some 999 ∧
    unique_ptr_array.operator_index w_indexed m_indexed 0 1 = some 888 :=
  ⟨rfl, by decide, rfl, by decide,
    operator_index_returns_element w_indexed m_indexed 0 1 7 [999, 888] rfl (by decide) rfl
      (by decide),
    rfl, rfl⟩

/-- C33: for a live container `x` of either form, with the handle `u.m_data.m_p` and a
deleter in state `d`, the assignment of `nullptr` and the assignment of the literal `0`
are the call `x.reset()` and return; afterwards `get()` is null; the deleter was called on
the former handle, once, when that handle was not null or the deleter is the default
deleter, and not at all otherwise; the deleter lvalue of the container designates the same
object as before, whose state is what the call left (the state `d` when there was no
call), and every other deleter object is as before. -/
theorem assign_nullptr_is_reset {D : Type} (ops : deleter_ops D) (w : World D) (x : Nat)
    (u : unique_ptr D) (d : D) (h : w.find x = some u)
    (hd : unique_ptr.get_deleter w x = some d) :
    unique_ptr.assign_nullptr ops w x = unique_ptr.reset ops w x 0 ∧
    unique_ptr.assign_zero ops w x = unique_ptr.reset ops w x 0 ∧
    unique_ptr_array.assign_nullptr ops w x = unique_ptr_array.reset_void ops w x ∧
    unique_ptr_array.assign_zero ops w x = unique_ptr_array.reset_void ops w x ∧
    unique_ptr_array.assign_nullptr ops w x = unique_ptr.assign_nullptr ops w x ∧
    ∃ w1 u1, unique_ptr.assign_nullptr ops w x = some w1 ∧
      unique_ptr.get w1 x = some 0 ∧ w1.find x = some u1 ∧
      u1.m_data.deleter x = u.m_data.deleter x ∧
      (∀ l2, l2 ≠ u.m_data.deleter x → w1.read l2 = w.read l2) ∧
      ((u.is_default_deleter_t = true ∨ u.m_data.m_p ≠ 0) →
        w1.calls = w.calls ++ [u.m_data.m_p] ∧
        w1.heap = ops.dispose d u.m_data.m_p w.heap ∧
        unique_ptr.get_deleter w1 x =
          some (ops.call d u.m_data.m_p (w.view.set x (some 0)))) ∧
      ((u.is_default_deleter_t = false ∧ u.m_data.m_p = 0) →
        w1.calls = w.calls ∧ w1.heap = w.heap ∧ unique_ptr.get_deleter w1 x = some d) := by
  have e0 : unique_ptr_array.reset_void ops w x = unique_ptr.reset ops w x 0 :=
    array_reset_void_eq ops w x
  refine ⟨rfl, rfl, rfl, rfl, e0, ?_⟩
  obtain ⟨w1, hr, hview, hshape, hframe, hcall, hskip⟩ := reset_spec ops w x 0 u d h hd
  obtain ⟨u1, hu1, hk1⟩ := find_of_shape hshape h
  have hl1 := (deleter_of_kind hk1 x).1
  have hget : unique_ptr.get w1 x = some 0 := by
    apply get_of_view
    rw [hview]
    simp [World.view, find_lt h]
  refine ⟨w1, u1, hr, hget, hu1, hl1, hframe, ?_, ?_⟩
  · intro hc
    obtain ⟨hlog, hheap, hread⟩ := hcall hc
    refine ⟨by simp [World.calls, hlog], hheap, ?_⟩
    rw [get_deleter_eq_read hu1, hl1]
    exact hread
  · intro hc
    have hw := hskip hc
    refine ⟨by rw [hw]; rfl, by rw [hw]; rfl, ?_⟩
    rw [hw, get_deleter_store_m_p h 0]
    exact hd

/-- C33 on the tests `unique_ptr_zero` and `unique_ptr_nullptr`, with the container of
`w_single`: after `p = nullptr` the handle is null and the deleter was called on `7`. -/
theorem assign_nullptr_is_reset_witness :
    w_single.find 0 = some u_owner ∧ unique_ptr.get_deleter w_single 0 = some 5 ∧
    unique_ptr.assign_nullptr move_constr_deleter w_single 0 =
      unique_ptr.reset move_constr_deleter w_single 0 0 ∧
    (∃ w1, unique_ptr.assign_nullptr move_constr_deleter w_single 0 = some w1 ∧
      unique_ptr.get w1 0 = some 0 ∧ w1.calls = [7] ∧ w1.heap = [] ∧
      unique_ptr.get_deleter w1 0 = some 6) :=
  ⟨rfl, rfl,
    (assign_nullptr_is_reset move_constr_deleter w_single 0 u_owner 5 rfl rfl).1,
    ⟨_, rfl, rfl, rfl, rfl, rfl⟩⟩

/-- C34: let `t` and `s` be two containers whose deleter type is an lvalue reference,
bound to two deleter objects `kt` and `ks`, in the states `dt` and `ds`. After the move
assignment `t = move(s)`, of either form, `t` is still bound to `kt` and `s` to `ks`; the
object `ks` is in the state `ds` as before; the object `kt` is in the state that the copy
assignment of the deleter class makes from `ds` (and from the state `a` of `kt` after
`reset`, in which the deleter of `t` ran on the former handle of `t` if that was not
null); so for a class whose copy assignment takes the state of its source, the object
`kt` is in the state `ds` and both `get_deleter()` read `ds`. -/
theorem move_assign_reference_deleter_copies_state {D : Type} (ops : deleter_ops D)
    (w : World D) (t s kt ks : Nat) (ut us : unique_ptr D) (dt ds : D) (hne : t ≠ s)
    (ht : w.find t = some ut) (hs : w.find s = some us)
    (hkt : ut.m_data.d = .reference kt) (hks : us.m_data.d = .reference ks)
    (hk : kt ≠ ks) (hdt : w.dels[kt]? = some dt) (hds : w.dels[ks]? = some ds) :
    ∃ w1 ut1 us1 a, unique_ptr.move_assign ops w t s = some w1 ∧
      unique_ptr_array.move_assign ops w t s = some w1 ∧
      w1.find t = some ut1 ∧ w1.find s = some us1 ∧
      ut1.m_data.d = .reference kt ∧ us1.m_data.d = .reference ks ∧
      unique_ptr.get w1 t = some us.m_data.m_p ∧ unique_ptr.get w1 s = some 0 ∧
      w1.dels[ks]? = some ds ∧ w1.dels[kt]? = some (ops.copy_assign a ds) ∧
      ((ut.is_default_deleter_t = true ∨ ut.m_data.m_p ≠ 0) →
        a = ops.call dt ut.m_data.m_p ((w.view.set s (some 0)).set t (some us.m_data.m_p))) ∧
      ((ut.is_default_deleter_t = false ∧ ut.m_data.m_p = 0) → a = dt) ∧
      ((∀ x y, ops.copy_assign x y = y) →
        w1.dels[kt]? = some ds ∧ unique_ptr.get_deleter w1 t = some ds ∧
        unique_ptr.get_deleter w1 s = some ds) := by
  obtain ⟨w1, ut1, us1, a, h1, h2, h3, h4, h5, h6, h7, h8, h9, h10, h11⟩ :=
    move_assign_reference_spec ops w t s kt ks ut us dt ds hne ht hs hkt hks hk hdt hds
  have hlt : ut1.m_data.deleter t = .of_object kt := by simp [unique_ptr_data.deleter, h4]
  have hls : us1.m_data.deleter s = .of_object ks := by simp [unique_ptr_data.deleter, h5]
  refine ⟨w1, ut1, us1, a, h1, by rw [array_move_assign_eq]; exact h1, h2, h3, h4, h5,
    by simp [unique_ptr.get, h2, h6], by simp [unique_ptr.get, h3, h7], h8, h9, h10, h11,
    fun hc => ?_⟩
  rw [hc] at h9
  exact ⟨h9, by rw [get_deleter_of_object h2 hlt]; exact h9,
    by rw [get_deleter_of_object h3 hls]; exact h8⟩

/-- C34 on the test `unique_ptr_asgn_move01` with reference deleters: `d1` in state `5`
and `d2` in state `6`; after `s2 = boost::move(s1)` both are in state `5`. -/
theorem move_assign_reference_deleter_copies_state_witness :
    (1 : Nat) ≠ 0 ∧ w_ref_pair.dels[1]? = some 6 ∧ w_ref_pair.dels[0]? = some 5 ∧
    (∃ w1 ut1 us1 a, unique_ptr.move_assign copy_constr_deleter w_ref_pair 1 0 = some w1 ∧
      unique_ptr_array.move_assign copy_constr_deleter w_ref_pair 1 0 = some w1 ∧
      w1.find 1 = some ut1 ∧ w1.find 0 = some us1 ∧
      ut1.m_data.d = .reference 1 ∧ us1.m_data.d = .reference 0 ∧
      unique_ptr.get w1 1 = some 7 ∧ unique_ptr.get w1 0 = some 0 ∧
      w1.dels[0]? = some 5 ∧ w1.dels[1]? = some (copy_constr_deleter.copy_assign a 5) ∧
      (((false : Bool) = true ∨ (9 : pointer) ≠ 0) →
        a = copy_constr_deleter.call 6 9
          ((w_ref_pair.view.set 0 (some 0)).set 1 (some 7))) ∧
      (((false : Bool) = false ∧ (9 : pointer) = 0) → a = 6) ∧
      ((∀ x y, copy_constr_deleter.copy_assign x y = y) →
        w1.dels[1]? = some 5 ∧ unique_ptr.get_deleter w1 1 = some 5 ∧
        unique_ptr.get_deleter w1 0 = some 5)) ∧
    (∀ x y, copy_constr_deleter.copy_assign x y = y) :=
  ⟨by decide, rfl, rfl,
    move_assign_reference_deleter_copies_state copy_constr_deleter w_ref_pair 1 0 1 0
      { m_data := { m_p := 9, d := .reference 1 }, is_default_deleter_t := false }
      { m_data := { m_p := 7, d := .reference 0 }, is_default_deleter_t := false }
      6 5 (by decide) rfl rfl rfl rfl (by decide) rfl rfl,
    fun _ _ => rfl⟩

/-- C35 at the handle `7` and a deleter argument of another type in state `5`, which
converts as the test class `move_constr_deleter` does: the definition of
`unique_ptr_data` that derives from `D` stores the handle `7` and the converted deleter,
while the definition with the member `d` initialises `m_p` with `::boost::forward<U>(p)`,
which is ill-formed for a `U` no handle converts to, so that nothing is constructed. On
the four other constructors the two definitions store the same handle and deleter. -/
theorem unique_ptr_data_forward_ctor_differs :
    (∃ r, unique_ptr_data_base.ctor_forward move_constr_deleter.move_ctor 7 5 = some r ∧
      r.1.m_p = 7 ∧ r.1.deleter = 5 ∧ r.2 = 0) ∧
    unique_ptr_data_member.ctor_forward forward_unrelated move_constr_deleter.move_ctor 7 5
      = none ∧
    (unique_ptr_data_member.ctor move_constr_deleter).m_p =
      (unique_ptr_data_base.ctor move_constr_deleter).m_p ∧
    (unique_ptr_data_member.ctor_pointer move_constr_deleter 7).m_p =
      (unique_ptr_data_base.ctor_pointer move_constr_deleter 7).m_p ∧
    (unique_ptr_data_member.ctor_deleter1 move_constr_deleter 7 5).m_p =
      (unique_ptr_data_base.ctor_deleter1 move_constr_deleter 7 5).m_p ∧
    (unique_ptr_data_member.ctor_deleter2 move_constr_deleter 7 5).1.m_p =
      (unique_ptr_data_base.ctor_deleter2 move_constr_deleter 7 5).1.m_p ∧
    (unique_ptr_data_member.ctor_deleter2 move_constr_deleter 7 5).1.deleter =
      (unique_ptr_data_base.ctor_deleter2 move_constr_deleter 7 5).1.deleter :=
  ⟨(unique_ptr_data_forward_spec forward_unrelated move_constr_deleter.move_ctor 7 5).1,
    (unique_ptr_data_forward_spec forward_unrelated move_constr_deleter.move_ctor 7 5).2.1 rfl,
    rfl, rfl, rfl, rfl, rfl⟩

/-- C36 on the two containers of `w_pair`, which own the objects at `7` and at `9`, with
the built-in operators of raw pointers: of the fourteen asserted expressions of
`unique_compare::test`, evaluated in the order of the source, the second, the sixth, the
eighth and the fourteenth are false and the other ten are true. The second,
`!(rpl == rpg) && !(rpl.get() != rpg.get())`, is false in its second operand, the
negation of an operand of the third assertion `rpl != rpg && rpl.get() != rpg.get()`; the
sixth, `!(rpl < rpg) && !(rpl.get() < rpg.get())`, is false in its first operand, the
negation of an operand of the fifth assertion `rpl < rpg && rpl.get() < rpg.get()`. -/
theorem unique_compare_assertions_do_not_all_hold :
    unique_compare_test raw_pointer_ops w_pair 0 1 =
      some [true, false, true, true, true, false, true, false, true, true, true, true, true,
        false] ∧
    (operator_eq raw_pointer_ops w_pair 0 1).map
      (fun b => !b && !raw_pointer_ops.ne 7 9) = some false ∧
    (operator_ne raw_pointer_ops w_pair 0 1).map
      (fun b => b && raw_pointer_ops.ne 7 9) = some true ∧
    (operator_lt raw_pointer_ops w_pair 0 1).map
      (fun b => !b && !raw_pointer_ops.lt 7 9) = some false ∧
    (operator_lt raw_pointer_ops w_pair 0 1).map
      (fun b => b && raw_pointer_ops.lt 7 9) = some true ∧
    ¬ (∃ bs, unique_compare_test raw_pointer_ops w_pair 0 1 = some bs ∧
      ∀ b, b ∈ bs → b = true) := by
  have e := (unique_compare_test_eq w_pair 0 1 7 9 rfl rfl (by decide)).1
  refine ⟨e, rfl, rfl, rfl, rfl, ?_⟩
  rintro ⟨bs, h, hall⟩
  rw [e] at h
  have hb := Option.some.inj h
  have := hall false (by rw [← hb]; simp)
  cases this

/-- C37: self move assignment `x = move(x)` of a live container `x` with the handle `p`,
in both forms of `unique_ptr`, returns, leaves `x.get() == p`, and invokes the deleter at
most once, namely on the null handle and only when the deleter is the default deleter: a
container with another deleter sees no invocation and an unchanged free store, and when
`p` is not null no invocation since the assignment began is on `p`. The free store is
left as it was by every deleter whose call on the null handle frees nothing. -/
theorem self_move_assign_keeps_resource {D : Type} (ops : deleter_ops D) (w : World D)
    (x : Nat) (u : unique_ptr D) (d : D) (h : w.find x = some u)
    (hd : unique_ptr.get_deleter w x = some d) :
    ∃ w1, unique_ptr.move_assign ops w x x = some w1 ∧
      unique_ptr_array.move_assign ops w x x = some w1 ∧
      unique_ptr.get w1 x = some u.m_data.m_p ∧
      w1.calls = w.calls ++ (if u.is_default_deleter_t = true then [0] else []) ∧
      (u.m_data.m_p ≠ 0 → ∀ e, e ∈ w1.log.drop w.log.length → e.arg ≠ u.m_data.m_p) ∧
      (u.is_default_deleter_t = false → w1.log = w.log ∧ w1.heap = w.heap) ∧
      w1.heap = (if u.is_default_deleter_t = true then ops.dispose d 0 w.heap else w.heap) ∧
      ((∀ e hp, ops.dispose e 0 hp = hp) → w1.heap = w.heap) := by
  obtain ⟨w1, he, hget, hlog, hheap⟩ := self_move_assign_spec ops w x u d h hd
  refine ⟨w1, he, by rw [array_move_assign_eq]; exact he, hget, ?_, ?_, ?_, hheap, ?_⟩
  · rw [World.calls, hlog, List.map_append]
    cases u.is_default_deleter_t <;> simp [World.calls]
  · intro hp e hmem
    rw [hlog, List.drop_left] at hmem
    cases htag : u.is_default_deleter_t with
    | false => simp [htag] at hmem
    | true =>
      simp [htag] at hmem
      rw [hmem]
      exact fun e0 => hp e0.symm
  · intro htag
    rw [hlog, hheap]
    simp [htag]
  · intro hnull
    rw [hheap]
    split
    · exact hnull _ _
    · rfl

/-- C37 on the container of `w_indexed`, which has the default deleter and owns the array
at `7`: the only call is `default_delete` on the null handle, and the array stays. -/
theorem self_move_assign_keeps_resource_witness :
    w_indexed.find 0 =
      some { m_data := { m_p := 7, d := .member () }, is_default_deleter_t := true } ∧
    unique_ptr.get_deleter w_indexed 0 = some () ∧
    ∃ w1, unique_ptr.move_assign default_delete w_indexed 0 0 = some w1 ∧
      unique_ptr.get w1 0 = some 7 ∧ w1.calls = [0] ∧ w1.heap = [(7, 2)] := by
  obtain ⟨w1, he, _, hget, hcalls, _, _, _, hheap⟩ :=
    self_move_assign_keeps_resource default_delete w_indexed 0
      { m_data := { m_p := 7, d := .member () }, is_default_deleter_t := true } () rfl rfl
  exact ⟨rfl, rfl, w1, he, hget, hcalls, hheap (fun _ hp => cpp_delete_null hp)⟩

/-- C38: `reset` does not compare its argument with the stored handle. For a live
container `x` with a handle `p` that is not null, in both forms of `unique_ptr`,
`x.reset(p)` returns, invokes the deleter exactly once, on `p`, with the containers
storing the handles they stored before the call, and leaves `x.get() == p`; the free store
is what the deleter makes of it, so with a deleter that deletes its argument the object at
`p` is gone while `x` still stores `p`. -/
theorem reset_own_handle_disposes_it {D : Type} (ops : deleter_ops D) (w : World D)
    (x : Nat) (u : unique_ptr D) (d : D) (h : w.find x = some u)
    (hd : unique_ptr.get_deleter w x = some d) (hp : u.m_data.m_p ≠ 0) :
    ∃ w1, unique_ptr.reset ops w x u.m_data.m_p = some w1 ∧
      unique_ptr_array.reset ops w x u.m_data.m_p = some w1 ∧
      unique_ptr.get w x = some u.m_data.m_p ∧
      unique_ptr.get w1 x = some u.m_data.m_p ∧
      w1.view = w.view ∧
      w1.calls = w.calls ++ [u.m_data.m_p] ∧
      w1.log = w.log ++ [⟨u.m_data.deleter x, u.m_data.m_p, w.view⟩] ∧
      w1.heap = ops.dispose d u.m_data.m_p w.heap ∧
      ((∀ e q hq, ops.dispose e q hq = cpp_delete q hq) →
        ∀ a, a ∈ w1.heap → a.1 ≠ u.m_data.m_p) := by
  obtain ⟨w1, he, hget, hlog, hheap, _⟩ := reset_events ops w x u.m_data.m_p u d h hd
  obtain ⟨w2, he2, hview, _, _⟩ := reset_summary ops w x u.m_data.m_p u d h hd
  have hw : w2 = w1 := Option.some.inj (he2.symm.trans he)
  subst hw
  have hc : u.is_default_deleter_t = true ∨ u.m_data.m_p ≠ 0 := Or.inr hp
  rw [if_pos hc, view_set_self h] at hlog
  rw [if_pos hc] at hheap
  refine ⟨w2, he, by rw [array_reset_eq]; exact he, by simp [unique_ptr.get, h], hget,
    by rw [hview, view_set_self h], ?_, hlog, hheap, ?_⟩
  · simp [World.calls, hlog]
  · intro hdel a ha
    rw [hheap, hdel] at ha
    exact cpp_delete_removes _ _ hp a ha

/-- C38 on the container of `w_single`, which owns the object at `7`: after `reset(7)`
the deleter has been called on `7`, the free store is empty and the container stores
`7`. -/
theorem reset_own_handle_disposes_it_witness :
    w_single.find 0 = some u_owner ∧ unique_ptr.get_deleter w_single 0 = some 5 ∧
    u_owner.m_data.m_p ≠ 0 ∧
    ∃ w1, unique_ptr.reset move_constr_deleter w_single 0 7 = some w1 ∧
      unique_ptr.get w1 0 = some 7 ∧ w1.calls = [7] ∧ w1.heap = [] := by
  obtain ⟨w1, he, _, _, hget, _, hcalls, _, hheap, _⟩ :=
    reset_own_handle_disposes_it move_constr_deleter w_single 0 u_owner 5 rfl rfl
      (by decide)
  exact ⟨rfl, rfl, by decide, w1, he, hget, hcalls, by rw [hheap]; rfl⟩

/-- C39: the constant `is_default_deleter_t` of `unique_ptr<T, D>` is true exactly when `D`
is `default_delete<T>`, and that of `unique_ptr<T[], D>` exactly when `D` is
`default_delete<T[]>`. With the constant as its tag, `unique_ptr_call_deleter` is the call
`d(p)` for every handle, the null one included, when `D` is that type; for every other `D`
it does nothing on the null handle and is the call `d(p)` on the others. Among the other
types are `default_delete<U>` for `U` other than `T`, every class that is not a
specialisation of a template (such as a class derived from `default_delete<T>`), every
reference type (such as `default_delete<T>&`) and `const default_delete<T>`. A container
that a constructor makes carries the constant of its class. -/
theorem unconditional_call_iff_exact_default_delete {S : Type} (ops : deleter_ops S)
    (T D : cpp_type) (w : World S) (l : deleter_lvalue) (p : pointer) :
    (is_default_deleter_t T D = true ↔ D = default_delete_type T) ∧
    (array_is_default_deleter_t T D = true ↔
      D = default_delete_type (.array_unknown_bound T)) ∧
    (D = default_delete_type T →
      unique_ptr_call_deleter ops w l p (is_default_deleter_t T D) = invoke ops w l p) ∧
    (D ≠ default_delete_type T →
      unique_ptr_call_deleter ops w l 0 (is_default_deleter_t T D) = some w ∧
      (p ≠ 0 →
        unique_ptr_call_deleter ops w l p (is_default_deleter_t T D) = invoke ops w l p)) ∧
    (D = default_delete_type (.array_unknown_bound T) →
      unique_ptr_call_deleter ops w l p (array_is_default_deleter_t T D) =
        invoke ops w l p) ∧
    (D ≠ default_delete_type (.array_unknown_bound T) →
      unique_ptr_call_deleter ops w l 0 (array_is_default_deleter_t T D) = some w ∧
      (p ≠ 0 →
        unique_ptr_call_deleter ops w l p (array_is_default_deleter_t T D) =
          invoke ops w l p)) ∧
    (∀ U, U ≠ T → is_default_deleter_t T (default_delete_type U) = false) ∧
    (∀ U, U ≠ .array_unknown_bound T →
      array_is_default_deleter_t T (default_delete_type U) = false) ∧
    (∀ name cv, is_default_deleter_t T (.named name cv) = false ∧
      array_is_default_deleter_t T (.named name cv) = false) ∧
    (∀ E, is_default_deleter_t T (.lvalue_reference E) = false ∧
      array_is_default_deleter_t T (.lvalue_reference E) = false ∧
      is_default_deleter_t T (.rvalue_reference E) = false ∧
      array_is_default_deleter_t T (.rvalue_reference E) = false) ∧
    (∀ cv, cv ≠ cv_qualifiers.none →
      is_default_deleter_t T (.template_id "default_delete" T cv) = false ∧
      array_is_default_deleter_t T
        (.template_id "default_delete" (.array_unknown_bound T) cv) = false) ∧
    (∀ i w1, unique_ptr.ctor_pointer ops T D w p = some (i, w1) →
      (w1.find i).map (fun u => u.is_default_deleter_t) =
        some (decide (D = default_delete_type T))) ∧
    (∀ i w1, unique_ptr_array.ctor ops T D w = some (i, w1) →
      (w1.find i).map (fun u => u.is_default_deleter_t) =
        some (decide (D = default_delete_type (.array_unknown_bound T)))) := by
  have h1 := is_default_deleter_t_iff T D
  have h2 := array_is_default_deleter_t_iff T D
  have f1 : ∀ E, E ≠ default_delete_type T → is_default_deleter_t T E = false := by
    intro E hE
    cases hb : is_default_deleter_t T E
    · rfl
    · exact absurd ((is_default_deleter_t_iff T E).1 hb) hE
  have f2 : ∀ E, E ≠ default_delete_type (.array_unknown_bound T) →
      array_is_default_deleter_t T E = false := by
    intro E hE
    cases hb : array_is_default_deleter_t T E
    · rfl
    · exact absurd ((array_is_default_deleter_t_iff T E).1 hb) hE
  refine ⟨h1, h2, ?_, ?_, ?_, ?_, ?_, ?_, ?_, ?_, ?_, ?_, ?_⟩
  · intro hD
    exact (call_deleter_of_tag ops w l p _).1 (h1.2 hD)
  · intro hD
    exact (call_deleter_of_tag ops w l p _).2 (f1 D hD)
  · intro hD
    exact (call_deleter_of_tag ops w l p _).1 (h2.2 hD)
  · intro hD
    exact (call_deleter_of_tag ops w l p _).2 (f2 D hD)
  · intro U hU
    exact f1 _ (by simp [default_delete_type, hU])
  · intro U hU
    exact f2 _ (by simp [default_delete_type, hU])
  · intro name cv
    exact ⟨f1 _ (by simp [default_delete_type]), f2 _ (by simp [default_delete_type])⟩
  · intro E
    exact ⟨f1 _ (by simp [default_delete_type]), f2 _ (by simp [default_delete_type]),
      f1 _ (by simp [default_delete_type]), f2 _ (by simp [default_delete_type])⟩
  · intro cv hcv
    exact ⟨f1 _ (by simp [default_delete_type, hcv]),
      f2 _ (by simp [default_delete_type, hcv])⟩
  · intro i w1 hc
    unfold unique_ptr.ctor_pointer at hc
    split at hc
    · cases hc
    · have e := Option.some.inj hc
      simp only [World.alloc, Prod.mk.injEq] at e
      obtain ⟨ei, ew⟩ := e
      subst ei ew
      simp [World.find, is_default_deleter_t, is_same]
  · intro i w1 hc
    unfold unique_ptr_array.ctor at hc
    split at hc
    · cases hc
    · have e := Option.some.inj hc
      simp only [World.alloc, Prod.mk.injEq] at e
      obtain ⟨ei, ew⟩ := e
      subst ei ew
      simp [World.find, array_is_default_deleter_t, is_same]

/-- C39 on `unique_ptr<A, D>`: with `default_delete<A>` the call on the null handle of the
container of `w_default_null` is made, and neither `default_delete<B>` nor
`default_delete<A>&` gives the constant `true`. -/
theorem unconditional_call_iff_exact_default_delete_witness :
    is_default_deleter_t A_type (default_delete_type A_type) = true ∧
    unique_ptr_call_deleter default_delete w_default_null (.of_member 0) 0
        (is_default_deleter_t A_type (default_delete_type A_type)) =
      invoke default_delete w_default_null (.of_member 0) 0 ∧
    is_default_deleter_t A_type (default_delete_type B_type) = false ∧
    is_default_deleter_t A_type (.lvalue_reference (default_delete_type A_type)) = false :=
  ⟨(unconditional_call_iff_exact_default_delete default_delete A_type
      (default_delete_type A_type) w_default_null (.of_member 0) 0).1.2 rfl,
    (unconditional_call_iff_exact_default_delete default_delete A_type
      (default_delete_type A_type) w_default_null (.of_member 0) 0).2.2.1 rfl,
    (unconditional_call_iff_exact_default_delete default_delete A_type
      (default_delete_type A_type) w_default_null (.of_member 0) 0).2.2.2.2.2.2.1 B_type
      (by decide),
    ((unconditional_call_iff_exact_default_delete default_delete A_type
      (default_delete_type A_type) w_default_null (.of_member 0)
      0).2.2.2.2.2.2.2.2.2.1 (default_delete_type A_type)).1⟩

/-- C40: `swap` is symmetric and an involution. For two live containers `x` and `y` of
one class, in both forms of `unique_ptr`, with a `swap` of handles and of deleters that
exchanges its arguments (the helper `boost::move_detail::swap` is a parameter here):
`x.swap(y)` and `y.swap(x)` return and give the same state, in which `x` has the handle and
the deleter that `y` had and `y` those that `x` had; and a second `x.swap(y)` gives back
the state before the first, so both containers have their original handle and deleter. -/
theorem swap_symmetric_and_involutive {D : Type} (ops : deleter_ops D) (w : World D)
    (x y : Nat) (a b : unique_ptr D) (da db : D)
    (hx : w.find x = some a) (hy : w.find y = some b)
    (hda : unique_ptr.get_deleter w x = some da)
    (hdb : unique_ptr.get_deleter w y = some db)
    (hsw : ∀ p q, ops.swap p q = (q, p)) (hself : ∀ p, ops.swap_self p = p) :
    ∃ w1, unique_ptr.swap ops w x y = some w1 ∧ unique_ptr.swap ops w y x = some w1 ∧
      unique_ptr_array.swap ops w x y = some w1 ∧
      unique_ptr_array.swap ops w y x = some w1 ∧
      unique_ptr.get w1 x = some b.m_data.m_p ∧ unique_ptr.get w1 y = some a.m_data.m_p ∧
      unique_ptr.get_deleter w1 x = some db ∧ unique_ptr.get_deleter w1 y = some da ∧
      unique_ptr.swap ops w1 x y = some w ∧ unique_ptr_array.swap ops w1 x y = some w ∧
      (unique_ptr.swap ops w x y).bind (fun v => unique_ptr.swap ops v x y) = some w := by
  obtain ⟨w1, he1, hv1, hs1, hl1, hh1, hr1⟩ := swap_full ops w x y a b da db hx hy hda hdb
    hsw hself
  obtain ⟨w2, he2, hv2, hs2, hl2, hh2, hr2⟩ := swap_full ops w y x b a db da hy hx hdb hda
    hsw hself
  obtain ⟨w1b, he1b, hgx, hgy, hdx, hdy, _, _⟩ := swap_spec ops w x y a b da db hx hy hda hdb
    hsw hself
  have hw1b : w1b = w1 := Option.some.inj (he1b.symm.trans he1)
  subst hw1b
  have hrda := hda
  have hrdb := hdb
  rw [get_deleter_eq_read hx] at hrda
  rw [get_deleter_eq_read hy] at hrdb
  have hsame : a.m_data.deleter x = b.m_data.deleter y → da = db := by
    intro hab
    rw [hab, hrdb] at hrda
    exact (Option.some.inj hrda).symm
  -- the two orders give one state
  have h21 : w2 = w1b := by
    apply world_ext_of_reads
    · rw [hv1, hv2]
      by_cases hxy : x = y
      · subst hxy
        rw [hx] at hy
        have hab : a = b := Option.some.inj hy
        rw [hab]
      · exact List.set_comm _ _ _ (fun h => hxy h.symm)
    · rw [hs1, hs2]
    · intro l
      rw [hr1, hr2]
      by_cases hab : a.m_data.deleter x = b.m_data.deleter y
      · have hdd := hsame hab
        subst hdd
        rw [hab]
      · by_cases hla : l = a.m_data.deleter x
        · have hlb : ¬ l = b.m_data.deleter y := fun h => hab (hla.symm.trans h)
          simp only [if_pos hla, if_neg hlb]
        · simp only [if_neg hla]
    · rw [hl1, hl2]
    · rw [hh1, hh2]
  subst h21
  -- the second swap
  obtain ⟨a1, ha1, hka1⟩ := find_of_shape hs1 hx
  obtain ⟨b1, hb1, hkb1⟩ := find_of_shape hs1 hy
  have hpa1 : a1.m_data.m_p = b.m_data.m_p := by
    simpa [unique_ptr.get, ha1] using hgx
  have hpb1 : b1.m_data.m_p = a.m_data.m_p := by
    simpa [unique_ptr.get, hb1] using hgy
  have hda1 := (deleter_of_kind hka1 x).1
  have hdb1 := (deleter_of_kind hkb1 y).1
  obtain ⟨w3, he3, hv3, hs3, hl3, hh3, hr3⟩ := swap_full ops w2 x y a1 b1 db da ha1 hb1 hdx hdy
    hsw hself
  have h3 : w3 = w := by
    apply world_ext_of_reads
    · rw [hv3, hv1, hpa1, hpb1]
      have hvx := view_getElem_of_find hx
      have hvy := view_getElem_of_find hy
      have hlx : x < w.view.length := by simpa [World.view] using find_lt hx
      have hly : y < w.view.length := by simpa [World.view] using find_lt hy
      apply List.ext_getElem?
      intro n
      by_cases hny : y = n
      · subst hny
        rw [List.getElem?_set, if_pos rfl, hvy]
        simp [hly]
      · rw [List.getElem?_set_ne hny]
        by_cases hnx : x = n
        · subst hnx
          rw [List.getElem?_set, if_pos rfl, hvx]
          simp [hlx]
        · rw [List.getElem?_set_ne hnx, List.getElem?_set_ne hny, List.getElem?_set_ne hnx]
    · rw [hs3, hs1]
    · intro l
      rw [hr3, hr1, hda1, hdb1]
      by_cases hla : l = a.m_data.deleter x
      · simp only [if_pos hla]
        rw [hla, hrda]
      · simp only [if_neg hla]
        by_cases hlb : l = b.m_data.deleter y
        · simp only [if_pos hlb]
          rw [hlb, hrdb]
        · simp only [if_neg hlb]
    · rw [hl3, hl1]
    · rw [hh3, hh1]
  subst h3
  refine ⟨w2, he1, he2, by rw [array_swap_eq]; exact he1, by rw [array_swap_eq]; exact he2,
    hgx, hgy, hdx, hdy, he3, by rw [array_swap_eq]; exact he3, ?_⟩
  rw [he1]
  exact he3

/-- C40 on the state of the test `unique_ptr_modifiers_swap`, whose containers own the
objects at `7` and `9` with deleters in the states `1` and `2`. -/
theorem swap_symmetric_and_involutive_witness :
    w_swap.find 0 =
      some { m_data := { m_p := 7, d := .member 1 }, is_default_deleter_t := false } ∧
    w_swap.find 1 =
      some { m_data := { m_p := 9, d := .member 2 }, is_default_deleter_t := false } ∧
    unique_ptr.get_deleter w_swap 0 = some 1 ∧ unique_ptr.get_deleter w_swap 1 = some 2 ∧
    (∀ p q, move_constr_deleter.swap p q = (q, p)) ∧
    (∀ p, move_constr_deleter.swap_self p = p) ∧
    ∃ w1, unique_ptr.swap move_constr_deleter w_swap 0 1 = some w1 ∧
      unique_ptr.swap move_constr_deleter w_swap 1 0 = some w1 ∧
      unique_ptr.get w1 0 = some 9 ∧ unique_ptr.get w1 1 = some 7 ∧
      unique_ptr.get_deleter w1 0 = some 2 ∧ unique_ptr.get_deleter w1 1 = some 1 ∧
      unique_ptr.swap move_constr_deleter w1 0 1 = some w_swap := by
  obtain ⟨w1, h1, h2, _, _, h5, h6, h7, h8, h9, _⟩ :=
    swap_symmetric_and_involutive move_constr_deleter w_swap 0 1
      { m_data := { m_p := 7, d := .member 1 }, is_default_deleter_t := false }
      { m_data := { m_p := 9, d := .member 2 }, is_default_deleter_t := false } 1 2
      rfl rfl rfl rfl (fun _ _ => rfl) (fun _ => rfl)
  exact ⟨rfl, rfl, rfl, rfl, fun _ _ => rfl, fun _ => rfl, w1, h1, h2, h5, h6, h7, h8, h9⟩

end movelib
